import Mathlib

/-! ESP3 packet framer of `enoceancomm.cpp` and rocker decoding of `enoceanrps.cpp`

A shallow embedding of `Esp3Packet` (CRC8, the incremental framer
`acceptBytes`, the radio telegram and RPS accessors), of
`EnoceanComm::acceptBytes` and of `EnoceanRpsButtonHandler::handleRadioPacket`.

Conventions of the embedding:
* a `uint8_t` is a `Nat` below 256; a byte buffer is a `List Nat`;
* a `uint8_t *` that may be `NULL` is an `Option (List Nat)`;
* a read outside a buffer (undefined in C++) yields `0`, a write outside a
  buffer leaves the buffer unchanged;
* the `while` loops take a fuel argument and return `none` when it runs out;
  the entry points supply a fuel that is shown to be sufficient.
-/

namespace p44

/-! ## CRC8 -/

/-- The lookup table `CRC8Table[256]`. -/
def CRC8Table : List Nat := [
  0x00, 0x07, 0x0e, 0x09, 0x1c, 0x1b, 0x12, 0x15,
  0x38, 0x3f, 0x36, 0x31, 0x24, 0x23, 0x2a, 0x2d,
  0x70, 0x77, 0x7e, 0x79, 0x6c, 0x6b, 0x62, 0x65,
  0x48, 0x4f, 0x46, 0x41, 0x54, 0x53, 0x5a, 0x5d,
  0xe0, 0xe7, 0xee, 0xe9, 0xfc, 0xfb, 0xf2, 0xf5,
  0xd8, 0xdf, 0xd6, 0xd1, 0xc4, 0xc3, 0xca, 0xcd,
  0x90, 0x97, 0x9e, 0x99, 0x8c, 0x8b, 0x82, 0x85,
  0xa8, 0xaf, 0xa6, 0xa1, 0xb4, 0xb3, 0xba, 0xbd,
  0xc7, 0xc0, 0xc9, 0xce, 0xdb, 0xdc, 0xd5, 0xd2,
  0xff, 0xf8, 0xf1, 0xf6, 0xe3, 0xe4, 0xed, 0xea,
  0xb7, 0xb0, 0xb9, 0xbe, 0xab, 0xac, 0xa5, 0xa2,
  0x8f, 0x88, 0x81, 0x86, 0x93, 0x94, 0x9d, 0x9a,
  0x27, 0x20, 0x29, 0x2e, 0x3b, 0x3c, 0x35, 0x32,
  0x1f, 0x18, 0x11, 0x16, 0x03, 0x04, 0x0d, 0x0a,
  0x57, 0x50, 0x59, 0x5e, 0x4b, 0x4c, 0x45, 0x42,
  0x6f, 0x68, 0x61, 0x66, 0x73, 0x74, 0x7d, 0x7a,
  0x89, 0x8e, 0x87, 0x80, 0x95, 0x92, 0x9b, 0x9c,
  0xb1, 0xb6, 0xbf, 0xb8, 0xad, 0xaa, 0xa3, 0xa4,
  0xf9, 0xfe, 0xf7, 0xf0, 0xe5, 0xe2, 0xeb, 0xec,
  0xc1, 0xc6, 0xcf, 0xc8, 0xdd, 0xda, 0xd3, 0xd4,
  0x69, 0x6e, 0x67, 0x60, 0x75, 0x72, 0x7b, 0x7c,
  0x51, 0x56, 0x5f, 0x58, 0x4d, 0x4a, 0x43, 0x44,
  0x19, 0x1e, 0x17, 0x10, 0x05, 0x02, 0x0b, 0x0c,
  0x21, 0x26, 0x2f, 0x28, 0x3d, 0x3a, 0x33, 0x34,
  0x4e, 0x49, 0x40, 0x47, 0x52, 0x55, 0x5c, 0x5b,
  0x76, 0x71, 0x78, 0x7f, 0x6A, 0x6d, 0x64, 0x63,
  0x3e, 0x39, 0x30, 0x37, 0x22, 0x25, 0x2c, 0x2b,
  0x06, 0x01, 0x08, 0x0f, 0x1a, 0x1d, 0x14, 0x13,
  0xae, 0xa9, 0xa0, 0xa7, 0xb2, 0xb5, 0xbc, 0xbb,
  0x96, 0x91, 0x98, 0x9f, 0x8a, 0x8D, 0x84, 0x83,
  0xde, 0xd9, 0xd0, 0xd7, 0xc2, 0xc5, 0xcc, 0xcb,
  0xe6, 0xe1, 0xe8, 0xef, 0xfa, 0xfd, 0xf4, 0xf3]

/-- `Esp3Packet::addToCrc8(aByte, aCRCValue)`: `CRC8Table[aCRCValue ^ aByte]`. -/
def addToCrc8 (aByte aCRCValue : Nat) : Nat :=
  CRC8Table.getD (aCRCValue ^^^ aByte) 0

/-- `Esp3Packet::crc8(aDataP, aNumBytes, aCRCValue)`: the `for` loop over the
buffer.  The source calls `addToCrc8(aCRCValue, aDataP[i])`, that is with the
running value in the `aByte` position and the data byte in the `aCRCValue`
position; the embedding keeps that argument order. -/
def crc8 (aData : List Nat) (aCRCValue : Nat) : Nat :=
  aData.foldl (fun crc b => addToCrc8 crc b) aCRCValue

/-! ### Bitwise reference CRC-8 (polynomial 0x07, MSB first) -/

/-- One shift of the reference register: shift left by one modulo 256 and xor
the polynomial `0x07` when the bit shifted out was `1`. -/
def crc8RefShift (r : Nat) : Nat :=
  if r &&& 0x80 = 0x80 then ((r <<< 1) % 256) ^^^ 0x07 else (r <<< 1) % 256

/-- Reference treatment of one byte: xor it into the register, then shift
eight times. -/
def crc8RefByte (r b : Nat) : Nat :=
  crc8RefShift (crc8RefShift (crc8RefShift (crc8RefShift
    (crc8RefShift (crc8RefShift (crc8RefShift (crc8RefShift (r ^^^ b))))))))

/-- Reference CRC-8 of a byte sequence from seed `s`. -/
def crc8Ref (xs : List Nat) (s : Nat) : Nat :=
  xs.foldl crc8RefByte s


/-! ## ESP3 packet object -/

/-- `Esp3Packet::PacketState`. -/
inductive PacketState where
  | ps_syncwait
  | ps_headerread
  | ps_dataread
  | ps_complete
  deriving DecidableEq, Repr

/-- The private data members of `Esp3Packet`. `payloadP = none` is the `NULL`
pointer; `some buf` is an allocated buffer. -/
structure Esp3Packet where
  state : PacketState
  header : List Nat
  dataIndex : Nat
  payloadP : Option (List Nat)
  payloadSize : Nat
  deriving DecidableEq, Repr

/-- `#define ESP3_HEADERBYTES 6`. -/
def ESP3_HEADERBYTES : Nat := 6

/-- `pt_radio = 0x01`. -/
def pt_radio : Nat := 0x01

/-- `rorg_invalid = 0`. -/
def rorg_invalid : Nat := 0

/-- `rorg_RPS = 0xF6`. -/
def rorg_RPS : Nat := 0xF6

/-- `rorg_VLD = 0xD2`. -/
def rorg_VLD : Nat := 0xD2

/-- `#define STATUS_MASK 0x30`. -/
def STATUS_MASK : Nat := 0x30

/-- `#define STATUS_T21 0x20`. -/
def STATUS_T21 : Nat := 0x20

/-- `#define STATUS_NU 0x10`: set if N-message, cleared if U-message. -/
def STATUS_NU : Nat := 0x10

/-- `rpsa_none = 0`. -/
def rpsa_none : Nat := 0

/-- `rpsa_onOrDown = 0x01`. -/
def rpsa_onOrDown : Nat := 0x01

/-- `rpsa_offOrUp = 0x02`. -/
def rpsa_offOrUp : Nat := 0x02

/-- `rpsa_multiple = 0x04`. -/
def rpsa_multiple : Nat := 0x04

/-- `rpsa_pressed = 0x10`. -/
def rpsa_pressed : Nat := 0x10

/-- `rpsa_released = 0x20`. -/
def rpsa_released : Nat := 0x20

namespace Esp3Packet

/-- `Esp3Packet::clearData()`: free the payload, `payloadSize = 0`. -/
def clearData (p : Esp3Packet) : Esp3Packet :=
  { p with payloadP := none, payloadSize := 0 }

/-- `Esp3Packet::clear()`: `clearData()`, zero the header, state `ps_syncwait`. -/
def clear (p : Esp3Packet) : Esp3Packet :=
  { clearData p with header := List.replicate 6 0, state := PacketState.ps_syncwait }

/-- The constructor `Esp3Packet::Esp3Packet()`: `payloadP(NULL)` and `clear()`.
The member `dataIndex` is left uninitialised by the source; it is `0` here (it
is assigned before it is first read). -/
def new : Esp3Packet :=
  clear { state := PacketState.ps_syncwait, header := List.replicate 6 0, dataIndex := 0,
          payloadP := none, payloadSize := 0 }

/-- `Esp3Packet::dataLength()`: `(header[1]<<8) + header[2]`. -/
def dataLength (p : Esp3Packet) : Nat :=
  (p.header.getD 1 0 <<< 8) + p.header.getD 2 0

/-- `Esp3Packet::optDataLength()`: `header[3]`. -/
def optDataLength (p : Esp3Packet) : Nat :=
  p.header.getD 3 0

/-- `Esp3Packet::packetType()`: `header[4]`. -/
def packetType (p : Esp3Packet) : Nat :=
  p.header.getD 4 0

/-- `Esp3Packet::headerCRC()`: `crc8(header+1, ESP3_HEADERBYTES-2)`. -/
def headerCRC (p : Esp3Packet) : Nat :=
  crc8 ((p.header.drop 1).take (ESP3_HEADERBYTES - 2)) 0

/-- `Esp3Packet::payloadCRC()`: `0` without payload, else
`crc8(payloadP, payloadSize-1)`. -/
def payloadCRC (p : Esp3Packet) : Nat :=
  match p.payloadP with
  | none => 0
  | some buf => crc8 (buf.take (p.payloadSize - 1)) 0

/-- `Esp3Packet::isComplete()`. -/
def isComplete (p : Esp3Packet) : Bool :=
  decide (p.state = PacketState.ps_complete)

/-- `Esp3Packet::data()`, as the packet it leaves behind; the pointer it returns
is the `payloadP` of that packet.  The size test looks at the *stored*
`payloadSize`, as the source does, before the new size `s` is assigned. -/
def data (p : Esp3Packet) : Esp3Packet :=
  let s := dataLength p + optDataLength p + 1
  if s ≠ p.payloadSize ∨ p.payloadP = none then
    if p.payloadSize > 300 then
      clearData p
    else
      { p with payloadSize := s, payloadP := some (List.replicate s 0) }
  else p

/-- How one pass through the `switch` leaves the enclosing loop: go on with the
next byte, go on after arming the header replay, or `return acceptedBytes`. -/
inductive Flow where
  | next
  | replay
  | done
  deriving DecidableEq, Repr

/-- The `switch (state)` of `Esp3Packet::acceptBytes` for one fetched byte. -/
def processByte (p : Esp3Packet) (byte : Nat) : Esp3Packet × Flow :=
  match p.state with
  | PacketState.ps_syncwait =>
    if byte = 0x55 then
      ({ p with header := p.header.set 0 byte, state := PacketState.ps_headerread,
                dataIndex := 1 }, Flow.next)
    else (p, Flow.next)
  | PacketState.ps_headerread =>
    let p1 := { p with header := p.header.set p.dataIndex byte, dataIndex := p.dataIndex + 1 }
    if p1.dataIndex = ESP3_HEADERBYTES then
      if p1.header.getD (ESP3_HEADERBYTES - 1) 0 ≠ headerCRC p1 then
        ({ p1 with state := PacketState.ps_syncwait }, Flow.replay)
      else
        ({ data p1 with dataIndex := 0, state := PacketState.ps_dataread }, Flow.next)
    else (p1, Flow.next)
  | PacketState.ps_dataread =>
    let p1 := { p with payloadP := p.payloadP.map (fun buf => buf.set p.dataIndex byte),
                       dataIndex := p.dataIndex + 1 }
    if p1.dataIndex = p1.payloadSize then
      if (p1.payloadP.getD []).getD (p1.payloadSize - 1) 0 ≠ payloadCRC p1 then
        (clear p1, Flow.next)
      else
        ({ p1 with state := PacketState.ps_complete }, Flow.done)
    else (p1, Flow.next)
  | PacketState.ps_complete => (clear p, Flow.next)

/-- The `while (acceptedBytes<aNumBytes || replayBytes>0)` loop of
`Esp3Packet::acceptBytes`, one iteration per unit of fuel.  `replayP` is the
offset into `header` the replay pointer stands at, `aBytes` the part of the
buffer not yet fetched.  A replayed byte is read from the header as it is at
that moment. -/
def acceptLoop : Nat → Esp3Packet → Nat → Nat → Nat → List Nat → Option (Nat × Esp3Packet)
  | 0, _, _, _, _, _ => none
  | fuel + 1, p, replayBytes, replayP, acceptedBytes, aBytes =>
    if replayBytes > 0 then
      match processByte p (p.header.getD replayP 0) with
      | (p1, Flow.done) => some (acceptedBytes, p1)
      | (p1, Flow.replay) => acceptLoop fuel p1 (ESP3_HEADERBYTES - 1) 1 acceptedBytes aBytes
      | (p1, Flow.next) => acceptLoop fuel p1 (replayBytes - 1) (replayP + 1) acceptedBytes aBytes
    else
      match aBytes with
      | [] => some (acceptedBytes, p)
      | byte :: rest =>
        match processByte p byte with
        | (p1, Flow.done) => some (acceptedBytes + 1, p1)
        | (p1, Flow.replay) => acceptLoop fuel p1 (ESP3_HEADERBYTES - 1) 1 (acceptedBytes + 1) rest
        | (p1, Flow.next) => acceptLoop fuel p1 0 replayP (acceptedBytes + 1) rest

/-- `Esp3Packet::acceptBytes(aNumBytes, aBytes)`: the number of bytes accepted
and the packet afterwards.  A new byte causes at most five replay iterations, so
`6 * aNumBytes + 1` iterations always suffice (`acceptBytes_eq_run`). -/
def acceptBytes (p : Esp3Packet) (aBytes : List Nat) : Option (Nat × Esp3Packet) :=
  if p.state = PacketState.ps_complete then some (0, p)
  else acceptLoop (6 * aBytes.length + 1) p 0 0 0 aBytes

/-- `Esp3Packet::optData()`: `data()` advanced by `dataLength()`, or `NULL`. -/
def optData (p : Esp3Packet) : Option (List Nat) :=
  (data p).payloadP.map (fun buf => buf.drop (dataLength p))

/-- `Esp3Packet::radio_subtelegrams()`. -/
def radio_subtelegrams (p : Esp3Packet) : Nat :=
  match optData p with
  | none => 0
  | some o => if optDataLength p < 7 then 0 else o.getD 0 0

/-- `Esp3Packet::radio_destination()`, a `uint32_t`: the shifted bytes are summed
and the sum is converted to 32 bits, that is taken modulo `2^32`. -/
def radio_destination (p : Esp3Packet) : Nat :=
  match optData p with
  | none => 0
  | some o =>
    if optDataLength p < 7 then 0
    else ((o.getD 1 0 <<< 24) + (o.getD 2 0 <<< 16) + (o.getD 3 0 <<< 8) + o.getD 4 0) % 2 ^ 32

/-- `Esp3Packet::radio_dBm()`, an `int`: `-o[5]`. -/
def radio_dBm (p : Esp3Packet) : Int :=
  match optData p with
  | none => 0
  | some o => if optDataLength p < 7 then 0 else -((o.getD 5 0 : Nat) : Int)

/-- `Esp3Packet::radio_security_level()`. -/
def radio_security_level (p : Esp3Packet) : Nat :=
  match optData p with
  | none => 0
  | some o => if optDataLength p < 7 then 0 else o.getD 6 0

/-- `Esp3Packet::radio_rorg()`. -/
def radio_rorg (p : Esp3Packet) : Nat :=
  if packetType p ≠ pt_radio then rorg_invalid
  else
    match (data p).payloadP with
    | none => rorg_invalid
    | some d => if dataLength p < 1 then rorg_invalid else d.getD 0 0

/-- `Esp3Packet::radio_status()`; `statusoffset` is an `int`. -/
def radio_status (p : Esp3Packet) : Nat :=
  let rorg := radio_rorg p
  let statusoffset : Int :=
    if rorg ≠ rorg_invalid then
      if rorg = rorg_VLD then (dataLength p : Int) - 1 - 1 else (dataLength p : Int) - 1
    else 0
  if statusoffset < 0 then 0
  else ((data p).payloadP.getD []).getD statusoffset.toNat 0

/-- `Esp3Packet::radio_userDataLength()`; `bytes` is an `int`. -/
def radio_userDataLength (p : Esp3Packet) : Nat :=
  if packetType p ≠ pt_radio then 0
  else
    let rorg := radio_rorg p
    let bytes : Int := (dataLength p : Int) - 1 - 1 - 4
    let bytes : Int := if rorg = rorg_VLD then bytes - 1 else bytes
    if bytes < 0 then 0 else bytes.toNat

/-- `Esp3Packet::radio_sender()`, a `uint32_t` (the sum of the shifted bytes modulo
`2^32`). -/
def radio_sender (p : Esp3Packet) : Nat :=
  let l := radio_userDataLength p
  if l > 0 then
    let d := ((data p).payloadP.getD []).drop (1 + l)
    ((d.getD 0 0 <<< 24) + (d.getD 1 0 <<< 16) + (d.getD 2 0 <<< 8) + d.getD 3 0) % 2 ^ 32
  else 0

/-- `Esp3Packet::radio_userData()`: `NULL` when there is no user data, else
`data()+1`. -/
def radio_userData (p : Esp3Packet) : Option (List Nat) :=
  if radio_userDataLength p = 0 then none
  else (data p).payloadP.map (fun d => d.drop 1)

/-- `Esp3Packet::rps_numRockers()`. -/
def rps_numRockers (p : Esp3Packet) : Nat :=
  if radio_rorg p ≠ rorg_RPS then 0
  else if radio_status p &&& STATUS_T21 ≠ 0 then 2 else 4

/-- The part of the body of the N-message `for` loop of `rps_action` after
the `break` test, for loop index `ai`: the action code `a` and what it adds to
`action`. -/
def rpsCollectAction (data aButtonIndex ai action : Nat) : Nat :=
  let a := (data >>> (4 * ai + 1)) &&& 0x07
  if (a >>> 1) &&& 0x03 = aButtonIndex then
    if a &&& 0x01 ≠ 0 then action ||| rpsa_offOrUp else action ||| rpsa_onOrDown
  else action

/-- The N-message branch of `rps_action`: the loop `for (ai=1; ai>=0; ai--)`
with its two iterations written out; the `break` test can only fire for
`ai==0`. -/
def rpsNMessageAction (data aButtonIndex : Nat) : Nat :=
  let action := rpsCollectAction data aButtonIndex 1 rpsa_none
  if data &&& 0x01 = 0 then action
  else rpsCollectAction data aButtonIndex 0 action

/-- The U-message branch of `rps_action`. -/
def rpsUMessageAction (p : Esp3Packet) (data status aButtonIndex : Nat) : Nat :=
  let b := (data >>> 5) &&& 0x07
  let numAffectedRockers :=
    if status &&& STATUS_T21 ≠ 0 then
      if b = 0 then rps_numRockers p
      else if b = 3 then 2
      else 0
    else
      if b = 0 then rps_numRockers p
      else (b + 1) >>> 1
  if aButtonIndex < numAffectedRockers then rpsa_none ||| rpsa_multiple else rpsa_none

/-- `Esp3Packet::rps_action(aButtonIndex)`.  The byte `*(radio_userData())` is
read through the conventions of the embedding (`0` when the pointer is
`NULL`). -/
def rps_action (p : Esp3Packet) (aButtonIndex : Nat) : Nat :=
  if radio_rorg p = rorg_RPS ∧ aButtonIndex < rps_numRockers p then
    let data := ((radio_userData p).getD []).getD 0 0
    let status := radio_status p
    let action :=
      if status &&& STATUS_NU ≠ 0 then rpsNMessageAction data aButtonIndex
      else rpsUMessageAction p data status aButtonIndex
    if action ≠ rpsa_none then
      if data &&& 0x10 ≠ 0 then action ||| rpsa_pressed else action ||| rpsa_released
    else action
  else rpsa_none

end Esp3Packet

/-! ## EnOcean communication handler -/

/-- The members of `EnoceanComm` the framer uses, with two logs: `dispatched`
records every packet handed to `dispatchPacket`, `radioPackets` every packet the
installed `radioPacketHandler` was called with.  `radioPacketHandler` tells
whether a handler is installed. -/
structure EnoceanComm where
  currentIncomingPacket : Option Esp3Packet
  radioPacketHandler : Bool
  dispatched : List Esp3Packet
  radioPackets : List Esp3Packet
  deriving DecidableEq, Repr

namespace EnoceanComm

/-- A newly constructed `EnoceanComm`: no packet in progress, no handler. -/
def new : EnoceanComm :=
  { currentIncomingPacket := none, radioPacketHandler := false, dispatched := [],
    radioPackets := [] }

/-- `EnoceanComm::setRadioPacketHandler`. -/
def setRadioPacketHandler (c : EnoceanComm) : EnoceanComm :=
  { c with radioPacketHandler := true }

/-- `EnoceanComm::dispatchPacket`: radio packets go to the handler when one is
installed; the other packet types are not handled. -/
def dispatchPacket (c : EnoceanComm) (aPacket : Esp3Packet) : EnoceanComm :=
  let c1 := { c with dispatched := c.dispatched ++ [aPacket] }
  if Esp3Packet.packetType aPacket = pt_radio then
    if c1.radioPacketHandler then { c1 with radioPackets := c1.radioPackets ++ [aPacket] }
    else c1
  else c1

/-- The `while (remainingBytes>0)` loop of `EnoceanComm::acceptBytes`; `aBytes`
is the buffer from the current position on, so `remainingBytes` is its length. -/
def acceptLoop : Nat → EnoceanComm → List Nat → Option (EnoceanComm × List Nat)
  | 0, _, _ => none
  | fuel + 1, c, aBytes =>
    if aBytes.length > 0 then
      let pkt := match c.currentIncomingPacket with
        | none => Esp3Packet.new
        | some p => p
      match Esp3Packet.acceptBytes pkt aBytes with
      | none => none
      | some (consumedBytes, pkt1) =>
        let c1 := { c with currentIncomingPacket := some pkt1 }
        let c2 := if Esp3Packet.isComplete pkt1 then
            { dispatchPacket c1 pkt1 with currentIncomingPacket := none }
          else c1
        acceptLoop fuel c2 (aBytes.drop consumedBytes)
    else some (c, aBytes)

/-- `EnoceanComm::acceptBytes(aNumBytes, aBytes)`: returns
`aNumBytes-remainingBytes` and the handler afterwards.  Every iteration consumes
at least one byte, except a first one that finds a completed packet in place
and only replaces it, so `aNumBytes + 2` iterations suffice
(`acceptBytes_eq_foldl`, `acceptLoop_total`). -/
def acceptBytes (c : EnoceanComm) (aBytes : List Nat) : Option (Nat × EnoceanComm) :=
  match acceptLoop (aBytes.length + 2) c aBytes with
  | none => none
  | some (c1, rest) => some (aBytes.length - rest.length, c1)

end EnoceanComm

/-! ## RPS rocker button handler (`enoceanrps.cpp`) -/

/-- Modelled from the spec: the constant `status_NU` that `enoceanrps.cpp` uses
is declared in a header that is not among the sources; the spec gives status
bit 0x10 = "NU" (as `STATUS_NU` in `enoceancomm.cpp`). -/
def status_NU : Nat := 0x10

/-- Modelled from the spec: the constant `status_T21`, declared in a header that
is not among the sources; the spec gives status bit 0x20 = "T21". -/
def status_T21 : Nat := 0x20

/-- The members of `EnoceanRpsButtonHandler` that `handleRadioPacket` and
`setButtonState` use.  `behaviour` tells whether the bound behaviour is a
`ButtonBehaviour` (whether the `dynamic_pointer_cast` yields a pointer);
`buttonActions` logs the arguments of the calls `b->buttonAction(aPressed)`. -/
structure EnoceanRpsButtonHandler where
  switchIndex : Nat
  isRockerUp : Bool
  pressed : Bool
  behaviour : Bool
  buttonActions : List Bool
  deriving DecidableEq, Repr

namespace EnoceanRpsButtonHandler

/-- `EnoceanRpsButtonHandler::setButtonState(aPressed)`. -/
def setButtonState (h : EnoceanRpsButtonHandler) (aPressed : Bool) : EnoceanRpsButtonHandler :=
  if aPressed ≠ h.pressed then
    let h1 := if h.behaviour then { h with buttonActions := h.buttonActions ++ [aPressed] } else h
    { h1 with pressed := aPressed }
  else h

/-- The part of the body of the N-message `for` loop of `handleRadioPacket`
after the `break` test, for loop index `ai`. -/
def collectAction (h : EnoceanRpsButtonHandler) (data ai : Nat) : EnoceanRpsButtonHandler :=
  let a := (data >>> (4 * ai + 1)) &&& 0x07
  if (a >>> 1) &&& 0x03 = h.switchIndex then
    if decide (a &&& 0x01 ≠ 0) = h.isRockerUp then
      setButtonState h (decide (data &&& 0x10 ≠ 0))
    else h
  else h

/-- The N-message branch of `handleRadioPacket`: the loop
`for (ai=1; ai>=0; ai--)` with its two iterations written out. -/
def handleNMessage (h : EnoceanRpsButtonHandler) (data : Nat) : EnoceanRpsButtonHandler :=
  let h1 := collectAction h data 1
  if data &&& 0x01 = 0 then h1
  else collectAction h1 data 0

/-- The U-message branch of `handleRadioPacket`. -/
def handleUMessage (h : EnoceanRpsButtonHandler) (data : Nat) : EnoceanRpsButtonHandler :=
  let b := (data >>> 5) &&& 0x07
  let pressed := decide (data &&& 0x10 ≠ 0)
  if !pressed then
    if b = 0 then setButtonState h false
    else h
  else h

/-- The decoding part of `EnoceanRpsButtonHandler::handleRadioPacket`, from the
extracted `data` and `status` on. -/
def handleTelegram (h : EnoceanRpsButtonHandler) (data status : Nat) : EnoceanRpsButtonHandler :=
  if status &&& status_NU ≠ 0 then handleNMessage h data
  else handleUMessage h data

/-- `EnoceanRpsButtonHandler::handleRadioPacket(aEsp3PacketPtr)`.  The source
extracts `data = radioUserData()[0]` and `status = radioStatus()`; these
accessors are the `radio_userData()` and `radio_status()` of `enoceancomm.cpp`
under their later names.  `radioUserData()` is the null pointer for a packet
without user data and the source reads `[0]` through it untested: that read is
`none`. -/
def handleRadioPacket (h : EnoceanRpsButtonHandler) (aEsp3Packet : Esp3Packet) :
    Option EnoceanRpsButtonHandler :=
  match Esp3Packet.radio_userData aEsp3Packet with
  | none => none
  | some userData =>
    some (handleTelegram h (userData.getD 0 0) (Esp3Packet.radio_status aEsp3Packet))

end EnoceanRpsButtonHandler

/-! ## Window handle, key card and smoke detector handlers (`enoceanrps.cpp`) -/

/-- The members of `EnoceanRpsWindowHandleHandler` that `handleRadioPacket`
uses.  `behaviour` tells whether the bound behaviour is a
`BinaryInputBehaviour` (whether the `dynamic_pointer_cast` yields a pointer);
`inputStates` logs the arguments of the calls `bb->updateInputState(...)`. -/
structure EnoceanRpsWindowHandleHandler where
  isTiltedStatus : Bool
  behaviour : Bool
  inputStates : List Bool
  deriving DecidableEq, Repr

namespace EnoceanRpsWindowHandleHandler

/-- The decoding part of `EnoceanRpsWindowHandleHandler::handleRadioPacket`,
from the extracted `data` and `status` on. -/
def handleTelegram (h : EnoceanRpsWindowHandleHandler) (data status : Nat) :
    EnoceanRpsWindowHandleHandler :=
  if status &&& status_NU = 0 ∧ status &&& status_T21 ≠ 0 then
    let tilted := decide (data &&& 0xF0 = 0xD0)
    let closed := decide (data &&& 0xF0 = 0xF0)
    if h.behaviour then
      if h.isTiltedStatus then { h with inputStates := h.inputStates ++ [tilted] }
      else { h with inputStates := h.inputStates ++ [!closed] }
    else h
  else h

/-- `EnoceanRpsWindowHandleHandler::handleRadioPacket(aEsp3PacketPtr)`, with
`data = radioUserData()[0]` and `status = radioStatus()` read through
`radio_userData()` and `radio_status()`.  The read `[0]` through the null
pointer of a packet without user data is `none`. -/
def handleRadioPacket (h : EnoceanRpsWindowHandleHandler) (aEsp3Packet : Esp3Packet) :
    Option EnoceanRpsWindowHandleHandler :=
  match Esp3Packet.radio_userData aEsp3Packet with
  | none => none
  | some userData =>
    some (handleTelegram h (userData.getD 0 0) (Esp3Packet.radio_status aEsp3Packet))

end EnoceanRpsWindowHandleHandler

/-- The members of `EnoceanRpsCardKeyHandler` that `handleRadioPacket` uses:
`eeProfile` is `device.getEEProfile()`, `behaviour` tells whether the bound
behaviour is a `BinaryInputBehaviour`, `inputStates` logs the arguments of the
calls `bb->updateInputState(...)`. -/
structure EnoceanRpsCardKeyHandler where
  eeProfile : Nat
  behaviour : Bool
  inputStates : List Bool
  deriving DecidableEq, Repr

namespace EnoceanRpsCardKeyHandler

/-- The decoding part of `EnoceanRpsCardKeyHandler::handleRadioPacket`, from
the extracted `data` on; `status` is what `radioStatus()` returns when the
source reads it (ERP1 branch). -/
def handleTelegram (h : EnoceanRpsCardKeyHandler) (data status : Nat) :
    EnoceanRpsCardKeyHandler :=
  let isInserted : Bool :=
    if h.eeProfile = 0xF60402 then decide (data &&& 0x04 ≠ 0)
    else decide (status &&& status_NU ≠ 0) && decide (data = 0x70)
  if h.behaviour then { h with inputStates := h.inputStates ++ [isInserted] }
  else h

/-- `EnoceanRpsCardKeyHandler::handleRadioPacket(aEsp3PacketPtr)`.  The read
`radioUserData()[0]` through the null pointer of a packet without user data is
`none`. -/
def handleRadioPacket (h : EnoceanRpsCardKeyHandler) (aEsp3Packet : Esp3Packet) :
    Option EnoceanRpsCardKeyHandler :=
  match Esp3Packet.radio_userData aEsp3Packet with
  | none => none
  | some userData =>
    some (handleTelegram h (userData.getD 0 0) (Esp3Packet.radio_status aEsp3Packet))

end EnoceanRpsCardKeyHandler

/-- The members of `EnoceanRpsSmokeDetectorHandler` that `handleRadioPacket`
uses: `behaviour` tells whether the bound behaviour is a `BinaryInputBehaviour`
(whether the `dynamic_pointer_cast` yields a pointer), `inputStates` logs the
arguments of the calls `bb->updateInputState(...)`. -/
structure EnoceanRpsSmokeDetectorHandler where
  isBatteryStatus : Bool
  behaviour : Bool
  inputStates : List Bool
  deriving DecidableEq, Repr

namespace EnoceanRpsSmokeDetectorHandler

/-- The call `bb->updateInputState(aValue)` of the smoke detector handler.  The
source does not test `bb` here: with no `BinaryInputBehaviour` bound the call
goes through a null pointer, which is `none`. -/
def updateInputState (h : EnoceanRpsSmokeDetectorHandler) (aValue : Bool) :
    Option EnoceanRpsSmokeDetectorHandler :=
  if h.behaviour then some { h with inputStates := h.inputStates ++ [aValue] }
  else none

/-- The decoding part of `EnoceanRpsSmokeDetectorHandler::handleRadioPacket`,
from the extracted `data` on (the source does not read the status byte). -/
def handleTelegram (h : EnoceanRpsSmokeDetectorHandler) (data : Nat) :
    Option EnoceanRpsSmokeDetectorHandler :=
  if h.isBatteryStatus then
    let lowBat := decide (data &&& 0x30 = 0x30)
    updateInputState h lowBat
  else
    let smokeAlarm := decide (data &&& 0x30 = 0x10)
    updateInputState h smokeAlarm

/-- `EnoceanRpsSmokeDetectorHandler::handleRadioPacket(aEsp3PacketPtr)`.  The
read `radioUserData()[0]` through the null pointer of a packet without user
data is `none`. -/
def handleRadioPacket (h : EnoceanRpsSmokeDetectorHandler) (aEsp3Packet : Esp3Packet) :
    Option EnoceanRpsSmokeDetectorHandler :=
  match Esp3Packet.radio_userData aEsp3Packet with
  | none => none
  | some userData => handleTelegram h (userData.getD 0 0)

end EnoceanRpsSmokeDetectorHandler

/-! ## EnOcean device container (`enoceandevicecontainer.cpp`) -/

/-- `#define MIN_LEARN_DBM -50`. -/
def MIN_LEARN_DBM : Int := -50

/-- An `EnoceanDevice` as far as the container uses it: `getAddress()` and
`getSubDevice()`. -/
structure EnoceanDevice where
  address : Nat
  subDevice : Nat
  deriving DecidableEq, Repr

/-- A `DevicePtr`: an `EnoceanDevice` (the `dynamic_pointer_cast<EnoceanDevice>`
yields it) or a device of another class. -/
inductive DevicePtr where
  | enocean (ed : EnoceanDevice)
  | other
  deriving DecidableEq, Repr

/-- What `EnoceanDeviceContainer::handleRadioPacket` obtains from
`aEsp3PacketPtr`: the packet itself and the result of
`eepHasTeachInfo(MIN_LEARN_DBM, false)`, an accessor that is not among the
sources.  `eepNumDevices` is the number of logical devices the profile of the
telegram yields (see `createDevicesFromEEP`). -/
structure RadioTelegram where
  packet : Esp3Packet
  eepHasTeachInfo : Bool
  eepNumDevices : Nat
  deriving DecidableEq, Repr

/-- `aEsp3PacketPtr->radioSender()`: the accessor `radio_sender()` of
`enoceancomm.cpp` under its later name. -/
def RadioTelegram.radioSender (t : RadioTelegram) : Nat :=
  Esp3Packet.radio_sender t.packet

/-- The members of `EnoceanDeviceContainer` that packet handling uses, with
logs of the calls that leave the container.  `enoceanDevices` is the multimap
from address to device in iteration order (ascending address, the entries of one
address in insertion order); an entry is inserted under the address of its
device, so the key of an entry is the `address` of the device.
`handledPackets` logs the calls `device->handleRadioPacket(packet)`,
`learnEvents` the calls `reportLearnEvent(learnIn, ErrorPtr())`,
`vanishRequests` the calls `device->hasVanished(aForgetParams)`, and
`removedDevices` the calls `inherited::removeDevice(aDevice, aForget)`. -/
structure EnoceanDeviceContainer where
  learningMode : Bool
  enoceanDevices : List EnoceanDevice
  handledPackets : List (EnoceanDevice × RadioTelegram)
  learnEvents : List Bool
  vanishRequests : List (EnoceanDevice × Bool)
  removedDevices : List (EnoceanDevice × Bool)
  deriving DecidableEq, Repr

namespace EnoceanDeviceContainer

/-- The range `lower_bound(aAddress) .. upper_bound(aAddress)` of the multimap:
the devices registered under `aAddress`, in iteration order. -/
def devicesAt (c : EnoceanDeviceContainer) (aAddress : Nat) : List EnoceanDevice :=
  c.enoceanDevices.filter (fun d => decide (d.address = aAddress))

/-- `enoceanDevices.insert(make_pair(aEnoceanDevice->getAddress(), aEnoceanDevice))`:
the new entry goes behind the entries whose key is not greater. -/
def insertDevice (c : EnoceanDeviceContainer) (aEnoceanDevice : EnoceanDevice) :
    EnoceanDeviceContainer :=
  { c with enoceanDevices :=
      c.enoceanDevices.takeWhile (fun d => decide (d.address ≤ aEnoceanDevice.address)) ++
        aEnoceanDevice ::
          c.enoceanDevices.dropWhile (fun d => decide (d.address ≤ aEnoceanDevice.address)) }

/-- Modelled from the spec: `DeviceClassContainer::addDevice` (the call
`inherited::addDevice`) is not among the sources.  It answers whether the
device was "not a duplicate, actually added"; a duplicate is taken to be a
device with the address and subdevice index of a registered one (the key of a
registry record). -/
def inheritedAddDevice (c : EnoceanDeviceContainer) (aDevice : EnoceanDevice) : Bool :=
  !(c.enoceanDevices.any
      (fun d => decide (d.address = aDevice.address ∧ d.subDevice = aDevice.subDevice)))

/-- `EnoceanDeviceContainer::addKnownDevice`. -/
def addKnownDevice (c : EnoceanDeviceContainer) (aEnoceanDevice : EnoceanDevice) :
    EnoceanDeviceContainer × Bool :=
  if inheritedAddDevice c aEnoceanDevice then (insertDevice c aEnoceanDevice, true)
  else (c, false)

/-- `EnoceanDeviceContainer::addAndRemeberDevice`; the record written to the
database is outside the embedding. -/
def addAndRemeberDevice (c : EnoceanDeviceContainer) (aEnoceanDevice : EnoceanDevice) :
    EnoceanDeviceContainer × Bool :=
  if (addKnownDevice c aEnoceanDevice).2 then ((addKnownDevice c aEnoceanDevice).1, true)
  else (c, false)

/-- `EnoceanDeviceContainer::removeDevice(aDevice, aForget)`: for an
`EnoceanDevice`, the call of the superclass and the erasure of the first entry
under the address of the device that has its subdevice index. -/
def removeDevice (c : EnoceanDeviceContainer) (aDevice : DevicePtr) (aForget : Bool) :
    EnoceanDeviceContainer :=
  match aDevice with
  | DevicePtr.enocean ed =>
    { c with
      removedDevices := c.removedDevices ++ [(ed, aForget)],
      enoceanDevices := c.enoceanDevices.eraseP
        (fun d => decide (d.address = ed.address) && decide (d.subDevice = ed.subDevice)) }
  | DevicePtr.other => c

/-- `Device::disconnect(aForgetParams, NULL)` of a device of this container:
`classContainerP->removeDevice(dev, aForgetParams)`. -/
def disconnect (c : EnoceanDeviceContainer) (dev : EnoceanDevice) (aForgetParams : Bool) :
    EnoceanDeviceContainer :=
  removeDevice c (DevicePtr.enocean dev) aForgetParams

/-- `Device::hasVanished(aForgetParams)` of a device of this container: the
"vanish" request, then `disconnect`. -/
def hasVanished (c : EnoceanDeviceContainer) (dev : EnoceanDevice) (aForgetParams : Bool) :
    EnoceanDeviceContainer :=
  disconnect { c with vanishRequests := c.vanishRequests ++ [(dev, aForgetParams)] } dev
    aForgetParams

/-- `EnoceanDeviceContainer::unpairDevicesByAddress`: collect the devices under
the address, then call `hasVanished` on each. -/
def unpairDevicesByAddress (c : EnoceanDeviceContainer) (aEnoceanAddress : Nat)
    (aForgetParams : Bool) : EnoceanDeviceContainer :=
  let toBeDeleted := devicesAt c aEnoceanAddress
  toBeDeleted.foldl (fun c1 dev => hasVanished c1 dev aForgetParams) c

/-- Modelled from the spec: `EnoceanDevice::createDevicesFromEEP` is not among
the sources.  On learn-in the spec has the dispatcher "construct and register
new logical handlers from the profile"; here the profile of the telegram yields
`eepNumDevices` logical devices, with the sender address and the subdevice
indices `0, 1, ...`, and each is registered with `addAndRemeberDevice`.  The
result is the container and the number of devices registered. -/
def createDevicesFromEEP (c : EnoceanDeviceContainer) (aEsp3Packet : RadioTelegram) :
    EnoceanDeviceContainer × Nat :=
  (List.range aEsp3Packet.eepNumDevices).foldl
    (fun r i =>
      if (addAndRemeberDevice r.1 ⟨aEsp3Packet.radioSender, i⟩).2 then
        ((addAndRemeberDevice r.1 ⟨aEsp3Packet.radioSender, i⟩).1, r.2 + 1)
      else r)
    (c, 0)

/-- `getDeviceContainer().reportLearnEvent(aLearnIn, ErrorPtr())`. -/
def reportLearnEvent (c : EnoceanDeviceContainer) (aLearnIn : Bool) : EnoceanDeviceContainer :=
  { c with learnEvents := c.learnEvents ++ [aLearnIn] }

/-- `EnoceanDeviceContainer::handleRadioPacket(aEsp3PacketPtr, aError)`;
`aError` tells whether the error pointer is set. -/
def handleRadioPacket (c : EnoceanDeviceContainer) (aEsp3Packet : RadioTelegram)
    (aError : Bool) : EnoceanDeviceContainer :=
  if aError then c
  else if c.learningMode then
    let learnIn := !(c.enoceanDevices.any (fun d => decide (d.address = aEsp3Packet.radioSender)))
    if aEsp3Packet.eepHasTeachInfo then
      let c1 :=
        if learnIn then
          let r := createDevicesFromEEP c aEsp3Packet
          if r.2 > 0 then reportLearnEvent r.1 true else r.1
        else
          reportLearnEvent (unpairDevicesByAddress c aEsp3Packet.radioSender false) false
      { c1 with learningMode := false }
    else c
  else
    (devicesAt c aEsp3Packet.radioSender).foldl
      (fun c1 dev => { c1 with handledPackets := c1.handledPackets ++ [(dev, aEsp3Packet)] }) c

/-- `EnoceanDeviceContainer::setLearnMode`. -/
def setLearnMode (c : EnoceanDeviceContainer) (aEnableLearning : Bool) :
    EnoceanDeviceContainer :=
  { c with learningMode := aEnableLearning }

end EnoceanDeviceContainer

/-! ## Device creation (`EnoceanRpsHandler::newDevice`, `enoceanrps.cpp`) -/

/-- Modelled from the spec: the constant `eep_ignore_type_mask`, declared in a
header that is not among the sources.  The spec has a profile identifier be the
24-bit value RORG : FUNC : TYPE and some families "matched while ignoring the
TYPE byte (masked comparison)", so the mask keeps RORG and FUNC. -/
def eep_ignore_type_mask : Nat := 0xFFFF00

/-- A channel handler of a device: one of the four handler classes of
`enoceanrps.cpp`. -/
inductive EnoceanChannelHandler where
  | button (h : EnoceanRpsButtonHandler)
  | windowHandle (h : EnoceanRpsWindowHandleHandler)
  | cardKey (h : EnoceanRpsCardKeyHandler)
  | smokeDetector (h : EnoceanRpsSmokeDetectorHandler)
  deriving DecidableEq, Repr

/-- An `EnoceanRPSDevice` as `newDevice` sets it up: the addressing and profile
information, the function description and the channel handlers in the order of
the `addChannelHandler` calls.  Settings, icon, primary group and the hardware
configuration of the behaviours are not part of the embedding. -/
structure EnoceanRPSDevice where
  address : Nat
  subDevice : Nat
  eeProfile : Nat
  eeManufacturer : Nat
  functionDesc : String
  channels : List EnoceanChannelHandler
  deriving DecidableEq, Repr

namespace EnoceanRPSDevice

/-- Modelled from the spec: `EnoceanDevice::addChannelHandler` is not among the
sources.  The spec has a device hold "an ordered collection of logical channel
handlers", so the handler is put behind the ones added before. -/
def addChannelHandler (dev : EnoceanRPSDevice) (aChannelHandler : EnoceanChannelHandler) :
    EnoceanRPSDevice :=
  { dev with channels := dev.channels ++ [aChannelHandler] }

end EnoceanRPSDevice

namespace EnoceanRpsHandler

/-- The part that the four branches of `newDevice` share: `new
EnoceanRPSDevice`, `setAddressingInfo`, `setEEPInfo` and `setFunctionDesc`. -/
def createDevice (aAddress aSubDeviceIndex aEEProfile aEEManufacturer : Nat)
    (aFunctionDesc : String) : EnoceanRPSDevice :=
  { address := aAddress, subDevice := aSubDeviceIndex, eeProfile := aEEProfile,
    eeManufacturer := aEEManufacturer, functionDesc := aFunctionDesc, channels := [] }

set_option linter.unusedVariables false in
/-- `EnoceanRpsHandler::newDevice`: the device created for the subdevice index,
or `none` for the empty pointer.  A handler starts as its constructor leaves it
(`switchIndex = 0`, `pressed = false`, `isTiltedStatus = false`) with the
members `newDevice` assigns, and is bound to the behaviour created for it. -/
def newDevice (aAddress aSubDeviceIndex aEEProfile aEEManufacturer : Nat)
    (aNeedsTeachInResponse : Bool) : Option EnoceanRPSDevice :=
  let functionProfile := aEEProfile &&& eep_ignore_type_mask
  if functionProfile = 0xF60200 ∨ functionProfile = 0xF60300 then
    let numSubDevices := if functionProfile = 0xF60300 then 4 else 2
    if aSubDeviceIndex < numSubDevices then
      let newDev := createDevice aAddress aSubDeviceIndex aEEProfile aEEManufacturer
        "rocker switch"
      let downHandler : EnoceanRpsButtonHandler :=
        { switchIndex := aSubDeviceIndex, isRockerUp := false, pressed := false,
          behaviour := true, buttonActions := [] }
      let newDev := newDev.addChannelHandler (EnoceanChannelHandler.button downHandler)
      let upHandler : EnoceanRpsButtonHandler :=
        { switchIndex := aSubDeviceIndex, isRockerUp := true, pressed := false,
          behaviour := true, buttonActions := [] }
      some (newDev.addChannelHandler (EnoceanChannelHandler.button upHandler))
    else none
  else if functionProfile = 0xF61000 then
    if aSubDeviceIndex < 1 then
      let newDev := createDevice aAddress aSubDeviceIndex aEEProfile aEEManufacturer
        "window handle"
      let newDev := newDev.addChannelHandler (EnoceanChannelHandler.windowHandle
        { isTiltedStatus := false, behaviour := true, inputStates := [] })
      some (newDev.addChannelHandler (EnoceanChannelHandler.windowHandle
        { isTiltedStatus := true, behaviour := true, inputStates := [] }))
    else none
  else if functionProfile = 0xF60400 then
    if aSubDeviceIndex < 1 then
      let newDev := createDevice aAddress aSubDeviceIndex aEEProfile aEEManufacturer
        "key card switch"
      some (newDev.addChannelHandler (EnoceanChannelHandler.cardKey
        { eeProfile := aEEProfile, behaviour := true, inputStates := [] }))
    else none
  else if aEEProfile = 0xF605C0 then
    if aSubDeviceIndex < 1 then
      let newDev := createDevice aAddress aSubDeviceIndex aEEProfile aEEManufacturer
        "smoke detector"
      let newDev := newDev.addChannelHandler (EnoceanChannelHandler.smokeDetector
        { isBatteryStatus := false, behaviour := true, inputStates := [] })
      some (newDev.addChannelHandler (EnoceanChannelHandler.smokeDetector
        { isBatteryStatus := true, behaviour := true, inputStates := [] }))
    else none
  else none

end EnoceanRpsHandler

/-! ## Wire format of a valid packet (from the interface description) -/

/-- The six header bytes of a packet of type `t` with `n` data bytes and `m`
optional data bytes: sync, length high, length low, optional length, type,
CRC8 of the four bytes before. -/
def esp3Header (t n m : Nat) : List Nat :=
  [0x55, n >>> 8, n &&& 0xFF, m, t, crc8 [n >>> 8, n &&& 0xFF, m, t] 0]

/-- The bytes of a valid ESP3 packet of type `t` with data `D` and optional
data `O`: header, data, optional data, CRC8 of data and optional data. -/
def esp3Frame (t : Nat) (D O : List Nat) : List Nat :=
  esp3Header t D.length O.length ++ (D ++ O ++ [crc8 (D ++ O) 0])

/-- The reference telegram quoted at the top of `enoceancomm.cpp`. -/
def refTelegram : List Nat :=
  [0x55, 0x00, 0x07, 0x07, 0x01, 0x7A, 0xF6, 0x30, 0x00, 0x86, 0xB8, 0x1A, 0x30,
   0x03, 0xFF, 0xFF, 0xFF, 0xFF, 0xFF, 0x00, 0xC0]

/-! ## Byte-wise view of the framer (used to reason about the loops) -/

namespace Esp3Packet

/-- The replay phase by itself: `replayBytes` iterations that each re-read one
stored header byte at offset `replayP` and pass it through the `switch`. -/
def replayRun : Nat → Nat → Esp3Packet → Esp3Packet
  | 0, _, p => p
  | replayBytes + 1, replayP, p =>
    replayRun replayBytes (replayP + 1) (processByte p (p.header.getD replayP 0)).1

/-- Effect of one new input byte: the `switch`, followed by the replay of header
bytes 1..5 when the `switch` armed it. -/
def feed (p : Esp3Packet) (byte : Nat) : Esp3Packet :=
  match processByte p byte with
  | (p1, Flow.replay) => replayRun (ESP3_HEADERBYTES - 1) 1 p1
  | (p1, _) => p1

/-- Feed bytes one by one until the packet completes or the bytes run out;
returns the number of bytes taken and the packet. -/
def run : Esp3Packet → List Nat → Nat × Esp3Packet
  | p, [] => (0, p)
  | p, byte :: rest =>
    if (feed p byte).state = PacketState.ps_complete then (1, feed p byte)
    else ((run (feed p byte) rest).1 + 1, (run (feed p byte) rest).2)

/-- No iteration of a replay of `replayBytes` bytes started in this state can
complete a header: the packet waits for sync, or collects a header that the
replayed bytes cannot fill. -/
def Quiet (replayBytes : Nat) (p : Esp3Packet) : Prop :=
  (p.state = PacketState.ps_syncwait ∧ replayBytes ≤ 5) ∨
  (p.state = PacketState.ps_headerread ∧ p.dataIndex + replayBytes ≤ 5)

end Esp3Packet

namespace EnoceanComm

/-- What `EnoceanComm::acceptBytes` does after the current packet returned as
`pkt1`: dispatch and forget it when complete, keep it otherwise. -/
def afterPacket (c : EnoceanComm) (pkt1 : Esp3Packet) : EnoceanComm :=
  if Esp3Packet.isComplete pkt1 then
    { dispatchPacket { c with currentIncomingPacket := some pkt1 } pkt1 with
      currentIncomingPacket := none }
  else { c with currentIncomingPacket := some pkt1 }

/-- The packet the next byte goes to: the one in progress, or a new one. -/
def currentOrNew (c : EnoceanComm) : Esp3Packet :=
  match c.currentIncomingPacket with
  | none => Esp3Packet.new
  | some p => p

/-- Effect of one input byte on the communication handler. -/
def feed (c : EnoceanComm) (byte : Nat) : EnoceanComm :=
  afterPacket c (Esp3Packet.feed (currentOrNew c) byte)

/-- Feed a sequence of chunks, one `acceptBytes` call per chunk. -/
def acceptChunks : EnoceanComm → List (List Nat) → Option EnoceanComm
  | c, [] => some c
  | c, chunk :: chunks =>
    match acceptBytes c chunk with
    | none => none
    | some (_, c1) => acceptChunks c1 chunks

/-- No completed packet is kept as the packet in progress. -/
def Ready (c : EnoceanComm) : Prop :=
  ∀ p, c.currentIncomingPacket = some p → p.state ≠ PacketState.ps_complete

end EnoceanComm

namespace Esp3Packet

/-- Feed a sequence of chunks to one packet, one `acceptBytes` call per chunk. -/
def acceptChunks : Esp3Packet → List (List Nat) → Option Esp3Packet
  | p, [] => some p
  | p, chunk :: chunks =>
    match acceptBytes p chunk with
    | none => none
    | some (_, p1) => acceptChunks p1 chunks

end Esp3Packet

namespace Esp3Packet

/-- A packet in `ps_dataread` that has stored the bytes `pre` and still has the
buffer cells `post` to fill. -/
def reading (hdr pre post : List Nat) : Esp3Packet :=
  { state := PacketState.ps_dataread, header := hdr, dataIndex := pre.length,
    payloadP := some (pre ++ post), payloadSize := pre.length + post.length }

/-- A complete packet with the given header and payload buffer. -/
def completed (hdr payload : List Nat) : Esp3Packet :=
  { state := PacketState.ps_complete, header := hdr, dataIndex := payload.length,
    payloadP := some payload, payloadSize := payload.length }

/-- A packet right after `clear()` discarded a payload of `n` bytes. -/
def dropped (n : Nat) : Esp3Packet :=
  { state := PacketState.ps_syncwait, header := List.replicate 6 0, dataIndex := n,
    payloadP := none, payloadSize := 0 }

/-- A packet waiting for sync that owns no payload buffer. -/
def Idle (p : Esp3Packet) : Prop :=
  p.state = PacketState.ps_syncwait ∧ p.header.length = 6 ∧ p.payloadP = none ∧
    p.payloadSize = 0

end Esp3Packet

namespace Esp3Packet

/-- An idle packet that still holds the six bytes of a rejected header. -/
def rejected (hdr : List Nat) : Esp3Packet :=
  { state := PacketState.ps_syncwait, header := hdr, dataIndex := 6, payloadP := none,
    payloadSize := 0 }

/-- The invariant of the packets reachable from a new one through
`acceptBytes`. -/
def WellFormed (p : Esp3Packet) : Prop :=
  p.header.length = 6 ∧
  match p.state with
  | PacketState.ps_syncwait => p.payloadP = none ∧ p.payloadSize = 0
  | PacketState.ps_headerread =>
    p.payloadP = none ∧ p.payloadSize = 0 ∧ p.header.getD 0 0 = 0x55 ∧
      1 ≤ p.dataIndex ∧ p.dataIndex ≤ 5
  | PacketState.ps_dataread =>
    p.header.getD 0 0 = 0x55 ∧ p.header.getD 5 0 = headerCRC p ∧
      ∃ buf, p.payloadP = some buf ∧ buf.length = p.payloadSize ∧
        p.payloadSize = dataLength p + optDataLength p + 1 ∧ p.dataIndex < p.payloadSize
  | PacketState.ps_complete =>
    p.header.getD 0 0 = 0x55 ∧ p.header.getD 5 0 = headerCRC p ∧
      ∃ buf, p.payloadP = some buf ∧ buf.length = p.payloadSize ∧
        p.payloadSize = dataLength p + optDataLength p + 1 ∧
        buf.getD (p.payloadSize - 1) 0 = crc8 (buf.take (p.payloadSize - 1)) 0

end Esp3Packet

/-- The reference telegram as a complete packet. -/
def refPacket : Esp3Packet :=
  Esp3Packet.completed [0x55, 0x00, 0x07, 0x07, 0x01, 0x7A]
    [0xF6, 0x30, 0x00, 0x86, 0xB8, 0x1A, 0x30, 0x03, 0xFF, 0xFF, 0xFF, 0xFF, 0xFF, 0x00, 0xC0]

/-- The reference telegram cut into three chunks. -/
def refChunks : List (List Nat) :=
  [[0x55, 0x00, 0x07], [0x07, 0x01, 0x7A, 0xF6, 0x30, 0x00, 0x86, 0xB8, 0x1A, 0x30],
   [0x03, 0xFF, 0xFF, 0xFF, 0xFF, 0xFF, 0x00, 0xC0]]

/-! ## Completed packets and the words of the decoding rules -/

namespace Esp3Packet

/-- Every stored header and payload byte is a byte. -/
def BytesOK (p : Esp3Packet) : Prop :=
  (∀ x ∈ p.header, x < 256) ∧ ∀ buf, p.payloadP = some buf → ∀ x ∈ buf, x < 256

/-- A completed packet: what feeding chunks of bytes to a new packet, call
after call, has left, when that is complete. -/
def Completed (q : Esp3Packet) : Prop :=
  ∃ chunks : List (List Nat), (∀ chunk ∈ chunks, ∀ x ∈ chunk, x < 256) ∧
    acceptChunks new chunks = some q ∧ q.state = PacketState.ps_complete

end Esp3Packet

/-- A radio telegram without user data: RORG, sender `00 86 B8 1A`, status. -/
def noUserDataPacket : Esp3Packet :=
  Esp3Packet.completed (esp3Header 1 6 0) [0xF6, 0x00, 0x86, 0xB8, 0x1A, 0x30, 0x72]

/-- A radio telegram whose RORG byte is `0x00`, followed by the byte `0x07`. -/
def zeroRorgPacket : Esp3Packet :=
  Esp3Packet.completed (esp3Header 1 2 0) [0x00, 0x07, 0x15]

/-- An RPS telegram with status `0x20` (T21 set, NU clear) and data `0x10`. -/
def uMessagePacket : Esp3Packet :=
  Esp3Packet.completed (esp3Header 1 7 0) [0xF6, 0x10, 0x00, 0x86, 0xB8, 0x1A, 0x20, 0x24]

/-- A radio telegram that consists of the RORG byte VLD alone. -/
def vldOnlyPacket : Esp3Packet :=
  Esp3Packet.completed (esp3Header 1 1 0) [0xD2, 0x30]

namespace EnoceanRpsButtonHandler

/-- The action code `a` of an N-message addresses the channel of handler `h`:
its rocker index `(a>>1)&3` is the handler's `switchIndex` and its side
`(a&1) != 0` is the handler's `isRockerUp`. -/
def Addresses (h : EnoceanRpsButtonHandler) (a : Nat) : Prop :=
  (a >>> 1) &&& 0x03 = h.switchIndex ∧ decide (a &&& 0x01 ≠ 0) = h.isRockerUp

instance decidableAddresses (h : EnoceanRpsButtonHandler) (a : Nat) : Decidable (Addresses h a) :=
  inferInstanceAs (Decidable (_ ∧ _))

/-- The handler after its state was set to `v`, with `buttonAction(v)` forwarded
when `v` differs from the cached state. -/
def withState (h : EnoceanRpsButtonHandler) (v : Bool) : EnoceanRpsButtonHandler :=
  { h with pressed := v,
           buttonActions := h.buttonActions ++ (if v ≠ h.pressed then [v] else []) }

end EnoceanRpsButtonHandler

/-- The number of affected rockers of a U-message as the rocker-count table
gives it, from the status byte and the user-data byte `d`, with
`b = (d>>5)&7`: for T21 set, 2 if `b = 0` or `b = 3` and 0 otherwise; for T21
clear, 4 if `b = 0` and `(b+1)>>1` otherwise. -/
def uMessageAffected (status d : Nat) : Nat :=
  if status &&& 0x20 ≠ 0 then
    (if (d >>> 5) &&& 7 = 0 ∨ (d >>> 5) &&& 7 = 3 then 2 else 0)
  else
    (if (d >>> 5) &&& 7 = 0 then 4 else (((d >>> 5) &&& 7) + 1) >>> 1)

/-- The events that a handling step forwarded to the behaviour sink: the
entries that the call log `after` the step has beyond the log `before` it. -/
def forwardedEvents (before after : List Bool) : List Bool :=
  after.drop before.length

namespace EnoceanDeviceContainer

/-- The registry after the `removeDevice` calls for the devices `del`, made in
the order of `del`. -/
def eraseDevices (reg del : List EnoceanDevice) : List EnoceanDevice :=
  del.foldl (fun r ed => r.eraseP
    (fun d => decide (d.address = ed.address) && decide (d.subDevice = ed.subDevice))) reg

end EnoceanDeviceContainer

/-- A container with learn mode disabled and four paired devices, two of them
under `0x0086B81A`, the sender address of the reference telegram. -/
def pairedContainer : EnoceanDeviceContainer :=
  ⟨false, [⟨3, 0⟩, ⟨0x0086B81A, 0⟩, ⟨0x0086B81A, 1⟩, ⟨0x0086B81B, 0⟩], [], [], [], []⟩

/-- A container in learn mode with an empty registry. -/
def learningContainer : EnoceanDeviceContainer :=
  ⟨true, [], [], [], [], []⟩

/-! ## Bounds-checked variants of the framer and of the accessors -/

namespace Esp3Packet

/-- The `switch (state)` of `Esp3Packet::acceptBytes` with its array writes
checked: `none` when `header[0]` or `header[dataIndex]` is written outside the
`ESP3_HEADERBYTES` bytes of `header`, when `payloadP[dataIndex]` is written
through a null pointer or outside the allocated buffer, and when the `default`
branch is taken; otherwise what `processByte` gives. -/
def processByteChecked (p : Esp3Packet) (byte : Nat) : Option (Esp3Packet × Flow) :=
  match p.state with
  | PacketState.ps_syncwait =>
    if byte = 0x55 then
      if 0 < ESP3_HEADERBYTES ∧ 0 < p.header.length then some (processByte p byte) else none
    else some (processByte p byte)
  | PacketState.ps_headerread =>
    if p.dataIndex < ESP3_HEADERBYTES ∧ p.dataIndex < p.header.length then
      some (processByte p byte)
    else none
  | PacketState.ps_dataread =>
    match p.payloadP with
    | none => none
    | some buf =>
      if p.dataIndex < p.payloadSize ∧ p.dataIndex < buf.length then some (processByte p byte)
      else none
  | PacketState.ps_complete => none

/-- The loop of `Esp3Packet::acceptBytes` over the checked `switch`: as
`acceptLoop`, but `none` as soon as one pass through the `switch` is. -/
def acceptLoopChecked :
    Nat → Esp3Packet → Nat → Nat → Nat → List Nat → Option (Nat × Esp3Packet)
  | 0, _, _, _, _, _ => none
  | fuel + 1, p, replayBytes, replayP, acceptedBytes, aBytes =>
    if replayBytes > 0 then
      match processByteChecked p (p.header.getD replayP 0) with
      | none => none
      | some (p1, Flow.done) => some (acceptedBytes, p1)
      | some (p1, Flow.replay) =>
        acceptLoopChecked fuel p1 (ESP3_HEADERBYTES - 1) 1 acceptedBytes aBytes
      | some (p1, Flow.next) =>
        acceptLoopChecked fuel p1 (replayBytes - 1) (replayP + 1) acceptedBytes aBytes
    else
      match aBytes with
      | [] => some (acceptedBytes, p)
      | byte :: rest =>
        match processByteChecked p byte with
        | none => none
        | some (p1, Flow.done) => some (acceptedBytes + 1, p1)
        | some (p1, Flow.replay) =>
          acceptLoopChecked fuel p1 (ESP3_HEADERBYTES - 1) 1 (acceptedBytes + 1) rest
        | some (p1, Flow.next) => acceptLoopChecked fuel p1 0 replayP (acceptedBytes + 1) rest

/-- `Esp3Packet::acceptBytes` with the array writes checked. -/
def acceptBytesChecked (p : Esp3Packet) (aBytes : List Nat) : Option (Nat × Esp3Packet) :=
  if p.state = PacketState.ps_complete then some (0, p)
  else acceptLoopChecked (6 * aBytes.length + 1) p 0 0 0 aBytes

/-- A read `data()[i]` with an `int` index, checked: `none` through a null
pointer and when `i` is negative or not below `payloadSize` (the size of the
buffer `data()` leaves). -/
def payloadRead (p : Esp3Packet) (i : Int) : Option Nat :=
  match (data p).payloadP with
  | none => none
  | some d =>
    if 0 ≤ i ∧ i < ((data p).payloadSize : Int) ∧ i.toNat < d.length then
      some (d.getD i.toNat 0)
    else none

/-- `Esp3Packet::radio_rorg()` with its payload read checked. -/
def radio_rorg_checked (p : Esp3Packet) : Option Nat :=
  if packetType p ≠ pt_radio then some rorg_invalid
  else
    match (data p).payloadP with
    | none => some rorg_invalid
    | some _ => if dataLength p < 1 then some rorg_invalid else payloadRead p 0

/-- `Esp3Packet::radio_status()` with its payload reads checked. -/
def radio_status_checked (p : Esp3Packet) : Option Nat :=
  match radio_rorg_checked p with
  | none => none
  | some rorg =>
    let statusoffset : Int :=
      if rorg ≠ rorg_invalid then
        if rorg = rorg_VLD then (dataLength p : Int) - 1 - 1 else (dataLength p : Int) - 1
      else 0
    if statusoffset < 0 then some 0
    else payloadRead p statusoffset

/-- `Esp3Packet::radio_userDataLength()` with its payload read (that of
`radio_rorg()`) checked. -/
def radio_userDataLength_checked (p : Esp3Packet) : Option Nat :=
  if packetType p ≠ pt_radio then some 0
  else
    match radio_rorg_checked p with
    | none => none
    | some rorg =>
      let bytes : Int := (dataLength p : Int) - 1 - 1 - 4
      let bytes : Int := if rorg = rorg_VLD then bytes - 1 else bytes
      if bytes < 0 then some 0 else some bytes.toNat

/-- `Esp3Packet::radio_sender()` with its payload reads checked: `d[k]` for
`d = data()+1+l` is the read `data()[1+l+k]`. -/
def radio_sender_checked (p : Esp3Packet) : Option Nat :=
  match radio_userDataLength_checked p with
  | none => none
  | some l =>
    if l > 0 then
      match payloadRead p (1 + l + 0 : Nat), payloadRead p (1 + l + 1 : Nat),
          payloadRead p (1 + l + 2 : Nat), payloadRead p (1 + l + 3 : Nat) with
      | some d0, some d1, some d2, some d3 =>
        some (((d0 <<< 24) + (d1 <<< 16) + (d2 <<< 8) + d3) % 2 ^ 32)
      | _, _, _, _ => none
    else some 0

/-- A read `o[k]` for `o = optData()`, checked: the read `data()[dataLength()+k]`. -/
def optDataRead (p : Esp3Packet) (k : Nat) : Option Nat :=
  payloadRead p (dataLength p + k : Nat)

/-- `Esp3Packet::radio_subtelegrams()` with its payload read checked. -/
def radio_subtelegrams_checked (p : Esp3Packet) : Option Nat :=
  match optData p with
  | none => some 0
  | some _ => if optDataLength p < 7 then some 0 else optDataRead p 0

/-- `Esp3Packet::radio_destination()` with its payload reads checked. -/
def radio_destination_checked (p : Esp3Packet) : Option Nat :=
  match optData p with
  | none => some 0
  | some _ =>
    if optDataLength p < 7 then some 0
    else
      match optDataRead p 1, optDataRead p 2, optDataRead p 3, optDataRead p 4 with
      | some o1, some o2, some o3, some o4 =>
        some (((o1 <<< 24) + (o2 <<< 16) + (o3 <<< 8) + o4) % 2 ^ 32)
      | _, _, _, _ => none

/-- `Esp3Packet::radio_dBm()` with its payload read checked. -/
def radio_dBm_checked (p : Esp3Packet) : Option Int :=
  match optData p with
  | none => some 0
  | some _ =>
    if optDataLength p < 7 then some 0
    else (optDataRead p 5).map (fun v => -((v : Nat) : Int))

/-- `Esp3Packet::radio_security_level()` with its payload read checked. -/
def radio_security_level_checked (p : Esp3Packet) : Option Nat :=
  match optData p with
  | none => some 0
  | some _ => if optDataLength p < 7 then some 0 else optDataRead p 6

/-- Feed a sequence of chunks to one packet, one `acceptBytes` call per chunk,
and add up the numbers of bytes the calls accepted. -/
def acceptChunksCount : Esp3Packet → List (List Nat) → Option (Nat × Esp3Packet)
  | p, [] => some (0, p)
  | p, chunk :: chunks =>
    match acceptBytes p chunk with
    | none => none
    | some (n, p1) =>
      match acceptChunksCount p1 chunks with
      | none => none
      | some (m, q) => some (n + m, q)

/-- The stream bytes a packet holds: none while it waits for sync, the header
bytes read so far, or the header and the payload bytes read so far. -/
def collected (p : Esp3Packet) : List Nat :=
  match p.state with
  | PacketState.ps_syncwait => []
  | PacketState.ps_headerread => p.header.take p.dataIndex
  | PacketState.ps_dataread => p.header ++ (p.payloadP.getD []).take p.dataIndex
  | PacketState.ps_complete => p.header ++ (p.payloadP.getD []).take p.payloadSize

end Esp3Packet

/-! ## Reference scanner (from the wording of the resynchronisation rule) -/

/-- What the reference scanner finds in a stream: a packet that starts at
position `pos`, with its six header bytes and its payload (check byte
included), or the position `pos` from which on the stream is undecided when it
ends. -/
inductive ScanResult where
  | complete (pos : Nat) (header payload : List Nat)
  | pending (pos : Nat)
  deriving DecidableEq, Repr

/-- The reference scanner at position `pos`, with `l` the stream from `pos` on
and one unit of fuel per step: if the byte at `pos` is not `0x55` go to
`pos+1`; else if the six bytes at `pos` fail the header CRC go to `pos+1`; else
if the payload of the declared size (data, optional data and check byte) fails
its CRC go to `pos+6+size`; else the packet at `pos` is complete.  Where the
stream ends before the bytes a test needs, the scan is pending at `pos`. -/
def refScanFrom : Nat → Nat → List Nat → ScanResult
  | 0, pos, _ => ScanResult.pending pos
  | _ + 1, pos, [] => ScanResult.pending pos
  | fuel + 1, pos, b :: rest =>
    if b ≠ 0x55 then refScanFrom fuel (pos + 1) rest
    else if rest.length < 5 then ScanResult.pending pos
    else if rest.getD 4 0 ≠ crc8 (rest.take 4) 0 then refScanFrom fuel (pos + 1) rest
    else
      let size := (rest.getD 0 0 <<< 8) + rest.getD 1 0 + rest.getD 2 0 + 1
      if rest.length < 5 + size then ScanResult.pending pos
      else if rest.getD (5 + size - 1) 0 ≠ crc8 ((rest.drop 5).take (size - 1)) 0 then
        refScanFrom fuel (pos + 6 + size) (rest.drop (5 + size))
      else ScanResult.complete pos (b :: rest.take 5) ((rest.drop 5).take size)

/-- The reference scanner over a whole stream, from position 0; every step
moves on by at least one byte, so `s.length + 1` steps suffice. -/
def refScan (s : List Nat) : ScanResult :=
  refScanFrom (s.length + 1) 0 s

/-- A stray sync byte, the reference telegram and one more byte, cut into three
chunks. -/
def straySyncChunks : List (List Nat) :=
  [[0x55, 0x55, 0x00, 0x07], [0x07, 0x01, 0x7A, 0xF6, 0x30, 0x00, 0x86, 0xB8, 0x1A, 0x30],
   [0x03, 0xFF, 0xFF, 0xFF, 0xFF, 0xFF, 0x00, 0xC0, 0x01]]

/-! ## CRC8 lemmas -/

set_option maxRecDepth 100000 in
theorem CRC8Table_length : CRC8Table.length = 256 := by decide

set_option maxRecDepth 100000 in
theorem CRC8Table_all_lt : CRC8Table.all (fun v => decide (v < 256)) = true := by decide

set_option maxRecDepth 100000 in
theorem CRC8Table_nodup : CRC8Table.Nodup := by decide

set_option maxRecDepth 100000 in
theorem CRC8Table_check :
    (List.range 256).all (fun b => CRC8Table.getD b 0 == crc8RefByte 0 b) = true := by
  decide

theorem CRC8Table_eq_ref (b : Nat) (hb : b < 256) :
    CRC8Table.getD b 0 = crc8RefByte 0 b := by
  have h := CRC8Table_check
  rw [List.all_eq_true] at h
  simpa using h b (List.mem_range.mpr hb)

theorem xor_byte_lt {a b : Nat} (ha : a < 256) (hb : b < 256) : a ^^^ b < 256 := by
  show a ^^^ b < 2 ^ 8
  exact Nat.xor_lt_two_pow ha hb

theorem CRC8Table_getD_lt (i : Nat) : CRC8Table.getD i 0 < 256 := by
  have h := CRC8Table_all_lt
  rw [List.all_eq_true] at h
  by_cases hi : i < CRC8Table.length
  · have hm : CRC8Table.getD i 0 ∈ CRC8Table := by
      rw [List.getD_eq_getElem _ _ hi]
      exact List.getElem_mem hi
    simpa using h _ hm
  · rw [List.getD_eq_default _ _ (Nat.le_of_not_lt hi)]
    decide

theorem addToCrc8_lt (a b : Nat) : addToCrc8 a b < 256 :=
  CRC8Table_getD_lt _

theorem crc8_lt (xs : List Nat) (s : Nat) (hs : s < 256) : crc8 xs s < 256 := by
  induction xs generalizing s with
  | nil => simpa [crc8] using hs
  | cons x xs ih =>
    have h := ih (addToCrc8 s x) (addToCrc8_lt s x)
    simpa [crc8] using h

theorem crc8_nil (s : Nat) : crc8 [] s = s := rfl

theorem crc8_cons (x : Nat) (xs : List Nat) (s : Nat) :
    crc8 (x :: xs) s = crc8 xs (addToCrc8 s x) := rfl

theorem crc8_append (xs ys : List Nat) (s : Nat) :
    crc8 (xs ++ ys) s = crc8 ys (crc8 xs s) := by
  simp [crc8, List.foldl_append]

theorem crc8RefByte_eq_zero_seed (r b : Nat) : crc8RefByte r b = crc8RefByte 0 (r ^^^ b) := by
  simp [crc8RefByte]

theorem addToCrc8_eq_ref (c b : Nat) (hc : c < 256) (hb : b < 256) :
    addToCrc8 c b = crc8RefByte c b := by
  have hx : b ^^^ c < 256 := xor_byte_lt hb hc
  rw [crc8RefByte_eq_zero_seed, addToCrc8, CRC8Table_eq_ref _ hx, Nat.xor_comm]

theorem CRC8Table_getD_inj (i j : Nat) (hi : i < 256) (hj : j < 256)
    (h : CRC8Table.getD i 0 = CRC8Table.getD j 0) : i = j := by
  have hi2 : i < CRC8Table.length := by rw [CRC8Table_length]; exact hi
  have hj2 : j < CRC8Table.length := by rw [CRC8Table_length]; exact hj
  rw [List.getD_eq_getElem _ _ hi2, List.getD_eq_getElem _ _ hj2] at h
  exact (List.Nodup.getElem_inj_iff CRC8Table_nodup).mp h

theorem addToCrc8_inj_left (c1 c2 b : Nat) (h1 : c1 < 256) (h2 : c2 < 256) (hb : b < 256)
    (h : addToCrc8 c1 b = addToCrc8 c2 b) : c1 = c2 := by
  unfold addToCrc8 at h
  have := CRC8Table_getD_inj _ _ (xor_byte_lt hb h1) (xor_byte_lt hb h2) h
  exact Nat.xor_right_injective this

theorem addToCrc8_inj_right (c b1 b2 : Nat) (hc : c < 256) (h1 : b1 < 256) (h2 : b2 < 256)
    (h : addToCrc8 c b1 = addToCrc8 c b2) : b1 = b2 := by
  unfold addToCrc8 at h
  have := CRC8Table_getD_inj _ _ (xor_byte_lt h1 hc) (xor_byte_lt h2 hc) h
  exact Nat.xor_left_injective this

theorem crc8_inj_seed (ys : List Nat) (c1 c2 : Nat) (h1 : c1 < 256) (h2 : c2 < 256)
    (hys : ∀ y ∈ ys, y < 256) (h : crc8 ys c1 = crc8 ys c2) : c1 = c2 := by
  induction ys generalizing c1 c2 with
  | nil => exact h
  | cons y ys ih =>
    rw [crc8_cons, crc8_cons] at h
    have hy : y < 256 := hys y (List.mem_cons_self _ _)
    have := ih _ _ (addToCrc8_lt c1 y) (addToCrc8_lt c2 y)
      (fun z hz => hys z (List.mem_cons_of_mem _ hz)) h
    exact addToCrc8_inj_left c1 c2 y h1 h2 hy this

/-- Changing exactly one byte of a sequence changes its CRC8. -/
theorem crc8_single_byte_change (A B : List Nat) (b1 b2 s : Nat) (hs : s < 256)
    (h1 : b1 < 256) (h2 : b2 < 256) (hB : ∀ y ∈ B, y < 256) (hne : b1 ≠ b2) :
    crc8 (A ++ b1 :: B) s ≠ crc8 (A ++ b2 :: B) s := by
  intro h
  rw [crc8_append, crc8_append, crc8_cons, crc8_cons] at h
  have hc := crc8_inj_seed B _ _ (addToCrc8_lt _ _) (addToCrc8_lt _ _) hB h
  have hA : crc8 A s < 256 := crc8_lt A s hs
  exact hne (addToCrc8_inj_right _ _ _ hA h1 h2 hc)

theorem xor_bit_ne (v k : Nat) : v ^^^ 2 ^ k ≠ v := by
  intro h
  have h2 : v ^^^ 2 ^ k = v ^^^ 0 := by simpa using h
  have := Nat.xor_right_injective h2
  exact absurd this (by positivity)

theorem xor_bit_lt (v k : Nat) (hv : v < 256) (hk : k < 8) : v ^^^ 2 ^ k < 256 := by
  apply xor_byte_lt hv
  calc 2 ^ k < 2 ^ 8 := Nat.pow_lt_pow_right (by decide) hk
    _ = 256 := rfl

/-! ## The loop of `Esp3Packet::acceptBytes` -/

namespace Esp3Packet

theorem processByte_done_state (p : Esp3Packet) (b : Nat)
    (h : (processByte p b).2 = Flow.done) :
    (processByte p b).1.state = PacketState.ps_complete := by
  unfold processByte at h ⊢
  cases hs : p.state <;> simp only [hs] at h ⊢ <;> (try split_ifs at h ⊢) <;> simp_all

theorem processByte_not_done_state (p : Esp3Packet) (b : Nat)
    (h : (processByte p b).2 ≠ Flow.done) :
    (processByte p b).1.state ≠ PacketState.ps_complete := by
  unfold processByte at h ⊢
  cases hs : p.state <;> simp only [hs] at h ⊢ <;> (try split_ifs at h ⊢) <;>
    simp_all [clear, clearData]

theorem processByte_replay_state (p : Esp3Packet) (b : Nat)
    (h : (processByte p b).2 = Flow.replay) :
    (processByte p b).1.state = PacketState.ps_syncwait := by
  unfold processByte at h ⊢
  cases hs : p.state <;> simp only [hs] at h ⊢ <;> (try split_ifs at h ⊢) <;>
    simp_all [clear, clearData]

theorem processByte_quiet (rb : Nat) (p : Esp3Packet) (b : Nat) (h : Quiet (rb + 1) p) :
    (processByte p b).2 = Flow.next ∧ Quiet rb (processByte p b).1 := by
  rcases h with ⟨hs, hr⟩ | ⟨hs, hr⟩
  · unfold processByte
    simp only [hs]
    split_ifs
    · refine ⟨rfl, Or.inr ⟨rfl, ?_⟩⟩
      simp only
      omega
    · exact ⟨rfl, Or.inl ⟨hs, by omega⟩⟩
  · unfold processByte
    simp only [hs]
    have hne : ¬ (p.dataIndex + 1 = ESP3_HEADERBYTES) := by
      simp only [ESP3_HEADERBYTES]; omega
    rw [if_neg hne]
    refine ⟨rfl, Or.inr ⟨rfl, ?_⟩⟩
    simp only
    omega

theorem acceptLoop_succ (fuel : Nat) (p : Esp3Packet) (replayBytes replayP acceptedBytes : Nat)
    (aBytes : List Nat) :
    acceptLoop (fuel + 1) p replayBytes replayP acceptedBytes aBytes =
      if replayBytes > 0 then
        match processByte p (p.header.getD replayP 0) with
        | (p1, Flow.done) => some (acceptedBytes, p1)
        | (p1, Flow.replay) => acceptLoop fuel p1 (ESP3_HEADERBYTES - 1) 1 acceptedBytes aBytes
        | (p1, Flow.next) =>
          acceptLoop fuel p1 (replayBytes - 1) (replayP + 1) acceptedBytes aBytes
      else
        match aBytes with
        | [] => some (acceptedBytes, p)
        | byte :: rest =>
          match processByte p byte with
          | (p1, Flow.done) => some (acceptedBytes + 1, p1)
          | (p1, Flow.replay) =>
            acceptLoop fuel p1 (ESP3_HEADERBYTES - 1) 1 (acceptedBytes + 1) rest
          | (p1, Flow.next) => acceptLoop fuel p1 0 replayP (acceptedBytes + 1) rest := rfl

theorem replayRun_quiet (rb rp : Nat) (p : Esp3Packet) (h : Quiet rb p) :
    Quiet 0 (replayRun rb rp p) := by
  induction rb generalizing rp p with
  | zero => exact h
  | succ rb ih =>
    rw [replayRun]
    exact ih _ _ (processByte_quiet rb p _ h).2

theorem Quiet.not_complete {rb : Nat} {p : Esp3Packet} (h : Quiet rb p) :
    p.state ≠ PacketState.ps_complete := by
  rcases h with ⟨hs, _⟩ | ⟨hs, _⟩ <;> simp [hs]

theorem acceptLoop_replay (rb : Nat) (fuel rp acc : Nat) (p : Esp3Packet) (bytes : List Nat)
    (h : Quiet rb p) :
    acceptLoop (fuel + rb) p rb rp acc bytes =
      acceptLoop fuel (replayRun rb rp p) 0 (rp + rb) acc bytes := by
  induction rb generalizing rp p with
  | zero => rfl
  | succ rb ih =>
    obtain ⟨hflow, hq⟩ := processByte_quiet rb p (p.header.getD rp 0) h
    have hstep : acceptLoop (fuel + rb + 1) p (rb + 1) rp acc bytes =
        acceptLoop (fuel + rb) (processByte p (p.header.getD rp 0)).1 rb (rp + 1) acc bytes := by
      rw [acceptLoop_succ]
      rw [if_pos (Nat.succ_pos rb)]
      generalize hpb : processByte p (p.header.getD rp 0) = r at hflow
      obtain ⟨p1, f⟩ := r
      simp only at hflow
      subst hflow
      simp
    rw [show fuel + (rb + 1) = fuel + rb + 1 from rfl, hstep, ih _ _ hq, replayRun]
    congr 1
    omega

theorem acceptLoop_replayP_irrelevant (fuel : Nat) (p : Esp3Packet) (rp rp2 acc : Nat)
    (bytes : List Nat) :
    acceptLoop fuel p 0 rp acc bytes = acceptLoop fuel p 0 rp2 acc bytes := by
  induction fuel generalizing p acc bytes with
  | zero => rfl
  | succ fuel ih =>
    rw [acceptLoop_succ, acceptLoop_succ]
    simp only [gt_iff_lt, lt_self_iff_false, if_false]
    cases bytes with
    | nil => rfl
    | cons b rest =>
      simp only
      generalize processByte p b = r
      obtain ⟨p1, f⟩ := r
      cases f
      · simp only
        exact ih _ _ _
      · rfl
      · rfl

theorem feed_not_complete_of_not_done (p : Esp3Packet) (b : Nat)
    (h : (processByte p b).2 ≠ Flow.done) :
    (feed p b).state ≠ PacketState.ps_complete := by
  unfold feed
  have h1 := processByte_not_done_state p b h
  have h2 := processByte_replay_state p b
  generalize processByte p b = r at h h1 h2
  obtain ⟨p1, f⟩ := r
  cases f
  · exact h1
  · simp only
    have hq : Quiet (ESP3_HEADERBYTES - 1) p1 := Or.inl ⟨h2 rfl, by simp [ESP3_HEADERBYTES]⟩
    exact (replayRun_quiet _ _ _ hq).not_complete
  · exact absurd rfl h

theorem feed_of_done (p : Esp3Packet) (b : Nat) (h : (processByte p b).2 = Flow.done) :
    feed p b = (processByte p b).1 ∧ (feed p b).state = PacketState.ps_complete := by
  have h1 := processByte_done_state p b h
  unfold feed
  generalize processByte p b = r at h h1
  obtain ⟨p1, f⟩ := r
  simp only at h
  subst h
  exact ⟨rfl, h1⟩

/-- With fuel for six iterations per input byte and one more, the loop of
`acceptBytes` started without pending replay returns what `run` computes. -/
theorem acceptLoop_eq_run (bytes : List Nat) (fuel : Nat) (p : Esp3Packet) (rp acc : Nat)
    (hfuel : 6 * bytes.length + 1 ≤ fuel) :
    acceptLoop fuel p 0 rp acc bytes = some (acc + (run p bytes).1, (run p bytes).2) := by
  induction bytes generalizing fuel p rp acc with
  | nil =>
    obtain ⟨f, rfl⟩ : ∃ f, fuel = f + 1 := ⟨fuel - 1, by simp at hfuel; omega⟩
    simp [acceptLoop_succ, run]
  | cons b rest ih =>
    simp only [List.length_cons] at hfuel
    obtain ⟨f, rfl⟩ : ∃ f, fuel = f + 6 := ⟨fuel - 6, by omega⟩
    rw [show f + 6 = (f + 5) + 1 from rfl, acceptLoop_succ]
    simp only [gt_iff_lt, lt_self_iff_false, if_false]
    by_cases hdone : (processByte p b).2 = Flow.done
    · obtain ⟨hfeed, hcomp⟩ := feed_of_done p b hdone
      rw [run, if_pos hcomp, hfeed]
      generalize processByte p b = r at hdone
      obtain ⟨p1, fl⟩ := r
      simp only at hdone
      subst hdone
      rfl
    · have hnc := feed_not_complete_of_not_done p b hdone
      rw [run, if_neg hnc]
      have hrs := processByte_replay_state p b
      have hfeed : feed p b = match processByte p b with
          | (p1, Flow.replay) => replayRun (ESP3_HEADERBYTES - 1) 1 p1
          | (p1, _) => p1 := rfl
      generalize processByte p b = r at hdone hrs hfeed
      obtain ⟨p1, fl⟩ := r
      cases fl
      · simp only at hfeed ⊢
        rw [← hfeed, ih (f + 5) (feed p b) rp (acc + 1) (by omega)]
        simp [Nat.add_assoc, Nat.add_comm]
      · simp only at hfeed ⊢
        have hq : Quiet (ESP3_HEADERBYTES - 1) p1 :=
          Or.inl ⟨hrs rfl, by simp [ESP3_HEADERBYTES]⟩
        have := acceptLoop_replay (ESP3_HEADERBYTES - 1) f 1 (acc + 1) p1 rest hq
        simp only [ESP3_HEADERBYTES] at this hfeed ⊢
        rw [this, ← hfeed, ih f (feed p b) _ (acc + 1) (by omega)]
        simp [Nat.add_assoc, Nat.add_comm]
      · exact absurd rfl hdone

/-- `acceptBytes` always returns: nothing for a complete packet, else the
byte-wise run. -/
theorem acceptBytes_eq_run (p : Esp3Packet) (bytes : List Nat) :
    acceptBytes p bytes =
      if p.state = PacketState.ps_complete then some (0, p) else some (run p bytes) := by
  unfold acceptBytes
  split_ifs with h
  · rfl
  · rw [acceptLoop_eq_run bytes _ p 0 0 (le_refl _)]
    simp

theorem run_nil (p : Esp3Packet) : run p [] = (0, p) := rfl

theorem run_cons (p : Esp3Packet) (b : Nat) (rest : List Nat) :
    run p (b :: rest) =
      if (feed p b).state = PacketState.ps_complete then (1, feed p b)
      else ((run (feed p b) rest).1 + 1, (run (feed p b) rest).2) := rfl

theorem run_fst_le (p : Esp3Packet) (bytes : List Nat) : (run p bytes).1 ≤ bytes.length := by
  induction bytes generalizing p with
  | nil => simp [run_nil]
  | cons b rest ih =>
    rw [run_cons]
    split_ifs
    · simp
    · simpa using ih (feed p b)

theorem run_fst_pos (p : Esp3Packet) (b : Nat) (rest : List Nat) :
    1 ≤ (run p (b :: rest)).1 := by
  rw [run_cons]
  split_ifs <;> simp

theorem run_fst_of_not_complete (p : Esp3Packet) (bytes : List Nat)
    (h : (run p bytes).2.state ≠ PacketState.ps_complete) :
    (run p bytes).1 = bytes.length := by
  induction bytes generalizing p with
  | nil => simp [run_nil]
  | cons b rest ih =>
    rw [run_cons] at h ⊢
    split_ifs at h ⊢ with hc
    · exact absurd hc h
    · simpa using ih (feed p b) h

theorem run_append (p : Esp3Packet) (xs ys : List Nat) :
    run p (xs ++ ys) =
      if (run p xs).2.state = PacketState.ps_complete ∧ xs ≠ [] then run p xs
      else ((run p xs).1 + (run (run p xs).2 ys).1, (run (run p xs).2 ys).2) := by
  induction xs generalizing p with
  | nil => simp [run_nil]
  | cons b rest ih =>
    simp only [List.cons_append, ne_eq, reduceCtorEq, not_false_eq_true, and_true]
    rw [run_cons, run_cons]
    by_cases hc : (feed p b).state = PacketState.ps_complete
    · simp [hc]
    · simp only [hc, if_false]
      rw [ih (feed p b)]
      by_cases hr : rest = []
      · subst hr
        simp [run_nil, hc, Nat.add_comm]
      · simp only [ne_eq, hr, not_false_eq_true, and_true]
        split_ifs
        · rfl
        · simp [Nat.add_assoc, Nat.add_comm, Nat.add_left_comm]

end Esp3Packet

/-! ## The loop of `EnoceanComm::acceptBytes` -/

namespace EnoceanComm

theorem afterPacket_setCurrent (c : EnoceanComm) (x : Option Esp3Packet) (q : Esp3Packet) :
    afterPacket { c with currentIncomingPacket := x } q = afterPacket c q := by
  unfold afterPacket dispatchPacket
  split_ifs <;> rfl

theorem afterPacket_ready (c : EnoceanComm) (q : Esp3Packet) : Ready (afterPacket c q) := by
  unfold afterPacket
  by_cases hq : q.state = PacketState.ps_complete
  · have : Esp3Packet.isComplete q = true := by simp [Esp3Packet.isComplete, hq]
    rw [if_pos this]
    intro p hp
    simp at hp
  · have : ¬ (Esp3Packet.isComplete q = true) := by simp [Esp3Packet.isComplete, hq]
    rw [if_neg this]
    intro p hp
    simp only [Option.some.injEq] at hp
    subst hp
    exact hq

theorem currentOrNew_not_complete (c : EnoceanComm) (hc : Ready c) :
    (currentOrNew c).state ≠ PacketState.ps_complete := by
  unfold currentOrNew
  cases h : c.currentIncomingPacket with
  | none => simp [Esp3Packet.new, Esp3Packet.clear, Esp3Packet.clearData]
  | some p => exact hc p h

theorem feed_ready (c : EnoceanComm) (b : Nat) : Ready (feed c b) :=
  afterPacket_ready _ _

theorem foldl_feed_ready (c : EnoceanComm) (hc : Ready c) (bytes : List Nat) :
    Ready (bytes.foldl feed c) := by
  induction bytes generalizing c with
  | nil => exact hc
  | cons b rest ih => exact ih _ (feed_ready c b)

theorem afterPacket_run (bytes : List Nat) (c : EnoceanComm) (hne : bytes ≠ []) :
    afterPacket c (Esp3Packet.run (currentOrNew c) bytes).2 =
      (bytes.take (Esp3Packet.run (currentOrNew c) bytes).1).foldl feed c := by
  induction bytes generalizing c with
  | nil => exact absurd rfl hne
  | cons b rest ih =>
    rw [Esp3Packet.run_cons]
    by_cases hcomp : (Esp3Packet.feed (currentOrNew c) b).state = PacketState.ps_complete
    · simp only [hcomp, if_true]
      simp [feed]
    · simp only [hcomp, if_false, List.take_succ_cons, List.foldl_cons]
      have hfeed : feed c b =
          { c with currentIncomingPacket := some (Esp3Packet.feed (currentOrNew c) b) } := by
        unfold feed afterPacket
        have : ¬ (Esp3Packet.isComplete (Esp3Packet.feed (currentOrNew c) b) = true) := by
          simp [Esp3Packet.isComplete, hcomp]
        rw [if_neg this]
      have hcur : currentOrNew (feed c b) = Esp3Packet.feed (currentOrNew c) b := by
        rw [hfeed]
        rfl
      by_cases hr : rest = []
      · subst hr
        simp [Esp3Packet.run_nil, feed]
      · have := ih (feed c b) hr
        rw [hcur] at this
        rw [← this, hfeed]
        exact (afterPacket_setCurrent c _ _).symm

theorem commLoop_succ (fuel : Nat) (c : EnoceanComm) (aBytes : List Nat) :
    acceptLoop (fuel + 1) c aBytes =
      if aBytes.length > 0 then
        match Esp3Packet.acceptBytes (currentOrNew c) aBytes with
        | none => none
        | some (consumedBytes, pkt1) =>
          acceptLoop fuel (afterPacket c pkt1) (aBytes.drop consumedBytes)
      else some (c, aBytes) := rfl

/-- With one unit of fuel per byte and one more, the loop of
`EnoceanComm::acceptBytes` consumes the whole buffer and leaves what feeding the
bytes one by one leaves. -/
theorem acceptLoop_eq_foldl (fuel : Nat) (c : EnoceanComm) (hc : Ready c) (bytes : List Nat)
    (hfuel : bytes.length + 1 ≤ fuel) :
    acceptLoop fuel c bytes = some (bytes.foldl feed c, []) := by
  induction fuel generalizing c bytes with
  | zero => omega
  | succ fuel ih =>
    rw [commLoop_succ]
    cases bytes with
    | nil => simp
    | cons b rest =>
      simp only [List.length_cons, gt_iff_lt, Nat.zero_lt_succ, if_true]
      rw [Esp3Packet.acceptBytes_eq_run, if_neg (currentOrNew_not_complete c hc)]
      simp only
      have hpos := Esp3Packet.run_fst_pos (currentOrNew c) b rest
      have hle := Esp3Packet.run_fst_le (currentOrNew c) (b :: rest)
      rw [ih _ (afterPacket_ready _ _) _ (by
        simp only [List.length_drop, List.length_cons] at hfuel hle ⊢
        omega)]
      rw [afterPacket_run (b :: rest) c (by simp), ← List.foldl_append, List.take_append_drop]

/-- `EnoceanComm::acceptBytes` always returns, consumes the whole buffer and
acts byte by byte. -/
theorem acceptBytes_eq_foldl (c : EnoceanComm) (hc : Ready c) (bytes : List Nat) :
    acceptBytes c bytes = some (bytes.length, bytes.foldl feed c) := by
  unfold acceptBytes
  rw [acceptLoop_eq_foldl _ c hc bytes (Nat.le_succ _)]
  simp

theorem new_ready : Ready new := by
  intro p hp
  simp [new] at hp

theorem acceptChunks_eq_foldl (chunks : List (List Nat)) (c : EnoceanComm) (hc : Ready c) :
    acceptChunks c chunks = some (chunks.flatten.foldl feed c) := by
  induction chunks generalizing c with
  | nil => rfl
  | cons chunk chunks ih =>
    rw [acceptChunks, acceptBytes_eq_foldl c hc]
    simp only [List.flatten_cons, List.foldl_append]
    exact ih _ (foldl_feed_ready c hc chunk)

end EnoceanComm

namespace Esp3Packet

theorem acceptChunks_complete (chunks : List (List Nat)) (p : Esp3Packet)
    (hp : p.state = PacketState.ps_complete) : acceptChunks p chunks = some p := by
  induction chunks with
  | nil => rfl
  | cons chunk chunks ih =>
    rw [acceptChunks, acceptBytes_eq_run, if_pos hp]
    exact ih

theorem run_of_complete_nil (p : Esp3Packet) (bytes : List Nat)
    (h : (run p bytes).2.state = PacketState.ps_complete)
    (hp : p.state ≠ PacketState.ps_complete) : bytes ≠ [] := by
  rintro rfl
  exact hp h

theorem acceptChunks_eq_run (chunks : List (List Nat)) (p : Esp3Packet)
    (hp : p.state ≠ PacketState.ps_complete) :
    acceptChunks p chunks = some (run p chunks.flatten).2 := by
  induction chunks generalizing p with
  | nil => rfl
  | cons chunk chunks ih =>
    rw [acceptChunks, acceptBytes_eq_run, if_neg hp]
    simp only [List.flatten_cons]
    rw [run_append]
    by_cases hc : (run p chunk).2.state = PacketState.ps_complete
    · rw [if_pos ⟨hc, run_of_complete_nil p chunk hc hp⟩]
      exact acceptChunks_complete _ _ hc
    · rw [if_neg (fun h => hc h.1)]
      exact ih _ hc

end Esp3Packet

/-! ## Parsing a well-formed packet -/

namespace Esp3Packet

theorem feed_syncwait_skip (p : Esp3Packet) (b : Nat) (hs : p.state = PacketState.ps_syncwait)
    (hb : b ≠ 0x55) : feed p b = p := by
  simp [feed, processByte, hs, hb]

theorem run_skip (p : Esp3Packet) (G : List Nat) (hs : p.state = PacketState.ps_syncwait)
    (hG : ∀ x ∈ G, x ≠ 0x55) : run p G = (G.length, p) := by
  induction G with
  | nil => rfl
  | cons g G ih =>
    have hg : g ≠ 0x55 := hG g (List.mem_cons_self _ _)
    rw [run_cons, feed_syncwait_skip p g hs hg, ih (fun x hx => hG x (List.mem_cons_of_mem _ hx))]
    simp [hs]

theorem run_header (p : Esp3Packet) (hp : Idle p) (a b c d : Nat) :
    run p [0x55, a, b, c, d, crc8 [a, b, c, d] 0] =
      (6, reading [0x55, a, b, c, d, crc8 [a, b, c, d] 0] []
            (List.replicate ((a <<< 8) + b + c + 1) 0)) := by
  obtain ⟨state, header, dataIndex, payloadP, payloadSize⟩ := p
  obtain ⟨hs, hl, hpp, hps⟩ := hp
  simp only at hs hl hpp hps
  subst hs hpp hps
  match header, hl with
  | [h0, h1, h2, h3, h4, h5], _ =>
    simp [run_cons, run_nil, feed, processByte, ESP3_HEADERBYTES, headerCRC, data, dataLength,
      optDataLength, reading]

theorem set_append_cons (pre : List Nat) (z y : Nat) (post : List Nat) :
    (pre ++ z :: post).set pre.length y = pre ++ y :: post := by
  rw [List.set_append]
  simp

theorem feed_reading_mid (hdr pre : List Nat) (z z2 : Nat) (post : List Nat) (y : Nat) :
    feed (reading hdr pre (z :: z2 :: post)) y = reading hdr (pre ++ [y]) (z2 :: post) := by
  simp only [feed, processByte, reading, Option.map_some', set_append_cons]
  have hne : ¬ (pre.length + 1 = pre.length + (z :: z2 :: post).length) := by
    simp
  rw [if_neg hne]
  simp only [List.length_append, List.length_cons, List.length_nil, List.append_assoc,
    List.singleton_append]
  congr 1
  omega

theorem feed_reading_last (hdr pre : List Nat) (z y : Nat) :
    feed (reading hdr pre [z]) y =
      if y ≠ crc8 pre 0 then dropped (pre.length + 1) else completed hdr (pre ++ [y]) := by
  simp only [feed, processByte, reading, Option.map_some', set_append_cons, payloadCRC,
    List.length_cons, List.length_nil, Nat.zero_add, if_true, Option.getD_some,
    Nat.add_sub_cancel, List.take_left]
  have hget : (pre ++ [y]).getD pre.length 0 = y := by
    simp [List.getD_eq_getElem?_getD]
  rw [hget]
  split_ifs <;> simp [dropped, completed, clear, clearData]

theorem run_reading (hdr : List Nat) (ys pre post : List Nat) (h : ys.length < post.length) :
    run (reading hdr pre post) ys =
      (ys.length, reading hdr (pre ++ ys) (post.drop ys.length)) := by
  induction ys generalizing pre post with
  | nil => simp [run_nil]
  | cons y ys ih =>
    match post, h with
    | z :: z2 :: post, h =>
      simp only [List.length_cons] at h
      rw [run_cons, feed_reading_mid]
      have hs : (reading hdr (pre ++ [y]) (z2 :: post)).state ≠ PacketState.ps_complete := by
        simp [reading]
      rw [if_neg hs, ih (pre ++ [y]) (z2 :: post) (by simp only [List.length_cons]; omega)]
      simp

theorem dropped_idle (n : Nat) : Idle (dropped n) := by
  simp [Idle, dropped]

theorem new_idle : Idle new := by
  simp [Idle, new, clear, clearData]

theorem run_append_of_not_complete (p : Esp3Packet) (xs ys : List Nat) (q : Esp3Packet)
    (hx : run p xs = (xs.length, q)) (hq : q.state ≠ PacketState.ps_complete) :
    run p (xs ++ ys) = (xs.length + (run q ys).1, (run q ys).2) := by
  rw [run_append, hx]
  simp [hq]

theorem run_payload (hdr body : List Nat) (x : Nat) (R : List Nat) :
    run (reading hdr [] (List.replicate (body.length + 1) 0)) (body ++ x :: R) =
      if x ≠ crc8 body 0 then
        (body.length + 1 + (run (dropped (body.length + 1)) R).1,
          (run (dropped (body.length + 1)) R).2)
      else (body.length + 1, completed hdr (body ++ [x])) := by
  have h1 := run_reading hdr body [] (List.replicate (body.length + 1) 0) (by simp)
  have hdrop : (List.replicate (body.length + 1) 0).drop body.length = [0] := by
    simp
  rw [hdrop, List.nil_append] at h1
  rw [run_append_of_not_complete _ _ _ _ h1 (by simp [reading]), run_cons, feed_reading_last]
  by_cases hx : x = crc8 body 0
  · simp [hx, completed]
  · simp [hx, dropped, Nat.add_assoc, Nat.add_comm]

/-- Parsing, from an idle packet, noise without sync byte followed by a header
with correct CRC and a payload of the declared size. -/
theorem run_frame (p : Esp3Packet) (hp : Idle p) (G : List Nat) (hG : ∀ g ∈ G, g ≠ 0x55)
    (a b c d : Nat) (body : List Nat) (x : Nat) (R : List Nat)
    (hlen : (a <<< 8) + b + c = body.length) :
    run p (G ++ ([0x55, a, b, c, d, crc8 [a, b, c, d] 0] ++ (body ++ x :: R))) =
      if x ≠ crc8 body 0 then
        (G.length + (6 + (body.length + 1 + (run (dropped (body.length + 1)) R).1)),
          (run (dropped (body.length + 1)) R).2)
      else (G.length + (6 + (body.length + 1)),
          completed [0x55, a, b, c, d, crc8 [a, b, c, d] 0] (body ++ [x])) := by
  rw [run_append_of_not_complete p G _ p (run_skip p G hp.1 hG) (by simp [hp.1])]
  have hh := run_header p hp a b c d
  rw [hlen] at hh
  rw [run_append_of_not_complete p _ _ _ hh (by simp [reading]), run_payload]
  split_ifs <;> rfl

theorem dataLength_roundtrip (n : Nat) : ((n >>> 8) <<< 8) + (n &&& 0xFF) = n := by
  rw [Nat.shiftLeft_eq, Nat.shiftRight_eq_div_pow, show (0xFF : Nat) = 2 ^ 8 - 1 from rfl,
    Nat.and_pow_two_sub_one_eq_mod]
  omega

theorem esp3Frame_length (t : Nat) (D O : List Nat) :
    (esp3Frame t D O).length = 6 + D.length + O.length + 1 := by
  simp [esp3Frame, esp3Header]
  omega

/-- A valid packet after sync-free noise completes from any idle packet. -/
theorem run_esp3Frame (p : Esp3Packet) (hp : Idle p) (G : List Nat) (hG : ∀ g ∈ G, g ≠ 0x55)
    (t : Nat) (D O R : List Nat) :
    run p (G ++ (esp3Frame t D O ++ R)) =
      (G.length + (esp3Frame t D O).length,
        completed (esp3Header t D.length O.length) (D ++ O ++ [crc8 (D ++ O) 0])) := by
  have h := run_frame p hp G hG (D.length >>> 8) (D.length &&& 0xFF) O.length t (D ++ O)
    (crc8 (D ++ O) 0) R (by rw [dataLength_roundtrip]; simp)
  rw [if_neg (by simp)] at h
  rw [esp3Frame_length]
  simp only [esp3Frame, esp3Header, List.append_assoc, List.singleton_append] at h ⊢
  rw [h]
  simp only [List.length_append]
  congr 1
  omega

theorem acceptBytes_new_esp3Frame (G : List Nat) (hG : ∀ g ∈ G, g ≠ 0x55) (t : Nat)
    (D O R : List Nat) :
    acceptBytes new (G ++ (esp3Frame t D O ++ R)) =
      some (G.length + (esp3Frame t D O).length,
        completed (esp3Header t D.length O.length) (D ++ O ++ [crc8 (D ++ O) 0])) := by
  rw [acceptBytes_eq_run, if_neg (by simp [new, clear, clearData]),
    run_esp3Frame new new_idle G hG]

theorem data_eq_self (p : Esp3Packet) (hp : p.payloadP ≠ none)
    (hs : p.payloadSize = dataLength p + optDataLength p + 1) : data p = p := by
  unfold data
  simp only
  rw [if_neg]
  rintro (h | h)
  · exact h hs.symm
  · exact hp h

theorem completed_fields (t : Nat) (D O : List Nat) :
    let q := completed (esp3Header t D.length O.length) (D ++ O ++ [crc8 (D ++ O) 0])
    isComplete q = true ∧ dataLength q = D.length ∧ optDataLength q = O.length ∧
      packetType q = t ∧ data q = q := by
  have h : (D.length >>> 8) <<< 8 + (D.length &&& 255) = D.length :=
    dataLength_roundtrip D.length
  refine ⟨by simp [completed, isComplete], ?_, by simp [completed, esp3Header, optDataLength],
    by simp [completed, esp3Header, packetType], ?_⟩
  · simpa [completed, esp3Header, dataLength] using h
  · apply data_eq_self
    · simp [completed]
    · simp [completed, esp3Header, dataLength, optDataLength, h]
      omega

theorem run_bad_header (p : Esp3Packet) (hp : Idle p) (a b c d e : Nat)
    (he : e ≠ crc8 [a, b, c, d] 0)
    (ha : a ≠ 0x55) (hb : b ≠ 0x55) (hc : c ≠ 0x55) (hd : d ≠ 0x55) (he2 : e ≠ 0x55) :
    run p [0x55, a, b, c, d, e] = (6, rejected [0x55, a, b, c, d, e]) := by
  obtain ⟨state, header, dataIndex, payloadP, payloadSize⟩ := p
  obtain ⟨hs, hl, hpp, hps⟩ := hp
  simp only at hs hl hpp hps
  subst hs hpp hps
  match header, hl with
  | [h0, h1, h2, h3, h4, h5], _ =>
    simp [run_cons, run_nil, feed, processByte, ESP3_HEADERBYTES, headerCRC, replayRun, rejected,
      he, ha, hb, hc, hd, he2]

theorem rejected_idle (a b c d e f : Nat) : Idle (rejected [a, b, c, d, e, f]) := by
  simp [Idle, rejected]

theorem esp3Frame_set_crc (t : Nat) (D O : List Nat) (e : Nat) :
    (esp3Frame t D O).set 5 e =
      [0x55, D.length >>> 8, D.length &&& 0xFF, O.length, t, e] ++
        (D ++ O ++ [crc8 (D ++ O) 0]) := by
  simp [esp3Frame, esp3Header]

theorem esp3Frame_set_payload (t : Nat) (D O : List Nat) (i v : Nat)
    (hi : i < D.length + O.length) :
    (esp3Frame t D O).set (6 + i) v =
      esp3Header t D.length O.length ++
        (((D ++ O).take i ++ v :: (D ++ O).drop (i + 1)) ++ [crc8 (D ++ O) 0]) := by
  have hi2 : i < (D ++ O).length := by simpa using hi
  have h6 : 6 + i = i + 1 + 1 + 1 + 1 + 1 + 1 := by omega
  simp only [esp3Frame, esp3Header, h6, List.cons_append, List.nil_append, List.set_cons_succ]
  rw [List.set_append, if_pos hi2, List.set_eq_take_append_cons_drop, if_pos hi2]

theorem esp3Frame_getD_payload (t : Nat) (D O : List Nat) (i : Nat)
    (hi : i < D.length + O.length) :
    (esp3Frame t D O).getD (6 + i) 0 = (D ++ O).getD i 0 := by
  have hi2 : i < (D ++ O).length := by simpa using hi
  have h6 : 6 + i = i + 1 + 1 + 1 + 1 + 1 + 1 := by omega
  simp only [esp3Frame, esp3Header, h6, List.cons_append, List.nil_append, List.getD_cons_succ]
  rw [List.getD_append _ _ _ _ hi2]

theorem body_split (body : List Nat) (i : Nat) (hi : i < body.length) :
    body = body.take i ++ body.getD i 0 :: body.drop (i + 1) := by
  rw [List.getD_eq_getElem _ _ hi, List.getElem_cons_drop, List.take_append_drop]

end Esp3Packet

namespace EnoceanComm

theorem afterPacket_completed (c : EnoceanComm) (hdr payload : List Nat) :
    (afterPacket c (Esp3Packet.completed hdr payload)).currentIncomingPacket = none ∧
    (afterPacket c (Esp3Packet.completed hdr payload)).dispatched =
      c.dispatched ++ [Esp3Packet.completed hdr payload] := by
  unfold afterPacket dispatchPacket
  simp only [Esp3Packet.isComplete, Esp3Packet.completed, decide_True, if_true]
  split_ifs <;> simp

/-- A valid packet after sync-free noise, arriving while the packet in progress
is idle, is dispatched and leaves no packet in progress. -/
theorem foldl_feed_esp3Frame (c : EnoceanComm) (hc : Esp3Packet.Idle (currentOrNew c))
    (G : List Nat) (hG : ∀ g ∈ G, g ≠ 0x55) (t : Nat) (D O : List Nat) :
    (G ++ esp3Frame t D O).foldl feed c =
      afterPacket c (Esp3Packet.completed (esp3Header t D.length O.length)
        (D ++ O ++ [crc8 (D ++ O) 0])) := by
  have hne : G ++ esp3Frame t D O ≠ [] := by simp [esp3Frame, esp3Header]
  have h := afterPacket_run (G ++ esp3Frame t D O) c hne
  have hr := Esp3Packet.run_esp3Frame (currentOrNew c) hc G hG t D O []
  rw [List.append_nil] at hr
  rw [hr] at h
  simp only at h
  rw [h, ← List.length_append, List.take_length]

theorem currentOrNew_idle_of_none (c : EnoceanComm) (h : c.currentIncomingPacket = none) :
    Esp3Packet.Idle (currentOrNew c) := by
  unfold currentOrNew
  rw [h]
  exact Esp3Packet.new_idle

end EnoceanComm

/-! ## Sequences of packets -/

section Sequences

open Esp3Packet

namespace EnoceanComm

theorem foldl_feed_of_not_complete (c : EnoceanComm) (bytes : List Nat) (hne : bytes ≠ [])
    (q : Esp3Packet) (n : Nat) (hrun : Esp3Packet.run (currentOrNew c) bytes = (n, q))
    (hq : q.state ≠ PacketState.ps_complete) :
    bytes.foldl feed c = { c with currentIncomingPacket := some q } := by
  have h := afterPacket_run bytes c hne
  have hn := Esp3Packet.run_fst_of_not_complete (currentOrNew c) bytes (by rw [hrun]; exact hq)
  rw [hn, List.take_length, hrun] at h
  rw [← h]
  unfold afterPacket
  rw [if_neg (by simp [Esp3Packet.isComplete, hq])]

/-- Two valid packets in a row, from a handler with no packet in progress. -/
theorem acceptBytes_new_two_frames (t1 : Nat) (D1 O1 : List Nat) (t2 : Nat) (D2 O2 : List Nat) :
    acceptBytes new (esp3Frame t1 D1 O1 ++ esp3Frame t2 D2 O2) =
      some ((esp3Frame t1 D1 O1 ++ esp3Frame t2 D2 O2).length,
        { new with dispatched :=
            [completed (esp3Header t1 D1.length O1.length) (D1 ++ O1 ++ [crc8 (D1 ++ O1) 0]),
             completed (esp3Header t2 D2.length O2.length) (D2 ++ O2 ++ [crc8 (D2 ++ O2) 0])] }) := by
  rw [acceptBytes_eq_foldl new new_ready, List.foldl_append]
  have h1 := foldl_feed_esp3Frame new (currentOrNew_idle_of_none new rfl) [] (by simp) t1 D1 O1
  rw [List.nil_append] at h1
  rw [h1]
  obtain ⟨hcur, _⟩ := afterPacket_completed new (esp3Header t1 D1.length O1.length)
    (D1 ++ O1 ++ [crc8 (D1 ++ O1) 0])
  have h2 := foldl_feed_esp3Frame _ (currentOrNew_idle_of_none _ hcur) [] (by simp) t2 D2 O2
  rw [List.nil_append] at h2
  rw [h2]
  simp [afterPacket, dispatchPacket, Esp3Packet.isComplete, completed, new, esp3Header,
    Esp3Packet.packetType]

/-- A packet whose bytes leave the framer idle, followed by a valid packet. -/
theorem acceptBytes_new_junk_frame (J : List Nat) (hJ : J ≠ []) (q : Esp3Packet) (n : Nat)
    (hrun : Esp3Packet.run Esp3Packet.new J = (n, q)) (hq : Idle q)
    (t2 : Nat) (D2 O2 : List Nat) :
    acceptBytes new (J ++ esp3Frame t2 D2 O2) =
      some ((J ++ esp3Frame t2 D2 O2).length,
        { new with dispatched :=
            [completed (esp3Header t2 D2.length O2.length) (D2 ++ O2 ++ [crc8 (D2 ++ O2) 0])] }) := by
  rw [acceptBytes_eq_foldl new new_ready, List.foldl_append]
  have hqs : q.state ≠ PacketState.ps_complete := by simp [hq.1]
  rw [foldl_feed_of_not_complete new J hJ q n hrun hqs]
  have h2 := foldl_feed_esp3Frame { new with currentIncomingPacket := some q } hq [] (by simp)
    t2 D2 O2
  rw [List.nil_append] at h2
  rw [h2]
  simp [afterPacket, dispatchPacket, Esp3Packet.isComplete, completed, new, esp3Header,
    Esp3Packet.packetType]

end EnoceanComm

namespace Esp3Packet

/-- A packet with a wrong header CRC and no further `0x55` leaves the framer
waiting for sync, holding the rejected header. -/
theorem run_new_bad_crc (a b c d e : Nat) (body : List Nat)
    (he : e ≠ crc8 [a, b, c, d] 0)
    (hns : ∀ x ∈ a :: b :: c :: d :: e :: body, x ≠ 0x55) :
    run new ([0x55, a, b, c, d, e] ++ body) =
      (6 + body.length, rejected [0x55, a, b, c, d, e]) := by
  have h1 := run_bad_header new new_idle a b c d e he (hns a (by simp)) (hns b (by simp))
    (hns c (by simp)) (hns d (by simp)) (hns e (by simp))
  rw [run_append_of_not_complete _ _ _ _ h1 (by simp [rejected]),
    run_skip _ body (by simp [rejected]) (fun x hx => hns x (by simp [hx]))]
  rfl

/-- A valid header followed by a payload in which one byte was changed: the
payload CRC fails and the packet is dropped. -/
theorem run_new_corrupted (t : Nat) (D O : List Nat) (i v : Nat)
    (hi : i < D.length + O.length) (hbytes : ∀ x ∈ D ++ O, x < 256) (hv : v < 256)
    (hne : v ≠ (D ++ O).getD i 0) :
    run new ((esp3Frame t D O).set (6 + i) v) =
      ((esp3Frame t D O).length, dropped (D.length + O.length + 1)) := by
  have hi2 : i < (D ++ O).length := by simpa using hi
  rw [esp3Frame_set_payload t D O i v hi]
  have hcrc : crc8 (D ++ O) 0 ≠ crc8 ((D ++ O).take i ++ v :: (D ++ O).drop (i + 1)) 0 := by
    conv_lhs => rw [body_split (D ++ O) i hi2]
    apply crc8_single_byte_change _ _ _ _ 0 (by decide) _ hv _ (Ne.symm hne)
    · rw [List.getD_eq_getElem _ _ hi2]
      exact hbytes _ (List.getElem_mem hi2)
    · intro y hy
      exact hbytes y (List.mem_of_mem_drop hy)
  have hlen : ((D ++ O).take i ++ v :: (D ++ O).drop (i + 1)).length = D.length + O.length := by
    simp only [List.length_append, List.length_cons, List.length_take, List.length_drop] at hi2 ⊢
    omega
  have h := run_frame new new_idle [] (by simp) (D.length >>> 8) (D.length &&& 0xFF) O.length t
    ((D ++ O).take i ++ v :: (D ++ O).drop (i + 1)) (crc8 (D ++ O) 0) []
    (by rw [dataLength_roundtrip, hlen])
  rw [if_pos hcrc, hlen] at h
  simp only [List.nil_append, run_nil, List.length_nil, Nat.zero_add, Nat.add_zero] at h
  simp only [esp3Header, List.append_assoc, List.cons_append, List.nil_append,
    List.singleton_append] at h ⊢
  rw [h, esp3Frame_length]
  congr 1
  omega

end Esp3Packet

end Sequences

/-! ## The framer invariant -/

namespace Esp3Packet

theorem new_wellFormed : WellFormed new := by
  simp [WellFormed, new, clear, clearData]

theorem clear_wellFormed (p : Esp3Packet) : WellFormed (clear p) := by
  simp [WellFormed, clear, clearData]

theorem getD_set_ne (l : List Nat) (i j v : Nat) (h : i ≠ j) :
    (l.set i v).getD j 0 = l.getD j 0 := by
  simp [List.getD_eq_getElem?_getD, List.getElem?_set_ne h]

theorem getD_set_self (l : List Nat) (i v : Nat) (h : i < l.length) :
    (l.set i v).getD i 0 = v := by
  simp [List.getD_eq_getElem?_getD, List.getElem?_set_self, h]

theorem processByte_wellFormed (p : Esp3Packet) (b : Nat) (hp : WellFormed p) :
    WellFormed (processByte p b).1 := by
  obtain ⟨state, header, dataIndex, payloadP, payloadSize⟩ := p
  obtain ⟨hl, hst⟩ := hp
  simp only at hl
  cases state
  · -- ps_syncwait
    simp only at hst
    obtain ⟨hpp, hps⟩ := hst
    subst hpp hps
    unfold processByte
    simp only
    split_ifs with hb
    · refine ⟨by simpa using hl, ?_⟩
      refine ⟨rfl, rfl, ?_, le_refl _, (by show 1 ≤ 5; decide)⟩
      show (header.set 0 b).getD 0 0 = 0x55
      rw [getD_set_self _ _ _ (by omega), hb]
    · exact ⟨hl, rfl, rfl⟩
  · -- ps_headerread
    simp only at hst
    obtain ⟨hpp, hps, h0, hd1, hd5⟩ := hst
    subst hpp hps
    unfold processByte
    simp only
    split_ifs with hfull hcrc
    · -- CRC mismatch
      exact ⟨by simpa using hl, rfl, rfl⟩
    · -- CRC match
      refine ⟨by simpa [data] using hl, ?_⟩
      have hh0 : (header.set dataIndex b).getD 0 0 = 0x55 := by
        rw [getD_set_ne _ _ _ _ (by omega)]; exact h0
      simp only [ESP3_HEADERBYTES] at hcrc
      simp only [not_not] at hcrc
      simp only [data, dataLength, optDataLength, headerCRC, ne_eq, or_true, if_true,
        gt_iff_lt, Nat.not_lt_zero, if_false]
      exact ⟨hh0, hcrc, _, rfl, by simp, trivial, by omega⟩
    · refine ⟨by simpa using hl, ?_⟩
      simp only [ESP3_HEADERBYTES] at hfull
      refine ⟨rfl, rfl, ?_, Nat.le_succ_of_le hd1, (by show dataIndex + 1 ≤ 5; omega)⟩
      show (header.set dataIndex b).getD 0 0 = 0x55
      rw [getD_set_ne _ _ _ _ (by omega)]; exact h0
  · -- ps_dataread
    simp only at hst
    obtain ⟨h0, h5, buf, hpp, hbl, hps, hdi⟩ := hst
    subst hpp
    unfold processByte
    simp only [Option.map_some']
    split_ifs with hfull hcrc
    · exact clear_wellFormed _
    · refine ⟨hl, ?_⟩
      simp only [not_not, payloadCRC, Option.getD_some] at hcrc
      simp only
      exact ⟨h0, h5, _, rfl, by simpa using hbl, hps, hcrc⟩
    · refine ⟨hl, ?_⟩
      simp only
      exact ⟨h0, h5, _, rfl, by simpa using hbl, hps, by omega⟩
  · -- ps_complete
    exact clear_wellFormed _

theorem replayRun_wellFormed (rb rp : Nat) (p : Esp3Packet) (hp : WellFormed p) :
    WellFormed (replayRun rb rp p) := by
  induction rb generalizing rp p with
  | zero => exact hp
  | succ rb ih => exact ih _ _ (processByte_wellFormed p _ hp)

theorem feed_wellFormed (p : Esp3Packet) (b : Nat) (hp : WellFormed p) :
    WellFormed (feed p b) := by
  unfold feed
  have h := processByte_wellFormed p b hp
  generalize processByte p b = r at h
  obtain ⟨p1, f⟩ := r
  cases f
  · exact h
  · exact replayRun_wellFormed _ _ _ h
  · exact h

theorem run_wellFormed (bytes : List Nat) (p : Esp3Packet) (hp : WellFormed p) :
    WellFormed (run p bytes).2 := by
  induction bytes generalizing p with
  | nil => exact hp
  | cons b rest ih =>
    rw [run_cons]
    split_ifs
    · exact feed_wellFormed p b hp
    · exact ih _ (feed_wellFormed p b hp)

theorem acceptChunks_wellFormed (chunks : List (List Nat)) (p q : Esp3Packet)
    (hp : WellFormed p) (h : acceptChunks p chunks = some q) : WellFormed q := by
  induction chunks generalizing p with
  | nil =>
    simp only [acceptChunks, Option.some.injEq] at h
    exact h ▸ hp
  | cons chunk chunks ih =>
    rw [acceptChunks, acceptBytes_eq_run] at h
    split_ifs at h with hc
    · exact ih p hp h
    · exact ih _ (run_wellFormed chunk p hp) h

end Esp3Packet

/-! ## Completed packets -/

namespace Esp3Packet

theorem mem_set_lt (l : List Nat) (i v : Nat) (hl : ∀ x ∈ l, x < 256) (hv : v < 256) :
    ∀ x ∈ l.set i v, x < 256 := by
  intro x hx
  rcases List.mem_or_eq_of_mem_set hx with h | h
  · exact hl x h
  · rw [h]; exact hv

theorem getD_lt (l : List Nat) (i : Nat) (hl : ∀ x ∈ l, x < 256) : l.getD i 0 < 256 := by
  by_cases hi : i < l.length
  · rw [List.getD_eq_getElem _ _ hi]
    exact hl _ (List.getElem_mem hi)
  · rw [List.getD_eq_default _ _ (Nat.le_of_not_lt hi)]
    decide

theorem new_bytesOK : BytesOK new := by
  constructor
  · intro x hx
    simp [new, clear, clearData] at hx
    omega
  · intro buf h
    simp [new, clear, clearData] at h

theorem clear_bytesOK (p : Esp3Packet) : BytesOK (clear p) := by
  constructor
  · intro x hx
    simp [clear, clearData] at hx
    omega
  · intro buf h
    simp [clear, clearData] at h

theorem processByte_bytesOK (p : Esp3Packet) (b : Nat) (hb : b < 256) (hp : BytesOK p) :
    BytesOK (processByte p b).1 := by
  obtain ⟨hh, hpl⟩ := hp
  unfold processByte
  cases hs : p.state <;> simp only
  · split_ifs
    · exact ⟨mem_set_lt _ _ _ hh hb, hpl⟩
    · exact ⟨hh, hpl⟩
  · split_ifs
    · exact ⟨mem_set_lt _ _ _ hh hb, hpl⟩
    · refine ⟨?_, ?_⟩
      · simp only [data]
        split_ifs <;> exact mem_set_lt _ _ _ hh hb
      · intro buf hbuf
        simp only [data] at hbuf
        split_ifs at hbuf
        · simp [clearData] at hbuf
        · simp only [Option.some.injEq] at hbuf
          subst hbuf
          intro x hx
          rw [List.mem_replicate] at hx
          omega
        · exact hpl buf hbuf
    · exact ⟨mem_set_lt _ _ _ hh hb, hpl⟩
  · have hpl2 : ∀ buf, Option.map (fun buf => buf.set p.dataIndex b) p.payloadP = some buf →
        ∀ x ∈ buf, x < 256 := by
      intro buf hbuf
      cases hpp : p.payloadP with
      | none => simp [hpp] at hbuf
      | some buf0 =>
        simp only [hpp, Option.map_some', Option.some.injEq] at hbuf
        subst hbuf
        exact mem_set_lt _ _ _ (hpl buf0 hpp) hb
    split_ifs
    · exact clear_bytesOK _
    · exact ⟨hh, hpl2⟩
    · exact ⟨hh, hpl2⟩
  · exact clear_bytesOK _

theorem replayRun_bytesOK (rb rp : Nat) (p : Esp3Packet) (hp : BytesOK p) :
    BytesOK (replayRun rb rp p) := by
  induction rb generalizing rp p with
  | zero => exact hp
  | succ rb ih => exact ih _ _ (processByte_bytesOK p _ (getD_lt _ _ hp.1) hp)

theorem feed_bytesOK (p : Esp3Packet) (b : Nat) (hb : b < 256) (hp : BytesOK p) :
    BytesOK (feed p b) := by
  unfold feed
  have h := processByte_bytesOK p b hb hp
  generalize processByte p b = r at h
  obtain ⟨p1, f⟩ := r
  cases f
  · exact h
  · exact replayRun_bytesOK _ _ _ h
  · exact h

theorem run_bytesOK (bytes : List Nat) (hb : ∀ x ∈ bytes, x < 256) (p : Esp3Packet)
    (hp : BytesOK p) : BytesOK (run p bytes).2 := by
  induction bytes generalizing p with
  | nil => exact hp
  | cons b rest ih =>
    have hb0 : b < 256 := hb b (List.mem_cons_self _ _)
    have hrest : ∀ x ∈ rest, x < 256 := fun x hx => hb x (List.mem_cons_of_mem _ hx)
    rw [run_cons]
    split_ifs
    · exact feed_bytesOK p b hb0 hp
    · exact ih hrest _ (feed_bytesOK p b hb0 hp)

theorem acceptChunks_bytesOK (chunks : List (List Nat))
    (hb : ∀ chunk ∈ chunks, ∀ x ∈ chunk, x < 256) (p q : Esp3Packet)
    (hp : BytesOK p) (h : acceptChunks p chunks = some q) : BytesOK q := by
  induction chunks generalizing p with
  | nil =>
    simp only [acceptChunks, Option.some.injEq] at h
    exact h ▸ hp
  | cons chunk chunks ih =>
    have hrest : ∀ c ∈ chunks, ∀ x ∈ c, x < 256 := fun c hc => hb c (List.mem_cons_of_mem _ hc)
    rw [acceptChunks, acceptBytes_eq_run] at h
    split_ifs at h with hc
    · exact ih hrest p hp h
    · exact ih hrest _ (run_bytesOK chunk (hb chunk (List.mem_cons_self _ _)) p hp) h

/-- What the accessors rely on in a completed packet: the payload buffer is
allocated with the declared size, `data()` leaves the packet as it is, and all
stored bytes are bytes. -/
theorem Completed.facts {q : Esp3Packet} (hq : Completed q) :
    ∃ buf, q.payloadP = some buf ∧ buf.length = dataLength q + optDataLength q + 1 ∧
      data q = q ∧ (∀ x ∈ buf, x < 256) ∧ (∀ x ∈ q.header, x < 256) ∧ q.header.length = 6 := by
  obtain ⟨chunks, hb, hacc, hs⟩ := hq
  have hw := acceptChunks_wellFormed chunks new q new_wellFormed hacc
  have hbo := acceptChunks_bytesOK chunks hb new q new_bytesOK hacc
  obtain ⟨hl, hst⟩ := hw
  rw [hs] at hst
  obtain ⟨_, _, buf, hpp, hbl, hps, _⟩ := hst
  refine ⟨buf, hpp, by rw [hbl, hps], ?_, hbo.2 buf hpp, hbo.1, hl⟩
  exact data_eq_self q (by simp [hpp]) hps

theorem be32_lt (a b c d : Nat) (ha : a < 256) (hb : b < 256) (hc : c < 256) (hd : d < 256) :
    ((a <<< 24) + (b <<< 16) + (c <<< 8) + d) % 2 ^ 32 =
      a * 2 ^ 24 + b * 2 ^ 16 + c * 2 ^ 8 + d ∧
    a * 2 ^ 24 + b * 2 ^ 16 + c * 2 ^ 8 + d < 2 ^ 32 := by
  simp only [Nat.shiftLeft_eq]
  constructor
  · apply Nat.mod_eq_of_lt
    omega
  · omega

theorem getD_drop (l : List Nat) (k i : Nat) : (l.drop k).getD i 0 = l.getD (k + i) 0 := by
  simp [List.getD_eq_getElem?_getD, List.getElem?_drop]

/-- The accessors on a completed packet, in terms of its payload buffer. -/
theorem Completed.accessors {q : Esp3Packet} (hq : Completed q) :
    ∃ buf, q.payloadP = some buf ∧ buf.length = dataLength q + optDataLength q + 1 ∧
      (∀ i, buf.getD i 0 < 256) ∧
      optData q = some (buf.drop (dataLength q)) ∧
      radio_rorg q = (if packetType q ≠ pt_radio then rorg_invalid
        else if dataLength q < 1 then rorg_invalid else buf.getD 0 0) ∧
      radio_userData q = (if radio_userDataLength q = 0 then none else some (buf.drop 1)) ∧
      radio_sender q = (if radio_userDataLength q > 0 then
          buf.getD (1 + radio_userDataLength q) 0 * 2 ^ 24 +
          buf.getD (2 + radio_userDataLength q) 0 * 2 ^ 16 +
          buf.getD (3 + radio_userDataLength q) 0 * 2 ^ 8 +
          buf.getD (4 + radio_userDataLength q) 0 else 0) := by
  obtain ⟨buf, hpp, hbl, hdata, hbytes, _, _⟩ := hq.facts
  have hget : ∀ i, buf.getD i 0 < 256 := fun i => getD_lt buf i hbytes
  refine ⟨buf, hpp, hbl, hget, ?_, ?_, ?_, ?_⟩
  · simp [optData, hdata, hpp]
  · simp only [radio_rorg, hdata, hpp]
  · simp [radio_userData, hdata, hpp]
  · simp only [radio_sender, hdata, hpp, Option.getD_some, getD_drop]
    split_ifs
    · have h := (be32_lt _ _ _ _ (hget (1 + radio_userDataLength q + 0))
        (hget (1 + radio_userDataLength q + 1)) (hget (1 + radio_userDataLength q + 2))
        (hget (1 + radio_userDataLength q + 3))).1
      rw [h]
      have e1 : 1 + radio_userDataLength q + 0 = 1 + radio_userDataLength q := by omega
      have e2 : 1 + radio_userDataLength q + 1 = 2 + radio_userDataLength q := by omega
      have e3 : 1 + radio_userDataLength q + 2 = 3 + radio_userDataLength q := by omega
      have e4 : 1 + radio_userDataLength q + 3 = 4 + radio_userDataLength q := by omega
      rw [e1, e2, e3, e4]
    · rfl

end Esp3Packet

section CompletedExamples

open Esp3Packet

theorem refPacket_completed : Completed refPacket :=
  ⟨refChunks, by decide, by decide, rfl⟩

theorem uMessagePacket_completed : Completed uMessagePacket :=
  ⟨[esp3Frame 1 [0xF6, 0x10, 0x00, 0x86, 0xB8, 0x1A, 0x20] []], by decide, by decide, rfl⟩

theorem radio_userDataLength_eq (q : Esp3Packet) :
    radio_userDataLength q =
      if packetType q ≠ pt_radio then 0
      else dataLength q - 6 - (if radio_rorg q = rorg_VLD then 1 else 0) := by
  unfold radio_userDataLength
  by_cases ht : packetType q ≠ pt_radio
  · simp [ht]
  · by_cases hv : radio_rorg q = rorg_VLD
    · simp only [ht, hv, if_true, if_false]
      split_ifs <;> omega
    · simp only [ht, hv, if_false]
      split_ifs <;> omega

end CompletedExamples

/-! ## The rocker decoding rules -/

namespace EnoceanRpsButtonHandler

theorem setButtonState_eq (h : EnoceanRpsButtonHandler) (hb : h.behaviour = true) (v : Bool) :
    setButtonState h v = withState h v := by
  obtain ⟨si, up, pr, bh, log⟩ := h
  simp only at hb
  subst hb
  unfold setButtonState withState
  by_cases hv : v = pr
  · subst hv; simp
  · simp [hv]

theorem withState_withState (h : EnoceanRpsButtonHandler) (v : Bool) :
    withState (withState h v) v = withState h v := by
  simp [withState]

theorem collectAction_eq (h : EnoceanRpsButtonHandler) (hb : h.behaviour = true) (data ai : Nat) :
    collectAction h data ai =
      if Addresses h ((data >>> (4 * ai + 1)) &&& 0x07) then
        withState h (decide (data &&& 0x10 ≠ 0))
      else h := by
  unfold collectAction Addresses
  simp only [← setButtonState_eq h hb]
  split_ifs <;> simp_all

theorem withState_addresses (h : EnoceanRpsButtonHandler) (v : Bool) (a : Nat) :
    Addresses (withState h v) a ↔ Addresses h a := Iff.rfl

theorem withState_behaviour (h : EnoceanRpsButtonHandler) (v : Bool) :
    (withState h v).behaviour = h.behaviour := rfl

theorem handleNMessage_eq (h : EnoceanRpsButtonHandler) (hb : h.behaviour = true) (d : Nat) :
    handleNMessage h d =
      if Addresses h ((d >>> 5) &&& 0x07) ∨ (d &&& 0x01 = 1 ∧ Addresses h ((d >>> 1) &&& 0x07))
      then withState h (decide (d &&& 0x10 ≠ 0)) else h := by
  have hbit : d &&& 1 = 0 ∨ d &&& 1 = 1 := by
    rw [Nat.and_one_is_mod]; omega
  unfold handleNMessage
  simp only
  rw [collectAction_eq h hb d 1]
  by_cases h1 : Addresses h ((d >>> 5) &&& 0x07)
  · simp only [Nat.mul_one, Nat.reduceAdd, h1, if_true, true_or]
    rw [collectAction_eq _ (by rw [withState_behaviour]; exact hb), withState_withState]
    split_ifs <;> rfl
  · simp only [Nat.mul_one, Nat.reduceAdd, h1, if_false, false_or]
    rw [collectAction_eq h hb d 0]
    simp only [Nat.mul_zero, Nat.zero_add]
    rcases hbit with h0 | h0
    · simp [h0]
    · simp [h0]

theorem handleUMessage_eq (h : EnoceanRpsButtonHandler) (hb : h.behaviour = true) (d : Nat) :
    handleUMessage h d =
      if (d >>> 5) &&& 0x07 = 0 ∧ d &&& 0x10 = 0 then withState h false else h := by
  unfold handleUMessage
  simp only [← setButtonState_eq h hb]
  by_cases h1 : d &&& 0x10 = 0 <;> by_cases h2 : (d >>> 5) &&& 0x07 = 0 <;> simp [h1, h2]

end EnoceanRpsButtonHandler

section RpsAction

open Esp3Packet

theorem rps_numRockers_of_RPS (q : Esp3Packet) (hrorg : radio_rorg q = rorg_RPS) :
    rps_numRockers q = if radio_status q &&& STATUS_T21 ≠ 0 then 2 else 4 := by
  unfold rps_numRockers
  rw [if_neg (by simp [hrorg])]

theorem rps_finish_multiple (c : Prop) [Decidable c] (e : Nat) :
    (if (if c then rpsa_none ||| rpsa_multiple else rpsa_none) ≠ rpsa_none then
        (if e ≠ 0 then (if c then rpsa_none ||| rpsa_multiple else rpsa_none) ||| rpsa_pressed
         else (if c then rpsa_none ||| rpsa_multiple else rpsa_none) ||| rpsa_released)
      else (if c then rpsa_none ||| rpsa_multiple else rpsa_none)) =
      if c then rpsa_multiple ||| (if e ≠ 0 then rpsa_pressed else rpsa_released)
      else rpsa_none := by
  by_cases hc : c
  · simp only [hc, if_true]
    rw [if_pos (by decide)]
    split_ifs <;> rfl
  · simp only [hc, if_false]
    rw [if_neg (by decide)]

theorem rps_affected_table (t21 : Prop) [Decidable t21] (b : Nat) :
    (if t21 then (if b = 0 then 2 else if b = 3 then 2 else 0)
      else (if b = 0 then 4 else (b + 1) >>> 1)) =
    (if t21 then (if b = 0 ∨ b = 3 then 2 else 0)
      else (if b = 0 then 4 else (b + 1) >>> 1)) := by
  by_cases ht : t21 <;> by_cases h0 : b = 0 <;> by_cases h3 : b = 3 <;> simp [ht, h0, h3]

/-- The value of `rps_action` on the U-message branch. -/
theorem rps_action_U_value (q : Esp3Packet) (hq : Completed q) (i : Nat)
    (hrorg : radio_rorg q = rorg_RPS) (hNU : radio_status q &&& STATUS_NU = 0)
    (hi : i < rps_numRockers q) (hud : 1 ≤ radio_userDataLength q) :
    ∃ buf, q.payloadP = some buf ∧
      rps_action q i =
        if i < (if radio_status q &&& STATUS_T21 ≠ 0 then
                  (if (buf.getD 1 0 >>> 5) &&& 7 = 0 ∨ (buf.getD 1 0 >>> 5) &&& 7 = 3 then 2 else 0)
                else (if (buf.getD 1 0 >>> 5) &&& 7 = 0 then 4
                      else (((buf.getD 1 0 >>> 5) &&& 7) + 1) >>> 1))
        then rpsa_multiple ||| (if buf.getD 1 0 &&& 0x10 ≠ 0 then rpsa_pressed else rpsa_released)
        else rpsa_none := by
  obtain ⟨buf, hpp, _, _, _, _, hud2, _⟩ := hq.accessors
  refine ⟨buf, hpp, ?_⟩
  have hd : ((radio_userData q).getD []).getD 0 0 = buf.getD 1 0 := by
    rw [hud2, if_neg (by omega), Option.getD_some, getD_drop]
  have hnr := rps_numRockers_of_RPS q hrorg
  have hnu : ¬ (radio_status q &&& STATUS_NU ≠ 0) := by simp [hNU]
  unfold rps_action
  rw [if_pos ⟨hrorg, hi⟩]
  simp only [hd, hnu, if_false, rpsUMessageAction]
  rw [rps_finish_multiple, ← rps_affected_table, hnr]
  by_cases hT : radio_status q &&& STATUS_T21 = 0
  · have hT2 : ¬ (radio_status q &&& STATUS_T21 ≠ 0) := by simp [hT]
    simp only [if_neg hT2]
  · have hT2 : radio_status q &&& STATUS_T21 ≠ 0 := hT
    simp only [if_pos hT2]

end RpsAction

/-! ## Handling a packet twice -/

theorem forwardedEvents_append (l e : List Bool) : forwardedEvents l (l ++ e) = e := by
  simp [forwardedEvents]

theorem forwardedEvents_self (l : List Bool) : forwardedEvents l l = [] := by
  simp [forwardedEvents]

namespace EnoceanRpsButtonHandler

theorem setButtonState_idem (h : EnoceanRpsButtonHandler) (v : Bool) :
    setButtonState (setButtonState h v) v = setButtonState h v := by
  obtain ⟨si, up, pr, bh, log⟩ := h
  unfold setButtonState
  by_cases hv : v = pr
  · subst hv; simp
  · cases bh <;> simp [hv]

theorem setButtonState_switchIndex (h : EnoceanRpsButtonHandler) (v : Bool) :
    (setButtonState h v).switchIndex = h.switchIndex ∧
    (setButtonState h v).isRockerUp = h.isRockerUp := by
  unfold setButtonState
  split_ifs <;> simp

theorem collectAction_cases (h : EnoceanRpsButtonHandler) (data ai : Nat) :
    collectAction h data ai = h ∨
      collectAction h data ai = setButtonState h (decide (data &&& 0x10 ≠ 0)) := by
  unfold collectAction
  simp only
  split_ifs
  · right; rfl
  · left; rfl
  · left; rfl

theorem collectAction_setButtonState (h : EnoceanRpsButtonHandler) (data ai : Nat) :
    collectAction (setButtonState h (decide (data &&& 0x10 ≠ 0))) data ai =
      setButtonState h (decide (data &&& 0x10 ≠ 0)) := by
  have hs := setButtonState_switchIndex h (decide (data &&& 0x10 ≠ 0))
  unfold collectAction
  simp only [hs.1, hs.2]
  split_ifs
  · exact setButtonState_idem h _
  · rfl
  · rfl

/-- Handling an N-message again changes nothing. -/
theorem handleNMessage_idem (h : EnoceanRpsButtonHandler) (data : Nat) :
    handleNMessage (handleNMessage h data) data = handleNMessage h data := by
  unfold handleNMessage
  simp only
  by_cases hb : data &&& 0x01 = 0
  · simp only [if_pos hb]
    rcases collectAction_cases h data 1 with h1 | h1
    · rw [h1, h1]
    · rw [h1, collectAction_setButtonState]
  · simp only [if_neg hb]
    rcases collectAction_cases h data 1 with h1 | h1
    · rw [h1]
      rcases collectAction_cases h data 0 with h0 | h0
      · rw [h0, h1, h0]
      · rw [h0, collectAction_setButtonState, collectAction_setButtonState]
    · rw [h1, collectAction_setButtonState, collectAction_setButtonState,
        collectAction_setButtonState]

/-- Handling a U-message again changes nothing. -/
theorem handleUMessage_idem (h : EnoceanRpsButtonHandler) (data : Nat) :
    handleUMessage (handleUMessage h data) data = handleUMessage h data := by
  unfold handleUMessage
  simp only
  split_ifs
  · exact setButtonState_idem h _
  · rfl
  · rfl

theorem handleTelegram_idem (h : EnoceanRpsButtonHandler) (data status : Nat) :
    handleTelegram (handleTelegram h data status) data status = handleTelegram h data status := by
  unfold handleTelegram
  split_ifs
  · exact handleNMessage_idem h data
  · exact handleUMessage_idem h data

end EnoceanRpsButtonHandler

theorem windowHandle_cases (h : EnoceanRpsWindowHandleHandler) (d s : Nat) :
    ∃ e : List Bool, ∀ log : List Bool,
      EnoceanRpsWindowHandleHandler.handleTelegram { h with inputStates := log } d s =
        { h with inputStates := log ++ e } := by
  obtain ⟨t, b, l⟩ := h
  unfold EnoceanRpsWindowHandleHandler.handleTelegram
  by_cases hc : s &&& status_NU = 0 ∧ s &&& status_T21 ≠ 0
  · cases b
    · exact ⟨[], fun log => by simp [hc]⟩
    · cases t
      · exact ⟨[!decide (d &&& 0xF0 = 0xF0)], fun log => by simp [hc]⟩
      · exact ⟨[decide (d &&& 0xF0 = 0xD0)], fun log => by simp [hc]⟩
  · exact ⟨[], fun log => by simp [hc]⟩

theorem cardKey_cases (h : EnoceanRpsCardKeyHandler) (d s : Nat) :
    ∃ e : List Bool, ∀ log : List Bool,
      EnoceanRpsCardKeyHandler.handleTelegram { h with inputStates := log } d s =
        { h with inputStates := log ++ e } := by
  obtain ⟨p, b, l⟩ := h
  unfold EnoceanRpsCardKeyHandler.handleTelegram
  cases b
  · exact ⟨[], fun log => by simp⟩
  · exact ⟨[if p = 0xF60402 then decide (d &&& 0x04 ≠ 0)
        else decide (s &&& status_NU ≠ 0) && decide (d = 0x70)], fun log => by simp⟩

theorem smokeDetector_cases (h : EnoceanRpsSmokeDetectorHandler) (hb : h.behaviour = true)
    (d : Nat) :
    ∃ e : List Bool, ∀ log : List Bool,
      EnoceanRpsSmokeDetectorHandler.handleTelegram { h with inputStates := log } d =
        some { h with inputStates := log ++ e } := by
  obtain ⟨t, b, l⟩ := h
  simp only at hb
  subst hb
  unfold EnoceanRpsSmokeDetectorHandler.handleTelegram
    EnoceanRpsSmokeDetectorHandler.updateInputState
  cases t
  · exact ⟨[decide (d &&& 0x30 = 0x10)], fun log => by simp⟩
  · exact ⟨[decide (d &&& 0x30 = 0x30)], fun log => by simp⟩

theorem smokeDetector_none (h : EnoceanRpsSmokeDetectorHandler) (hb : h.behaviour = false)
    (d : Nat) : EnoceanRpsSmokeDetectorHandler.handleTelegram h d = none := by
  unfold EnoceanRpsSmokeDetectorHandler.handleTelegram
    EnoceanRpsSmokeDetectorHandler.updateInputState
  simp [hb]

/-! ## The device container -/

namespace EnoceanDeviceContainer

/-- The dispatch loop logs one call per device of the range, in order. -/
theorem dispatch_foldl (t : RadioTelegram) (l : List EnoceanDevice) (c : EnoceanDeviceContainer) :
    l.foldl (fun c1 dev => { c1 with handledPackets := c1.handledPackets ++ [(dev, t)] }) c =
      { c with handledPackets := c.handledPackets ++ l.map (fun dev => (dev, t)) } := by
  induction l generalizing c with
  | nil => simp
  | cons d ds ih => rw [List.foldl_cons, ih]; simp

theorem vanish_foldl (f : Bool) (del : List EnoceanDevice) (c : EnoceanDeviceContainer) :
    del.foldl (fun c1 dev => hasVanished c1 dev f) c =
      { c with
        vanishRequests := c.vanishRequests ++ del.map (fun dev => (dev, f)),
        removedDevices := c.removedDevices ++ del.map (fun dev => (dev, f)),
        enoceanDevices := eraseDevices c.enoceanDevices del } := by
  induction del generalizing c with
  | nil => simp [eraseDevices]
  | cons d ds ih =>
    rw [List.foldl_cons, ih]
    simp [hasVanished, disconnect, removeDevice, eraseDevices]

theorem filter_eq_self_of_filter_nil (A : Nat) (reg : List EnoceanDevice)
    (h : reg.filter (fun d => decide (d.address = A)) = []) :
    reg.filter (fun d => decide (d.address ≠ A)) = reg := by
  rw [List.filter_eq_self]
  intro a ha
  rw [List.filter_eq_nil_iff] at h
  simpa using h a ha

/-- Erasing, one by one, devices whose subdevice indices are those of the
entries under address `A` leaves exactly the entries of the other addresses. -/
theorem eraseDevices_eq_filter (A : Nat) (del reg : List EnoceanDevice)
    (hdel : ∀ d ∈ del, d.address = A)
    (hperm : ((reg.filter (fun d => decide (d.address = A))).map EnoceanDevice.subDevice).Perm
      (del.map EnoceanDevice.subDevice)) :
    eraseDevices reg del = reg.filter (fun d => decide (d.address ≠ A)) := by
  induction del generalizing reg with
  | nil =>
    have hnil : reg.filter (fun d => decide (d.address = A)) = [] := by
      have := hperm.eq_nil
      simpa using this
    rw [filter_eq_self_of_filter_nil A reg hnil]
    rfl
  | cons d ds ih =>
    have hdA : d.address = A := hdel d (List.mem_cons_self _ _)
    have hmem : d.subDevice ∈ (reg.filter (fun d => decide (d.address = A))).map
        EnoceanDevice.subDevice := by
      rw [hperm.mem_iff]; simp
    obtain ⟨e, he, hes⟩ := List.mem_map.1 hmem
    rw [List.mem_filter] at he
    have hpe : (fun x : EnoceanDevice =>
        decide (x.address = d.address) && decide (x.subDevice = d.subDevice)) e = true := by
      simpa [hdA, hes] using he.2
    obtain ⟨a, l1, l2, hl1, hpa, hreg, herase⟩ :=
      @List.exists_of_eraseP _ (fun x : EnoceanDevice =>
        decide (x.address = d.address) && decide (x.subDevice = d.subDevice)) reg e he.1 hpe
    have haA : a.address = A := by
      have : a.address = d.address ∧ a.subDevice = d.subDevice := by simpa using hpa
      rw [this.1, hdA]
    have has : a.subDevice = d.subDevice := by
      have : a.address = d.address ∧ a.subDevice = d.subDevice := by simpa using hpa
      exact this.2
    have hstep : eraseDevices reg (d :: ds) = eraseDevices (l1 ++ l2) ds := by
      unfold eraseDevices
      rw [List.foldl_cons, herase]
    rw [hstep, ih (l1 ++ l2) (fun x hx => hdel x (List.mem_cons_of_mem _ hx))]
    · rw [hreg]
      simp [List.filter_append, List.filter_cons, haA]
    · rw [hreg] at hperm
      simp only [List.filter_append, List.filter_cons, haA, decide_True, if_true,
        List.map_append, List.map_cons, has] at hperm
      have h2 := (List.perm_middle.symm.trans hperm)
      simpa [List.filter_append] using h2.cons_inv

/-- The loop of `unpairDevicesByAddress` empties the range of the address. -/
theorem eraseDevices_devicesAt (A : Nat) (reg : List EnoceanDevice) :
    eraseDevices reg (reg.filter (fun d => decide (d.address = A))) =
      reg.filter (fun d => decide (d.address ≠ A)) :=
  eraseDevices_eq_filter A _ reg (fun d hd => by simpa using (List.mem_filter.1 hd).2)
    (List.Perm.refl _)

theorem unpairDevicesByAddress_eq (c : EnoceanDeviceContainer) (A : Nat) (f : Bool) :
    unpairDevicesByAddress c A f =
      { c with
        vanishRequests := c.vanishRequests ++ (devicesAt c A).map (fun dev => (dev, f)),
        removedDevices := c.removedDevices ++ (devicesAt c A).map (fun dev => (dev, f)),
        enoceanDevices := c.enoceanDevices.filter (fun d => decide (d.address ≠ A)) } := by
  unfold unpairDevicesByAddress
  simp only
  rw [vanish_foldl]
  unfold devicesAt
  rw [eraseDevices_devicesAt]

theorem addAndRemeberDevice_fresh (c : EnoceanDeviceContainer) (A s : Nat)
    (hall : ∀ d ∈ c.enoceanDevices, d.address = A ∧ d.subDevice ≠ s) :
    addAndRemeberDevice c ⟨A, s⟩ =
      ({ c with enoceanDevices := c.enoceanDevices ++ [⟨A, s⟩] }, true) := by
  have hadd : inheritedAddDevice c ⟨A, s⟩ = true := by
    unfold inheritedAddDevice
    simp only [Bool.not_eq_true', List.any_eq_false, decide_eq_true_eq]
    intro d hd hc
    exact (hall d hd).2 hc.2
  have htake : c.enoceanDevices.takeWhile (fun d => decide (d.address ≤ A)) =
      c.enoceanDevices := by
    rw [List.takeWhile_eq_self_iff]
    intro d hd
    simp [(hall d hd).1]
  have hdrop : c.enoceanDevices.dropWhile (fun d => decide (d.address ≤ A)) = [] := by
    rw [List.dropWhile_eq_nil_iff]
    intro d hd
    simp [(hall d hd).1]
  have hk : addKnownDevice c ⟨A, s⟩ =
      ({ c with enoceanDevices := c.enoceanDevices ++ [⟨A, s⟩] }, true) := by
    unfold addKnownDevice
    rw [if_pos hadd]
    unfold insertDevice
    simp only [htake, hdrop]
  unfold addAndRemeberDevice
  rw [hk]
  simp

/-- On an empty registry `createDevicesFromEEP` registers the subdevices
`0 .. n-1` of the sender, in this order. -/
theorem createDevicesFromEEP_empty (c : EnoceanDeviceContainer) (t : RadioTelegram)
    (hreg : c.enoceanDevices = []) :
    createDevicesFromEEP c t =
      ({ c with enoceanDevices :=
          (List.range t.eepNumDevices).map (fun i => (⟨t.radioSender, i⟩ : EnoceanDevice)) },
        t.eepNumDevices) := by
  unfold createDevicesFromEEP
  generalize t.eepNumDevices = n
  obtain ⟨lm, reg, hp, le, vr, rd⟩ := c
  simp only at hreg
  subst hreg
  induction n with
  | zero => simp
  | succ n ih =>
    rw [List.range_succ, List.foldl_append, ih, List.foldl_cons, List.foldl_nil]
    rw [addAndRemeberDevice_fresh]
    · simp [List.range_succ, List.map_append]
    · intro d hd
      simp only [List.mem_map, List.mem_range] at hd
      obtain ⟨i, hi, rfl⟩ := hd
      exact ⟨rfl, by simp; omega⟩

/-- With learn mode disabled an error-free telegram goes to the devices of its
sender. -/
theorem handleRadioPacket_dispatch (c : EnoceanDeviceContainer) (t : RadioTelegram)
    (hl : c.learningMode = false) :
    handleRadioPacket c t false =
      { c with handledPackets := c.handledPackets ++
          (devicesAt c t.radioSender).map (fun dev => (dev, t)) } := by
  unfold handleRadioPacket
  rw [if_neg (by simp), if_neg (by simp [hl]), dispatch_foldl]

/-- Learn-in on an empty registry. -/
theorem handleRadioPacket_learnIn (c : EnoceanDeviceContainer) (t : RadioTelegram)
    (hl : c.learningMode = true) (hreg : c.enoceanDevices = [])
    (ht : t.eepHasTeachInfo = true) (hn : 0 < t.eepNumDevices) :
    handleRadioPacket c t false =
      { c with
        learningMode := false,
        enoceanDevices :=
          (List.range t.eepNumDevices).map (fun i => (⟨t.radioSender, i⟩ : EnoceanDevice)),
        learnEvents := c.learnEvents ++ [true] } := by
  unfold handleRadioPacket
  rw [if_neg (by simp), if_pos hl]
  simp only [ht, if_true]
  rw [createDevicesFromEEP_empty c t hreg]
  simp [hreg, hn, reportLearnEvent]

/-- Learn-out of a registered sender. -/
theorem handleRadioPacket_learnOut (c : EnoceanDeviceContainer) (t : RadioTelegram)
    (hl : c.learningMode = true) (ht : t.eepHasTeachInfo = true)
    (hreg : ∃ d ∈ c.enoceanDevices, d.address = t.radioSender) :
    handleRadioPacket c t false =
      { c with
        learningMode := false,
        enoceanDevices := c.enoceanDevices.filter (fun d => decide (d.address ≠ t.radioSender)),
        vanishRequests := c.vanishRequests ++
          (devicesAt c t.radioSender).map (fun dev => (dev, false)),
        removedDevices := c.removedDevices ++
          (devicesAt c t.radioSender).map (fun dev => (dev, false)),
        learnEvents := c.learnEvents ++ [false] } := by
  have hany : (c.enoceanDevices.any (fun d => decide (d.address = t.radioSender))) = true := by
    simpa using hreg
  unfold handleRadioPacket
  rw [if_neg (by simp), if_pos hl]
  simp only [ht, if_true, hany, Bool.not_true]
  rw [unpairDevicesByAddress_eq]
  simp [reportLearnEvent]

end EnoceanDeviceContainer

/-! ## The replay in place -/

namespace Esp3Packet

/-- One pass through the `switch` in a state that cannot complete a header
writes at most one header byte, at index 0 or `dataIndex`. -/
theorem processByte_quiet_header (k : Nat) (r : Esp3Packet) (x rp : Nat)
    (hq : Quiet (k + 1) r) (hrp : 1 ≤ rp)
    (hidx : r.state = PacketState.ps_headerread → r.dataIndex < rp) :
    (processByte r x).1.header.drop rp = r.header.drop rp ∧
    (processByte r x).1.header.length = r.header.length ∧
    ((processByte r x).1.state = PacketState.ps_headerread →
      (processByte r x).1.dataIndex < rp + 1) := by
  rcases hq with ⟨hs, hr⟩ | ⟨hs, hr⟩
  · unfold processByte
    simp only [hs]
    split_ifs
    · refine ⟨List.drop_set_of_lt _ _ (by omega), by simp, fun _ => ?_⟩
      simp only
      omega
    · exact ⟨rfl, rfl, fun h => by rw [hs] at h; cases h⟩
  · unfold processByte
    simp only [hs]
    have hne : ¬ (r.dataIndex + 1 = ESP3_HEADERBYTES) := by
      simp only [ESP3_HEADERBYTES]; omega
    rw [if_neg hne]
    have := hidx hs
    refine ⟨List.drop_set_of_lt _ _ this, by simp, fun _ => ?_⟩
    simp only
    omega

theorem feed_of_quiet (k : Nat) (r : Esp3Packet) (x : Nat) (hq : Quiet (k + 1) r) :
    feed r x = (processByte r x).1 := by
  have h := (processByte_quiet k r x hq).1
  unfold feed
  generalize processByte r x = res at h
  obtain ⟨p1, fl⟩ := res
  simp only at h
  subst h
  rfl

/-- The replay in place reads what was stored: replaying `k` header bytes from
offset `rp` does what feeding these bytes, as they are stored when the replay
starts, as new input does.  No stored byte is overwritten before it is
re-read. -/
theorem replayRun_eq_run (k : Nat) (rp : Nat) (r : Esp3Packet) (hq : Quiet k r)
    (hlen : rp + k ≤ r.header.length) (hrp : 1 ≤ rp)
    (hidx : r.state = PacketState.ps_headerread → r.dataIndex < rp) :
    run r ((r.header.drop rp).take k) = (k, replayRun k rp r) := by
  induction k generalizing rp r with
  | zero => simp [run, replayRun]
  | succ k ih =>
    have hlt : rp < r.header.length := by omega
    have hsplit : (r.header.drop rp).take (k + 1) =
        r.header.getD rp 0 :: (r.header.drop (rp + 1)).take k := by
      rw [List.drop_eq_getElem_cons hlt, List.take_succ_cons,
        List.getD_eq_getElem _ _ hlt]
    obtain ⟨hfl, hq1⟩ := processByte_quiet k r (r.header.getD rp 0) hq
    obtain ⟨hdrop, hl1, hidx1⟩ := processByte_quiet_header k r (r.header.getD rp 0) rp hq hrp hidx
    have hfeed := feed_of_quiet k r (r.header.getD rp 0) hq
    have hdrop1 : (processByte r (r.header.getD rp 0)).1.header.drop (rp + 1) =
        r.header.drop (rp + 1) := by
      have := congrArg (List.drop 1) hdrop
      simpa [List.drop_drop, Nat.add_comm] using this
    rw [hsplit, run_cons, hfeed, if_neg hq1.not_complete]
    have := ih (rp + 1) (processByte r (r.header.getD rp 0)).1 hq1 (by rw [hl1]; omega)
      (by omega) hidx1
    rw [hdrop1] at this
    rw [this]
    rfl

theorem rejected_quiet (hdr : List Nat) : Quiet 5 (rejected hdr) :=
  Or.inl ⟨rfl, le_refl _⟩

/-- Six bytes that start with `0x55` and fail the header CRC: the packet ends
where feeding the last five of them to the rejected packet ends. -/
theorem run_rejected_header (p : Esp3Packet) (hp : Idle p) (a b c d e : Nat)
    (he : e ≠ crc8 [a, b, c, d] 0) (R : List Nat) :
    run p (0x55 :: a :: b :: c :: d :: e :: R) =
      ((run (rejected [0x55, a, b, c, d, e]) (a :: b :: c :: d :: e :: R)).1 + 1,
        (run (rejected [0x55, a, b, c, d, e]) (a :: b :: c :: d :: e :: R)).2) := by
  have hrep := replayRun_eq_run 5 1 (rejected [0x55, a, b, c, d, e]) (rejected_quiet _)
    (by simp [rejected]) (le_refl _) (by simp [rejected])
  have hbytes : ((rejected [0x55, a, b, c, d, e]).header.drop 1).take 5 = [a, b, c, d, e] := by
    simp [rejected]
  rw [hbytes] at hrep
  have hnc : (replayRun 5 1 (rejected [0x55, a, b, c, d, e])).state ≠
      PacketState.ps_complete :=
    (replayRun_quiet 5 1 _ (rejected_quiet _)).not_complete
  have h6 : run p [0x55, a, b, c, d, e] =
      (6, replayRun 5 1 (rejected [0x55, a, b, c, d, e])) := by
    obtain ⟨state, header, dataIndex, payloadP, payloadSize⟩ := p
    obtain ⟨hs, hl, hpp, hps⟩ := hp
    simp only at hs hl hpp hps
    subst hs hpp hps
    match header, hl with
    | [h0, h1, h2, h3, h4, h5], _ =>
      have f1 : feed ⟨PacketState.ps_syncwait, [h0, h1, h2, h3, h4, h5], dataIndex, none, 0⟩ 0x55 =
          ⟨PacketState.ps_headerread, [0x55, h1, h2, h3, h4, h5], 1, none, 0⟩ := by
        simp [feed, processByte]
      have f2 : feed ⟨PacketState.ps_headerread, [0x55, h1, h2, h3, h4, h5], 1, none, 0⟩ a =
          ⟨PacketState.ps_headerread, [0x55, a, h2, h3, h4, h5], 2, none, 0⟩ := by
        simp [feed, processByte, ESP3_HEADERBYTES]
      have f3 : feed ⟨PacketState.ps_headerread, [0x55, a, h2, h3, h4, h5], 2, none, 0⟩ b =
          ⟨PacketState.ps_headerread, [0x55, a, b, h3, h4, h5], 3, none, 0⟩ := by
        simp [feed, processByte, ESP3_HEADERBYTES]
      have f4 : feed ⟨PacketState.ps_headerread, [0x55, a, b, h3, h4, h5], 3, none, 0⟩ c =
          ⟨PacketState.ps_headerread, [0x55, a, b, c, h4, h5], 4, none, 0⟩ := by
        simp [feed, processByte, ESP3_HEADERBYTES]
      have f5 : feed ⟨PacketState.ps_headerread, [0x55, a, b, c, h4, h5], 4, none, 0⟩ d =
          ⟨PacketState.ps_headerread, [0x55, a, b, c, d, h5], 5, none, 0⟩ := by
        simp [feed, processByte, ESP3_HEADERBYTES]
      have f6 : feed ⟨PacketState.ps_headerread, [0x55, a, b, c, d, h5], 5, none, 0⟩ e =
          replayRun 5 1 (rejected [0x55, a, b, c, d, e]) := by
        have hpb : processByte ⟨PacketState.ps_headerread, [0x55, a, b, c, d, h5], 5, none, 0⟩ e =
            (rejected [0x55, a, b, c, d, e], Flow.replay) := by
          simp [processByte, ESP3_HEADERBYTES, headerCRC, he, rejected]
        unfold feed
        rw [hpb]
        rfl
      rw [run_cons, f1, if_neg (by simp), run_cons, f2, if_neg (by simp), run_cons, f3,
        if_neg (by simp), run_cons, f4, if_neg (by simp), run_cons, f5, if_neg (by simp),
        run_cons, f6, if_neg hnc, run_nil]
  have e1 := run_append_of_not_complete p [0x55, a, b, c, d, e] R _ h6 hnc
  have e2 := run_append_of_not_complete (rejected [0x55, a, b, c, d, e]) [a, b, c, d, e] R _
    hrep hnc
  simp only [List.cons_append, List.nil_append, List.length_cons, List.length_nil] at e1 e2
  rw [e1, e2]
  simp only [Nat.zero_add, Nat.reduceAdd, Prod.mk.injEq, and_true]
  omega

theorem take_set_succ (l : List Nat) (i x : Nat) (hi : i < l.length) :
    (l.set i x).take (i + 1) = l.take i ++ [x] := by
  induction l generalizing i with
  | nil => simp at hi
  | cons y l ih =>
    cases i with
    | zero => simp
    | succ i =>
      simp only [List.length_cons, Nat.add_lt_add_iff_right] at hi
      simp [ih i hi]

/-- Header bytes that do not fill the header are stored one after the other. -/
theorem run_headerread (rest : List Nat) (p : Esp3Packet)
    (hs : p.state = PacketState.ps_headerread) (hlen : p.header.length = 6)
    (hk : p.dataIndex + rest.length ≤ 5) :
    (run p rest).1 = rest.length ∧ (run p rest).2.state = PacketState.ps_headerread ∧
      (run p rest).2.dataIndex = p.dataIndex + rest.length ∧
      (run p rest).2.header.take (p.dataIndex + rest.length) =
        p.header.take p.dataIndex ++ rest := by
  induction rest generalizing p with
  | nil => simp [run, hs]
  | cons x rest ih =>
    simp only [List.length_cons] at hk
    have hq : Quiet (rest.length + 1) p := Or.inr ⟨hs, by omega⟩
    have hfeed := feed_of_quiet rest.length p x hq
    have hpb : (processByte p x).1 =
        { p with header := p.header.set p.dataIndex x, dataIndex := p.dataIndex + 1 } := by
      unfold processByte
      simp only [hs]
      rw [if_neg (by simp only [ESP3_HEADERBYTES]; omega)]
    rw [hpb] at hfeed
    have ih1 := ih (feed p x) (by rw [hfeed]; exact hs) (by rw [hfeed]; simpa using hlen)
      (by rw [hfeed]; simp only; omega)
    rw [run_cons, if_neg (by rw [hfeed]; simp [hs])]
    obtain ⟨i1, i2, i3, i4⟩ := ih1
    refine ⟨by simp only [List.length_cons]; omega, i2, ?_, ?_⟩
    · rw [i3, hfeed]; simp only [List.length_cons]; omega
    · have e : p.dataIndex + (x :: rest).length = (feed p x).dataIndex + rest.length := by
        rw [hfeed]; simp only [List.length_cons]; omega
      rw [e, i4, hfeed]
      simp only
      rw [take_set_succ _ _ _ (by omega)]
      simp

theorem run_partial_header (p : Esp3Packet) (hp : Idle p) (rest : List Nat)
    (h5 : rest.length < 5) :
    (run p (0x55 :: rest)).1 = rest.length + 1 ∧
      (run p (0x55 :: rest)).2.state = PacketState.ps_headerread ∧
      collected (run p (0x55 :: rest)).2 = 0x55 :: rest := by
  obtain ⟨hs, hl, hpp, hps⟩ := hp
  have hf : feed p 0x55 =
      { p with header := p.header.set 0 0x55, state := PacketState.ps_headerread,
               dataIndex := 1 } := by
    simp [feed, processByte, hs]
  have h := run_headerread rest (feed p 0x55) (by rw [hf]) (by rw [hf]; simpa using hl)
    (by rw [hf]; simp only; omega)
  obtain ⟨i1, i2, i3, i4⟩ := h
  rw [run_cons, if_neg (by rw [hf]; simp)]
  refine ⟨by rw [i1], i2, ?_⟩
  unfold collected
  simp only [i2]
  rw [i3, i4, hf]
  simp only
  have : (p.header.set 0 0x55).take 1 = [0x55] := by
    have := take_set_succ p.header 0 0x55 (by omega)
    simpa using this
  rw [this]
  rfl

end Esp3Packet

/-! ## The framer against the reference scanner -/

theorem refScanFrom_nil (fuel pos : Nat) :
    refScanFrom (fuel + 1) pos [] = ScanResult.pending pos := rfl

theorem refScanFrom_skip (fuel pos b : Nat) (rest : List Nat) (hb : b ≠ 0x55) :
    refScanFrom (fuel + 1) pos (b :: rest) = refScanFrom fuel (pos + 1) rest := by
  simp [refScanFrom, hb]

theorem refScanFrom_short (fuel pos : Nat) (rest : List Nat) (h5 : rest.length < 5) :
    refScanFrom (fuel + 1) pos (0x55 :: rest) = ScanResult.pending pos := by
  simp [refScanFrom, h5]

theorem refScanFrom_header (fuel pos a b c d e : Nat) (R : List Nat) :
    refScanFrom (fuel + 1) pos (0x55 :: a :: b :: c :: d :: e :: R) =
      if e ≠ crc8 [a, b, c, d] 0 then refScanFrom fuel (pos + 1) (a :: b :: c :: d :: e :: R)
      else if R.length < (a <<< 8) + b + c + 1 then ScanResult.pending pos
      else if R.getD ((a <<< 8) + b + c) 0 ≠ crc8 (R.take ((a <<< 8) + b + c)) 0 then
        refScanFrom fuel (pos + 6 + ((a <<< 8) + b + c + 1)) (R.drop ((a <<< 8) + b + c + 1))
      else ScanResult.complete pos [0x55, a, b, c, d, e] (R.take ((a <<< 8) + b + c + 1)) := by
  obtain ⟨N, hN⟩ : ∃ N, N = (a <<< 8) + b + c := ⟨_, rfl⟩
  rw [← hN]
  have e5 : (a :: b :: c :: d :: e :: R).getD (5 + (N + 1) - 1) 0 = R.getD N 0 := by
    rw [show 5 + (N + 1) - 1 = N + 1 + 1 + 1 + 1 + 1 by omega]
    rfl
  have e6 : (a :: b :: c :: d :: e :: R).drop (5 + (N + 1)) = R.drop (N + 1) := by
    rw [show 5 + (N + 1) = (N + 1) + 1 + 1 + 1 + 1 + 1 by omega]
    rfl
  have e3 : ¬ ((a :: b :: c :: d :: e :: R).length < 5) := by
    simp only [List.length_cons]; omega
  have e4 : ((a :: b :: c :: d :: e :: R).length < 5 + (N + 1)) ↔ (R.length < N + 1) := by
    simp only [List.length_cons]; omega
  have e7 : (a :: b :: c :: d :: e :: R).getD 4 0 = e := rfl
  have e8 : (a :: b :: c :: d :: e :: R).take 4 = [a, b, c, d] := rfl
  have e9 : (a :: b :: c :: d :: e :: R).getD 0 0 = a := rfl
  have e10 : (a :: b :: c :: d :: e :: R).getD 1 0 = b := rfl
  have e11 : (a :: b :: c :: d :: e :: R).getD 2 0 = c := rfl
  have e12 : (a :: b :: c :: d :: e :: R).drop 5 = R := rfl
  have e13 : (a :: b :: c :: d :: e :: R).take 5 = [a, b, c, d, e] := rfl
  rw [refScanFrom]
  simp only [ne_eq, not_true_eq_false, if_false, e3, e7, e8, e9, e10, e11, e12, e13, ← hN, e4,
    e5, e6, Nat.add_sub_cancel]

namespace Esp3Packet

theorem idle_not_complete {p : Esp3Packet} (hp : Idle p) :
    p.state ≠ PacketState.ps_complete := by
  rw [hp.1]; decide

/-- A byte that the idle packet skips, or a rejected header byte: the rest of the
stream decides. -/
theorem run_skip_one (p : Esp3Packet) (hp : Idle p) (b : Nat) (rest : List Nat)
    (hb : b ≠ 0x55) :
    run p (b :: rest) = ((run p rest).1 + 1, (run p rest).2) := by
  rw [run_cons, feed_syncwait_skip p b hp.1 hb, if_neg (idle_not_complete hp)]

/-- The framer against the reference scanner, from an idle packet. -/
theorem run_refScanFrom (fuel : Nat) : ∀ (l : List Nat) (pos : Nat) (p : Esp3Packet),
    l.length < fuel → Idle p →
    (∀ q hdr pl, refScanFrom fuel pos l = ScanResult.complete q hdr pl →
      ∃ k, q = pos + k ∧ run p l = (k + 6 + pl.length, completed hdr pl) ∧
        (l.drop k).take (6 + pl.length) = hdr ++ pl ∧ hdr.length = 6 ∧
        k + 6 + pl.length ≤ l.length) ∧
    (∀ q, refScanFrom fuel pos l = ScanResult.pending q →
      ∃ k, q = pos + k ∧ k ≤ l.length ∧ (run p l).1 = l.length ∧
        (run p l).2.state ≠ PacketState.ps_complete ∧
        collected (run p l).2 = l.drop k) := by
  induction fuel with
  | zero => intro l pos p hl; omega
  | succ fuel ih =>
    intro l pos p hl hp
    -- a step that moves the scanner on by one byte
    have hmove : ∀ (b : Nat) (rest : List Nat) (p1 : Esp3Packet), l = b :: rest → Idle p1 →
        run p l = ((run p1 rest).1 + 1, (run p1 rest).2) →
        refScanFrom (fuel + 1) pos l = refScanFrom fuel (pos + 1) rest →
        (∀ q hdr pl, refScanFrom (fuel + 1) pos l = ScanResult.complete q hdr pl →
          ∃ k, q = pos + k ∧ run p l = (k + 6 + pl.length, completed hdr pl) ∧
            (l.drop k).take (6 + pl.length) = hdr ++ pl ∧ hdr.length = 6 ∧
            k + 6 + pl.length ≤ l.length) ∧
        (∀ q, refScanFrom (fuel + 1) pos l = ScanResult.pending q →
          ∃ k, q = pos + k ∧ k ≤ l.length ∧ (run p l).1 = l.length ∧
            (run p l).2.state ≠ PacketState.ps_complete ∧
            collected (run p l).2 = l.drop k) := by
      intro b rest p1 hlr hp1 hrun hscan
      subst hlr
      simp only [List.length_cons] at hl
      obtain ⟨ihc, ihp⟩ := ih rest (pos + 1) p1 (by omega) hp1
      rw [hscan, hrun]
      constructor
      · intro q hdr pl hq
        obtain ⟨k, hk, hr, hsl, hh, hle⟩ := ihc q hdr pl hq
        refine ⟨k + 1, by omega, ?_, by simpa using hsl, hh, by
          simp only [List.length_cons]; omega⟩
        rw [hr]
        simp only [Prod.mk.injEq, and_true]
        omega
      · intro q hq
        obtain ⟨k, hk, hkl, h1, h2, h3⟩ := ihp q hq
        exact ⟨k + 1, by omega, by simp only [List.length_cons]; omega,
          by simp only [List.length_cons]; omega, h2, by simpa using h3⟩
    cases l with
    | nil =>
      rw [refScanFrom_nil]
      constructor
      · intro q hdr pl hq; cases hq
      · intro q hq
        cases hq
        exact ⟨0, rfl, le_refl _, rfl, idle_not_complete hp, by simp [run, collected, hp.1]⟩
    | cons b rest =>
      by_cases hb : b ≠ 0x55
      · exact hmove b rest p rfl hp (run_skip_one p hp b rest hb)
          (refScanFrom_skip fuel pos b rest hb)
      · have hb55 : b = 0x55 := not_not.1 hb
        subst hb55
        by_cases h5 : rest.length < 5
        · rw [refScanFrom_short fuel pos rest h5]
          obtain ⟨r1, r2, r3⟩ := run_partial_header p hp rest h5
          constructor
          · intro q hdr pl hq; cases hq
          · intro q hq
            cases hq
            exact ⟨0, rfl, Nat.zero_le _, by rw [r1]; rfl, by rw [r2]; decide, by rw [r3]; rfl⟩
        · obtain ⟨a, b, c, d, e, R, rfl⟩ :
              ∃ a b c d e R, rest = a :: b :: c :: d :: e :: R := by
            match rest, h5 with
            | a :: b :: c :: d :: e :: R, _ => exact ⟨a, b, c, d, e, R, rfl⟩
            | [], h => simp at h
            | [_], h => simp at h
            | [_, _], h => simp at h
            | [_, _, _], h => simp at h
            | [_, _, _, _], h => simp at h
          · by_cases he : e ≠ crc8 [a, b, c, d] 0
            · exact hmove 0x55 _ (rejected [0x55, a, b, c, d, e]) rfl
                (rejected_idle _ _ _ _ _ _) (run_rejected_header p hp a b c d e he R)
                (by rw [refScanFrom_header, if_pos he])
            · have hcrc : e = crc8 [a, b, c, d] 0 := not_not.1 he
              subst hcrc
              rw [refScanFrom_header, if_neg he]
              generalize hN : (a <<< 8) + b + c = N
              have hhead := run_header p hp a b c d
              rw [show (a <<< 8) + b + c + 1 = N + 1 by rw [hN]] at hhead
              by_cases hshort : R.length < N + 1
              · rw [if_pos hshort]
                have hread := run_reading [0x55, a, b, c, d, crc8 [a, b, c, d] 0] R []
                  (List.replicate (N + 1) 0) (by simpa using hshort)
                have hnc : (reading [0x55, a, b, c, d, crc8 [a, b, c, d] 0] []
                    (List.replicate (N + 1) 0)).state ≠ PacketState.ps_complete := by
                  simp [reading]
                have hall := run_append_of_not_complete p
                  [0x55, a, b, c, d, crc8 [a, b, c, d] 0] R _ hhead hnc
                rw [hread] at hall
                simp only [List.cons_append, List.nil_append, List.length_cons,
                  List.length_nil] at hall
                constructor
                · intro q hdr pl hq; cases hq
                · intro q hq
                  cases hq
                  refine ⟨0, rfl, Nat.zero_le _, ?_, ?_, ?_⟩
                  · rw [hall]; simp only [List.length_cons]; omega
                  · rw [hall]; simp [reading]
                  · rw [hall]
                    simp [collected, reading]
              · rw [if_neg hshort]
                have hRs : R = R.take N ++ R.getD N 0 :: R.drop (N + 1) :=
                  body_split R N (by omega)
                have hbl : (R.take N).length = N := by
                  rw [List.length_take]; omega
                have hframe := run_frame p hp [] (by simp) a b c d (R.take N) (R.getD N 0)
                  (R.drop (N + 1)) (by rw [hbl, hN])
                rw [← hRs] at hframe
                simp only [List.nil_append, List.length_nil, Nat.zero_add, hbl] at hframe
                simp only [List.cons_append, List.nil_append] at hframe
                have htake : R.take (N + 1) = R.take N ++ [R.getD N 0] := by
                  conv_lhs => rw [hRs]
                  rw [List.take_append_eq_append_take, hbl]
                  simp [List.take_take]
                by_cases hpc : R.getD N 0 ≠ crc8 (R.take N) 0
                · rw [if_pos hpc]
                  rw [if_pos hpc] at hframe
                  simp only [List.length_cons] at hl
                  obtain ⟨ihc, ihp⟩ := ih (R.drop (N + 1)) (pos + 6 + (N + 1)) (dropped (N + 1))
                    (by rw [List.length_drop]; omega) (dropped_idle _)
                  rw [hframe]
                  constructor
                  · intro q hdr pl hq
                    obtain ⟨k, hk, hr, hsl, hh, hle⟩ := ihc q hdr pl hq
                    refine ⟨6 + (N + 1) + k, by omega, ?_, ?_, hh, ?_⟩
                    · rw [hr]
                      simp only [Prod.mk.injEq, and_true]
                      omega
                    · rw [← hsl]
                      congr 1
                      rw [show 6 + (N + 1) + k = k + (N + 1) + 6 by omega]
                      simp only [List.drop_succ_cons, List.drop_drop]
                      congr 1
                      omega
                    · rw [List.length_drop] at hle
                      simp only [List.length_cons]
                      omega
                  · intro q hq
                    obtain ⟨k, hk, hkl, h1, h2, h3⟩ := ihp q hq
                    rw [List.length_drop] at hkl h1
                    refine ⟨6 + (N + 1) + k, by omega, ?_, ?_, h2, ?_⟩
                    · simp only [List.length_cons]; omega
                    · simp only [List.length_cons]
                      rw [h1]; omega
                    · rw [h3]
                      rw [show 6 + (N + 1) + k = k + (N + 1) + 6 by omega]
                      simp only [List.drop_succ_cons, List.drop_drop]
                      congr 1
                      omega
                · rw [if_neg hpc]
                  rw [if_neg hpc] at hframe
                  constructor
                  · intro q hdr pl hq
                    cases hq
                    have hpl : (R.take (N + 1)).length = N + 1 := by
                      rw [List.length_take]; omega
                    refine ⟨0, rfl, ?_, ?_, rfl, ?_⟩
                    · rw [hpl, hframe, htake]
                    · rw [hpl]
                      simp only [List.drop_zero]
                      rw [show 6 + (N + 1) = (N + 1) + 6 by omega]
                      simp only [List.take_succ_cons, List.cons_append, List.nil_append]
                    · rw [hpl]
                      simp only [List.length_cons]
                      omega
                  · intro q hq; cases hq

theorem acceptChunksCount_complete (chunks : List (List Nat)) (p : Esp3Packet)
    (hp : p.state = PacketState.ps_complete) : acceptChunksCount p chunks = some (0, p) := by
  induction chunks with
  | nil => rfl
  | cons chunk chunks ih =>
    rw [acceptChunksCount, acceptBytes_eq_run, if_pos hp]
    simp only [ih]

/-- Calls chunk by chunk accept, in total, what one run over the joined chunks
accepts. -/
theorem acceptChunksCount_eq_run (chunks : List (List Nat)) (p : Esp3Packet)
    (hp : p.state ≠ PacketState.ps_complete) :
    acceptChunksCount p chunks = some (run p chunks.flatten) := by
  induction chunks generalizing p with
  | nil => rfl
  | cons chunk chunks ih =>
    rw [acceptChunksCount, acceptBytes_eq_run, if_neg hp]
    simp only [List.flatten_cons]
    rw [run_append]
    by_cases hc : (run p chunk).2.state = PacketState.ps_complete
    · rw [acceptChunksCount_complete chunks _ hc]
      have hne : chunk ≠ [] := run_of_complete_nil p chunk hc hp
      rw [if_pos ⟨hc, hne⟩]
      simp
    · rw [ih _ hc, if_neg (fun h => hc h.1)]

/-- The framer on a new packet against the reference scanner. -/
theorem run_new_refScan (s : List Nat) :
    (∀ pos hdr pl, refScan s = ScanResult.complete pos hdr pl →
      run new s = (pos + 6 + pl.length, completed hdr pl) ∧
        (s.drop pos).take (6 + pl.length) = hdr ++ pl ∧ hdr.length = 6 ∧
        pos + 6 + pl.length ≤ s.length) ∧
    (∀ pos, refScan s = ScanResult.pending pos →
      pos ≤ s.length ∧ (run new s).1 = s.length ∧
        (run new s).2.state ≠ PacketState.ps_complete ∧
        collected (run new s).2 = s.drop pos) := by
  obtain ⟨hc, hp⟩ := run_refScanFrom (s.length + 1) s 0 new (Nat.lt_succ_self _) new_idle
  constructor
  · intro pos hdr pl h
    obtain ⟨k, hk, h1, h2, h3, h4⟩ := hc pos hdr pl h
    rw [Nat.zero_add] at hk
    subst hk
    exact ⟨h1, h2, h3, h4⟩
  · intro pos h
    obtain ⟨k, hk, h1, h2, h3, h4⟩ := hp pos h
    rw [Nat.zero_add] at hk
    subst hk
    exact ⟨h1, h2, h3, h4⟩

theorem new_not_complete : new.state ≠ PacketState.ps_complete := by decide

end Esp3Packet

/-! ## Array writes and payload reads stay in bounds -/

namespace Esp3Packet

theorem processByteChecked_eq (p : Esp3Packet) (b : Nat) (hp : WellFormed p)
    (hs : p.state ≠ PacketState.ps_complete) :
    processByteChecked p b = some (processByte p b) := by
  obtain ⟨hlen, hrest⟩ := hp
  unfold processByteChecked
  cases hst : p.state with
  | ps_syncwait =>
    simp only [hst] at hrest ⊢
    split_ifs with h1 h2
    · rfl
    · exact absurd ⟨by decide, by omega⟩ h2
    · rfl
  | ps_headerread =>
    simp only [hst] at hrest ⊢
    obtain ⟨_, _, _, _, h5⟩ := hrest
    rw [if_pos ⟨by simp only [ESP3_HEADERBYTES]; omega, by omega⟩]
  | ps_dataread =>
    simp only [hst] at hrest ⊢
    obtain ⟨_, _, buf, hbuf, hbl, _, hidx⟩ := hrest
    rw [hbuf]
    simp only
    rw [if_pos ⟨hidx, by omega⟩]
  | ps_complete => exact absurd hst hs

theorem acceptLoopChecked_succ (fuel : Nat) (p : Esp3Packet)
    (replayBytes replayP acceptedBytes : Nat) (aBytes : List Nat) :
    acceptLoopChecked (fuel + 1) p replayBytes replayP acceptedBytes aBytes =
      if replayBytes > 0 then
        match processByteChecked p (p.header.getD replayP 0) with
        | none => none
        | some (p1, Flow.done) => some (acceptedBytes, p1)
        | some (p1, Flow.replay) =>
          acceptLoopChecked fuel p1 (ESP3_HEADERBYTES - 1) 1 acceptedBytes aBytes
        | some (p1, Flow.next) =>
          acceptLoopChecked fuel p1 (replayBytes - 1) (replayP + 1) acceptedBytes aBytes
      else
        match aBytes with
        | [] => some (acceptedBytes, p)
        | byte :: rest =>
          match processByteChecked p byte with
          | none => none
          | some (p1, Flow.done) => some (acceptedBytes + 1, p1)
          | some (p1, Flow.replay) =>
            acceptLoopChecked fuel p1 (ESP3_HEADERBYTES - 1) 1 (acceptedBytes + 1) rest
          | some (p1, Flow.next) =>
            acceptLoopChecked fuel p1 0 replayP (acceptedBytes + 1) rest := rfl

/-- From a well-formed packet the checked loop never fails: it does what the
loop of `acceptBytes` does. -/
theorem acceptLoopChecked_eq (fuel : Nat) (p : Esp3Packet) (rb rp acc : Nat) (bytes : List Nat)
    (hp : WellFormed p) (hs : p.state ≠ PacketState.ps_complete) :
    acceptLoopChecked fuel p rb rp acc bytes = acceptLoop fuel p rb rp acc bytes := by
  induction fuel generalizing p rb rp acc bytes with
  | zero => rfl
  | succ fuel ih =>
    have hstep : ∀ b, processByteChecked p b = some (processByte p b) :=
      fun b => processByteChecked_eq p b hp hs
    have hwf : ∀ b, WellFormed (processByte p b).1 := fun b => processByte_wellFormed p b hp
    have hnd : ∀ b, (processByte p b).2 ≠ Flow.done →
        (processByte p b).1.state ≠ PacketState.ps_complete :=
      fun b => processByte_not_done_state p b
    rw [acceptLoopChecked_succ, acceptLoop_succ]
    by_cases hrb : rb > 0
    · rw [if_pos hrb, if_pos hrb, hstep]
      have h1 := hwf (p.header.getD rp 0)
      have h2 := hnd (p.header.getD rp 0)
      generalize processByte p (p.header.getD rp 0) = r at h1 h2
      obtain ⟨p1, fl⟩ := r
      cases fl
      · exact ih p1 _ _ _ _ h1 (h2 (by simp))
      · exact ih p1 _ _ _ _ h1 (h2 (by simp))
      · rfl
    · rw [if_neg hrb, if_neg hrb]
      cases bytes with
      | nil => rfl
      | cons b rest =>
        simp only
        rw [hstep]
        have h1 := hwf b
        have h2 := hnd b
        generalize processByte p b = r at h1 h2
        obtain ⟨p1, fl⟩ := r
        cases fl
        · exact ih p1 _ _ _ _ h1 (h2 (by simp))
        · exact ih p1 _ _ _ _ h1 (h2 (by simp))
        · rfl

theorem acceptBytesChecked_eq (p : Esp3Packet) (bytes : List Nat) (hp : WellFormed p) :
    acceptBytesChecked p bytes = acceptBytes p bytes := by
  unfold acceptBytesChecked acceptBytes
  split_ifs with hs
  · rfl
  · exact acceptLoopChecked_eq _ p 0 0 0 bytes hp hs

/-- On a complete well-formed packet a checked read inside the payload gives the
stored byte. -/
theorem payloadRead_of_lt (q : Esp3Packet) (buf : List Nat) (hpp : q.payloadP = some buf)
    (hdata : data q = q) (hps : q.payloadSize = buf.length) (k : Nat) (hk : k < buf.length) :
    payloadRead q (k : Int) = some (buf.getD k 0) := by
  unfold payloadRead
  rw [hdata, hpp]
  simp only [hps, Int.toNat_ofNat]
  rw [if_pos ⟨Int.ofNat_nonneg k, by exact_mod_cast hk, hk⟩]

theorem Completed.payload {q : Esp3Packet} (hq : Completed q) :
    ∃ buf, q.payloadP = some buf ∧ buf.length = dataLength q + optDataLength q + 1 ∧
      data q = q ∧ q.payloadSize = buf.length := by
  obtain ⟨buf, hpp, hbl, hdata, _, _, _⟩ := hq.facts
  obtain ⟨chunks, _, hacc, hs⟩ := hq
  have hw := acceptChunks_wellFormed chunks new q new_wellFormed hacc
  obtain ⟨_, hst⟩ := hw
  rw [hs] at hst
  obtain ⟨_, _, buf2, hpp2, hbl2, _, _⟩ := hst
  rw [hpp] at hpp2
  cases hpp2
  exact ⟨buf, hpp, hbl, hdata, hbl2.symm⟩

theorem radio_rorg_checked_eq {q : Esp3Packet} (hq : Completed q) :
    radio_rorg_checked q = some (radio_rorg q) := by
  obtain ⟨buf, hpp, hbl, hdata, hps⟩ := hq.payload
  have h0 := payloadRead_of_lt q buf hpp hdata hps 0 (by omega)
  unfold radio_rorg_checked radio_rorg
  simp only [hdata, hpp]
  split_ifs
  · rfl
  · rfl
  · exact h0

theorem radio_rorg_valid (q : Esp3Packet) (h : radio_rorg q ≠ rorg_invalid) :
    packetType q = pt_radio ∧ 1 ≤ dataLength q := by
  unfold radio_rorg at h
  by_cases hpt : packetType q ≠ pt_radio
  · rw [if_pos hpt] at h; exact absurd rfl h
  · rw [if_neg hpt] at h
    refine ⟨not_not.1 hpt, ?_⟩
    cases hd : (data q).payloadP with
    | none => rw [hd] at h; exact absurd rfl h
    | some d =>
      rw [hd] at h
      simp only at h
      by_cases hl : dataLength q < 1
      · rw [if_pos hl] at h; exact absurd rfl h
      · omega

theorem radio_status_checked_eq {q : Esp3Packet} (hq : Completed q) :
    radio_status_checked q = some (radio_status q) := by
  obtain ⟨buf, hpp, hbl, hdata, hps⟩ := hq.payload
  unfold radio_status_checked radio_status
  rw [radio_rorg_checked_eq hq]
  simp only [hdata, hpp, Option.getD_some]
  have hv := radio_rorg_valid q
  generalize radio_rorg q = rorg at hv
  generalize hso : (if rorg ≠ rorg_invalid then
      if rorg = rorg_VLD then (dataLength q : Int) - 1 - 1 else (dataLength q : Int) - 1
    else 0) = so
  have hlt : so < (buf.length : Int) := by
    rw [← hso, hbl]
    split_ifs with h1 h2
    · push_cast; omega
    · push_cast; omega
    · push_cast; omega
  by_cases hneg : so < 0
  · rw [if_pos hneg, if_pos hneg]
  · rw [if_neg hneg, if_neg hneg]
    have hk : so.toNat < buf.length := by omega
    have := payloadRead_of_lt q buf hpp hdata hps so.toNat hk
    rw [Int.toNat_of_nonneg (by omega)] at this
    exact this

theorem radio_userDataLength_checked_eq {q : Esp3Packet} (hq : Completed q) :
    radio_userDataLength_checked q = some (radio_userDataLength q) := by
  unfold radio_userDataLength_checked radio_userDataLength
  rw [radio_rorg_checked_eq hq]
  simp only
  split_ifs <;> rfl

theorem radio_userDataLength_le (q : Esp3Packet) :
    radio_userDataLength q + 6 ≤ dataLength q ∨ radio_userDataLength q = 0 := by
  rw [radio_userDataLength_eq]
  split_ifs <;> omega

theorem radio_sender_checked_eq {q : Esp3Packet} (hq : Completed q) :
    radio_sender_checked q = some (radio_sender q) := by
  obtain ⟨buf, hpp, hbl, hdata, hps⟩ := hq.payload
  unfold radio_sender_checked radio_sender
  rw [radio_userDataLength_checked_eq hq]
  simp only [hdata, hpp, Option.getD_some]
  have hle := radio_userDataLength_le q
  generalize radio_userDataLength q = l at hle
  by_cases hl : l > 0
  · rw [if_pos hl, if_pos hl]
    rw [payloadRead_of_lt q buf hpp hdata hps (1 + l + 0) (by omega),
      payloadRead_of_lt q buf hpp hdata hps (1 + l + 1) (by omega),
      payloadRead_of_lt q buf hpp hdata hps (1 + l + 2) (by omega),
      payloadRead_of_lt q buf hpp hdata hps (1 + l + 3) (by omega)]
    simp only [getD_drop]
  · rw [if_neg hl, if_neg hl]

theorem optDataRead_of_lt {q : Esp3Packet} (hq : Completed q) (k : Nat)
    (hk : k < optDataLength q) :
    ∃ buf, q.payloadP = some buf ∧ optData q = some (buf.drop (dataLength q)) ∧
      optDataRead q k = some ((buf.drop (dataLength q)).getD k 0) := by
  obtain ⟨buf, hpp, hbl, hdata, hps⟩ := hq.payload
  refine ⟨buf, hpp, by simp [optData, hdata, hpp], ?_⟩
  unfold optDataRead
  rw [payloadRead_of_lt q buf hpp hdata hps (dataLength q + k) (by omega), getD_drop]

theorem optData_checked_eq {q : Esp3Packet} (hq : Completed q) :
    radio_subtelegrams_checked q = some (radio_subtelegrams q) ∧
    radio_destination_checked q = some (radio_destination q) ∧
    radio_dBm_checked q = some (radio_dBm q) ∧
    radio_security_level_checked q = some (radio_security_level q) := by
  unfold radio_subtelegrams_checked radio_subtelegrams radio_destination_checked
    radio_destination radio_dBm_checked radio_dBm radio_security_level_checked
    radio_security_level
  by_cases h7 : optDataLength q < 7
  · obtain ⟨buf, hpp, hbl, hdata, hps⟩ := hq.payload
    have ho : optData q = some (buf.drop (dataLength q)) := by simp [optData, hdata, hpp]
    simp only [ho, if_pos h7]
    simp
  · obtain ⟨buf, hpp, ho, h0⟩ := optDataRead_of_lt hq 0 (by omega)
    have hr : ∀ k, k < 7 →
        optDataRead q k = some ((buf.drop (dataLength q)).getD k 0) := by
      intro k hk
      obtain ⟨buf2, hpp2, _, h⟩ := optDataRead_of_lt hq k (by omega)
      rw [hpp] at hpp2
      cases hpp2
      exact h
    simp only [ho, if_neg h7, hr 0 (by omega), hr 1 (by omega), hr 2 (by omega),
      hr 3 (by omega), hr 4 (by omega), hr 5 (by omega), hr 6 (by omega), Option.map_some']
    simp

end Esp3Packet

section CommLoopTotal

open Esp3Packet

namespace EnoceanComm

/-- The loop of `EnoceanComm::acceptBytes` ends in every state of the handler,
with the buffer used up. -/
theorem acceptLoop_total (c : EnoceanComm) (bytes : List Nat) (fuel : Nat)
    (hfuel : bytes.length + 2 ≤ fuel) :
    ∃ c1, acceptLoop fuel c bytes = some (c1, []) ∧ (bytes ≠ [] → Ready c1) := by
  by_cases hc : Ready c
  · exact ⟨_, acceptLoop_eq_foldl fuel c hc bytes (by omega),
      fun _ => foldl_feed_ready c hc bytes⟩
  · obtain ⟨f, rfl⟩ : ∃ f, fuel = f + 1 := ⟨fuel - 1, by omega⟩
    cases bytes with
    | nil => exact ⟨c, by rw [commLoop_succ]; simp, fun h => absurd rfl h⟩
    | cons b rest =>
      have hp : ∃ p, c.currentIncomingPacket = some p ∧ p.state = PacketState.ps_complete := by
        unfold Ready at hc
        push_neg at hc
        exact hc
      obtain ⟨p, hcur, hcomp⟩ := hp
      have hcn : currentOrNew c = p := by simp [currentOrNew, hcur]
      rw [commLoop_succ]
      simp only [List.length_cons, gt_iff_lt, Nat.zero_lt_succ, if_true]
      rw [Esp3Packet.acceptBytes_eq_run, if_pos (by rw [hcn]; exact hcomp)]
      simp only [List.drop_zero]
      refine ⟨_, acceptLoop_eq_foldl f _ (afterPacket_ready c _) (b :: rest) (by
        simp only [List.length_cons] at hfuel ⊢; omega), fun _ => ?_⟩
      exact foldl_feed_ready _ (afterPacket_ready c _) _

end EnoceanComm

end CommLoopTotal

/-! ## Learn mode and dispatch -/

section LearnModeDispatch

open Esp3Packet

theorem noUserDataPacket_completed : Completed noUserDataPacket :=
  ⟨[esp3Frame 1 [0xF6, 0x00, 0x86, 0xB8, 0x1A, 0x30] []], by decide, by decide, rfl⟩

/-- In learn mode a telegram without teach-in information changes nothing. -/
theorem EnoceanDeviceContainer.handleRadioPacket_noTeachInfo (c : EnoceanDeviceContainer)
    (t : RadioTelegram) (hl : c.learningMode = true) (ht : t.eepHasTeachInfo = false) :
    EnoceanDeviceContainer.handleRadioPacket c t false = c := by
  unfold EnoceanDeviceContainer.handleRadioPacket
  rw [if_neg (by simp), if_pos hl]
  simp [ht]

theorem EnoceanDeviceContainer.addKnownDevice_handledPackets (c : EnoceanDeviceContainer)
    (d : EnoceanDevice) :
    (EnoceanDeviceContainer.addAndRemeberDevice c d).1.handledPackets = c.handledPackets := by
  unfold EnoceanDeviceContainer.addAndRemeberDevice EnoceanDeviceContainer.addKnownDevice
    EnoceanDeviceContainer.insertDevice
  split_ifs <;> simp_all

theorem EnoceanDeviceContainer.createDevicesFromEEP_handledPackets (c : EnoceanDeviceContainer)
    (t : RadioTelegram) :
    (EnoceanDeviceContainer.createDevicesFromEEP c t).1.handledPackets = c.handledPackets := by
  unfold EnoceanDeviceContainer.createDevicesFromEEP
  generalize (0 : Nat) = n0
  generalize List.range t.eepNumDevices = l
  induction l generalizing c n0 with
  | nil => rfl
  | cons i l ih =>
    rw [List.foldl_cons]
    split_ifs
    · rw [ih]
      exact EnoceanDeviceContainer.addKnownDevice_handledPackets c _
    · exact ih c n0

theorem EnoceanDeviceContainer.handleRadioPacket_learning_handledPackets
    (c : EnoceanDeviceContainer) (t : RadioTelegram) (hl : c.learningMode = true) :
    (EnoceanDeviceContainer.handleRadioPacket c t false).handledPackets = c.handledPackets := by
  unfold EnoceanDeviceContainer.handleRadioPacket
  rw [if_neg (by simp), if_pos hl]
  simp only
  by_cases ht : t.eepHasTeachInfo = true
  · rw [if_pos ht]
    by_cases hin : (!(c.enoceanDevices.any (fun d => decide (d.address = t.radioSender)))) = true
    · rw [if_pos hin]
      have hc := EnoceanDeviceContainer.createDevicesFromEEP_handledPackets c t
      split_ifs
      · simpa [EnoceanDeviceContainer.reportLearnEvent] using hc
      · simpa using hc
    · rw [if_neg hin, EnoceanDeviceContainer.unpairDevicesByAddress_eq]
      rfl
  · rw [if_neg ht]

end LearnModeDispatch

/-! ## The user-data byte of a completed packet -/

section UserDataByte

open Esp3Packet

/-- A completed packet with user data: `radio_userData()` points at payload
byte 1, so `radioUserData()[0]` is that byte. -/
theorem completed_userData {q : Esp3Packet} (hq : Completed q)
    (hud : 1 ≤ radio_userDataLength q) :
    ∃ buf, q.payloadP = some buf ∧ radio_userData q = some (buf.drop 1) ∧
      (buf.drop 1).getD 0 0 = buf.getD 1 0 := by
  obtain ⟨buf, hpp, _, _, _, _, hu, _⟩ := hq.accessors
  refine ⟨buf, hpp, ?_, ?_⟩
  · rw [hu, if_neg (by omega)]
  · rw [getD_drop]

theorem rockerButton_handleRadioPacket_completed (h : EnoceanRpsButtonHandler)
    {q : Esp3Packet} (hq : Completed q) (hud : 1 ≤ radio_userDataLength q) :
    ∃ buf, q.payloadP = some buf ∧
      EnoceanRpsButtonHandler.handleRadioPacket h q =
        some (EnoceanRpsButtonHandler.handleTelegram h (buf.getD 1 0) (radio_status q)) := by
  obtain ⟨buf, hpp, hu, hd⟩ := completed_userData hq hud
  refine ⟨buf, hpp, ?_⟩
  unfold EnoceanRpsButtonHandler.handleRadioPacket
  rw [hu]
  simp only [hd]

theorem windowHandle_handleRadioPacket_completed
    (h : EnoceanRpsWindowHandleHandler)
    {q : Esp3Packet} (hq : Completed q) (hud : 1 ≤ radio_userDataLength q) :
    ∃ buf, q.payloadP = some buf ∧
      EnoceanRpsWindowHandleHandler.handleRadioPacket h q =
        some (EnoceanRpsWindowHandleHandler.handleTelegram h (buf.getD 1 0)
          (radio_status q)) := by
  obtain ⟨buf, hpp, hu, hd⟩ := completed_userData hq hud
  refine ⟨buf, hpp, ?_⟩
  unfold EnoceanRpsWindowHandleHandler.handleRadioPacket
  rw [hu]
  simp only [hd]

theorem cardKey_handleRadioPacket_completed (h : EnoceanRpsCardKeyHandler)
    {q : Esp3Packet} (hq : Completed q) (hud : 1 ≤ radio_userDataLength q) :
    ∃ buf, q.payloadP = some buf ∧
      EnoceanRpsCardKeyHandler.handleRadioPacket h q =
        some (EnoceanRpsCardKeyHandler.handleTelegram h (buf.getD 1 0) (radio_status q)) := by
  obtain ⟨buf, hpp, hu, hd⟩ := completed_userData hq hud
  refine ⟨buf, hpp, ?_⟩
  unfold EnoceanRpsCardKeyHandler.handleRadioPacket
  rw [hu]
  simp only [hd]

theorem smokeDetector_handleRadioPacket_completed
    (h : EnoceanRpsSmokeDetectorHandler)
    {q : Esp3Packet} (hq : Completed q) (hud : 1 ≤ radio_userDataLength q) :
    ∃ buf, q.payloadP = some buf ∧
      EnoceanRpsSmokeDetectorHandler.handleRadioPacket h q =
        EnoceanRpsSmokeDetectorHandler.handleTelegram h (buf.getD 1 0) := by
  obtain ⟨buf, hpp, hu, hd⟩ := completed_userData hq hud
  refine ⟨buf, hpp, ?_⟩
  unfold EnoceanRpsSmokeDetectorHandler.handleRadioPacket
  rw [hu]
  simp only [hd]

/-- On the completed telegram without user data every handler reads
`radioUserData()[0]` through the null pointer. -/
theorem handleRadioPacket_noUserData :
    Completed noUserDataPacket ∧ radio_userDataLength noUserDataPacket = 0 ∧
    (∀ h, EnoceanRpsButtonHandler.handleRadioPacket h noUserDataPacket = none) ∧
    (∀ h, EnoceanRpsWindowHandleHandler.handleRadioPacket h noUserDataPacket = none) ∧
    (∀ h, EnoceanRpsCardKeyHandler.handleRadioPacket h noUserDataPacket = none) ∧
    (∀ h, EnoceanRpsSmokeDetectorHandler.handleRadioPacket h noUserDataPacket = none) := by
  have hu : radio_userData noUserDataPacket = none := by decide
  refine ⟨noUserDataPacket_completed, by decide, ?_, ?_, ?_, ?_⟩
  · intro h
    unfold EnoceanRpsButtonHandler.handleRadioPacket
    rw [hu]
  · intro h
    unfold EnoceanRpsWindowHandleHandler.handleRadioPacket
    rw [hu]
  · intro h
    unfold EnoceanRpsCardKeyHandler.handleRadioPacket
    rw [hu]
  · intro h
    unfold EnoceanRpsSmokeDetectorHandler.handleRadioPacket
    rw [hu]

end UserDataByte

/-! ## Learn-in whatever the number of devices of the profile -/

/-- Learn-in on an empty registry, for a profile that yields any number of
devices: the learn-in event is reported only when at least one device was
registered, learn mode is switched off in either case. -/
theorem EnoceanDeviceContainer.handleRadioPacket_learnIn_any (c : EnoceanDeviceContainer)
    (t : RadioTelegram) (hl : c.learningMode = true) (hreg : c.enoceanDevices = [])
    (ht : t.eepHasTeachInfo = true) :
    EnoceanDeviceContainer.handleRadioPacket c t false =
      { c with
        learningMode := false,
        enoceanDevices :=
          (List.range t.eepNumDevices).map (fun i => (⟨t.radioSender, i⟩ : EnoceanDevice)),
        learnEvents := (c.learnEvents ++ (if 0 < t.eepNumDevices then [true] else [])) } := by
  unfold EnoceanDeviceContainer.handleRadioPacket
  rw [if_neg (by simp), if_pos hl]
  simp only [ht, if_true]
  rw [EnoceanDeviceContainer.createDevicesFromEEP_empty c t hreg]
  by_cases hn : 0 < t.eepNumDevices
  · simp [hreg, hn, EnoceanDeviceContainer.reportLearnEvent]
  · have h0 : t.eepNumDevices = 0 := by omega
    simp [hreg, h0]

/-! ## Resynchronisation after a rejected header -/

section Resync

open Esp3Packet

/-- Five leading elements of a list with at least five elements. -/
theorem exists_five_cons (X : List Nat) (h : 5 ≤ X.length) :
    ∃ a b c d e R, X = a :: b :: c :: d :: e :: R := by
  rcases X with _ | ⟨a, _ | ⟨b, _ | ⟨c, _ | ⟨d, _ | ⟨e, R⟩⟩⟩⟩⟩
  · simp at h
  · simp at h
  · simp at h
  · simp at h
  · simp at h
  · exact ⟨a, b, c, d, e, R, rfl⟩

/-- Bytes in which no `0x55` starts six bytes that pass the header CRC, followed
by a valid packet: from any idle packet the framer completes the valid
packet. -/
theorem Esp3Packet.run_resync (t : Nat) (D O R : List Nat) (L : List Nat) :
    ∀ p : Esp3Packet, Idle p →
    (∀ j, j < L.length →
      ¬ ((L ++ (esp3Frame t D O ++ R)).getD j 0 = 0x55 ∧
          (L ++ (esp3Frame t D O ++ R)).getD (j + 5) 0 =
            crc8 (((L ++ (esp3Frame t D O ++ R)).drop (j + 1)).take 4) 0)) →
    run p (L ++ (esp3Frame t D O ++ R)) =
      (L.length + (esp3Frame t D O).length,
        completed (esp3Header t D.length O.length) (D ++ O ++ [crc8 (D ++ O) 0])) := by
  induction L with
  | nil =>
    intro p hp _
    have h := run_esp3Frame p hp [] (by simp) t D O R
    simpa using h
  | cons x L ih =>
    intro p hp hns
    have hns1 : ∀ j, j < L.length →
        ¬ ((L ++ (esp3Frame t D O ++ R)).getD j 0 = 0x55 ∧
            (L ++ (esp3Frame t D O ++ R)).getD (j + 5) 0 =
              crc8 (((L ++ (esp3Frame t D O ++ R)).drop (j + 1)).take 4) 0) := by
      intro j hj
      have h := hns (j + 1) (by simp only [List.length_cons]; omega)
      rw [show j + 1 + 5 = (j + 5) + 1 by omega] at h
      simpa only [List.cons_append, List.getD_cons_succ, List.drop_succ_cons] using h
    by_cases hx : x = 0x55
    · subst hx
      have hlen : 5 ≤ (L ++ (esp3Frame t D O ++ R)).length := by
        simp only [List.length_append, esp3Frame_length]
        omega
      obtain ⟨a, b, c, d, e, R1, hX⟩ := exists_five_cons _ hlen
      have h0 := hns 0 (by simp)
      rw [List.cons_append, hX] at h0
      have he : e ≠ crc8 [a, b, c, d] 0 := by
        intro hc
        exact h0 ⟨rfl, hc⟩
      rw [List.cons_append, hX, run_rejected_header p hp a b c d e he R1, ← hX,
        ih _ (rejected_idle _ _ _ _ _ _) hns1]
      simp only [List.length_cons]
      congr 1
      omega
    · rw [List.cons_append, run_skip_one p hp x _ hx, ih p hp hns1]
      simp only [List.length_cons]
      congr 1
      omega

namespace EnoceanComm

theorem dispatchPacket_dispatched (c : EnoceanComm) (aPacket : Esp3Packet) :
    (dispatchPacket c aPacket).dispatched = c.dispatched ++ [aPacket] := by
  unfold dispatchPacket
  simp only
  split_ifs <;> rfl

theorem afterPacket_dispatched (c : EnoceanComm) (pkt1 : Esp3Packet) :
    (afterPacket c pkt1).dispatched =
      if pkt1.state = PacketState.ps_complete then c.dispatched ++ [pkt1] else c.dispatched := by
  unfold afterPacket
  by_cases h : pkt1.state = PacketState.ps_complete
  · rw [if_pos (by simp [Esp3Packet.isComplete, h]), if_pos h]
    exact dispatchPacket_dispatched _ _
  · rw [if_neg (by simp [Esp3Packet.isComplete, h]), if_neg h]

theorem afterPacket_current (c : EnoceanComm) (pkt1 : Esp3Packet) :
    (afterPacket c pkt1).currentIncomingPacket =
      if pkt1.state = PacketState.ps_complete then none else some pkt1 := by
  unfold afterPacket
  by_cases h : pkt1.state = PacketState.ps_complete
  · rw [if_pos (by simp [Esp3Packet.isComplete, h]), if_pos h]
  · rw [if_neg (by simp [Esp3Packet.isComplete, h]), if_neg h]

/-- Every dispatched packet is complete and well formed, and so is the packet in
progress: the invariant of the handlers that `acceptBytes` reaches. -/
theorem feed_dispatched_wellFormed (c : EnoceanComm) (byte : Nat)
    (hcur : ∀ p, c.currentIncomingPacket = some p → WellFormed p)
    (hd : ∀ q ∈ c.dispatched, WellFormed q ∧ q.state = PacketState.ps_complete) :
    (∀ p, (feed c byte).currentIncomingPacket = some p → WellFormed p) ∧
    (∀ q ∈ (feed c byte).dispatched, WellFormed q ∧ q.state = PacketState.ps_complete) := by
  have hw : WellFormed (Esp3Packet.feed (currentOrNew c) byte) := by
    apply feed_wellFormed
    unfold currentOrNew
    cases hc : c.currentIncomingPacket with
    | none => exact new_wellFormed
    | some p => exact hcur p hc
  unfold feed
  rw [afterPacket_dispatched, afterPacket_current]
  generalize Esp3Packet.feed (currentOrNew c) byte = p1 at hw
  by_cases hcomp : p1.state = PacketState.ps_complete
  · rw [if_pos hcomp, if_pos hcomp]
    constructor
    · intro p hp
      simp at hp
    · intro q hq
      rcases List.mem_append.mp hq with h | h
      · exact hd q h
      · rw [List.mem_singleton] at h
        subst h
        exact ⟨hw, hcomp⟩
  · rw [if_neg hcomp, if_neg hcomp]
    constructor
    · intro p hp
      simp only [Option.some.injEq] at hp
      subst hp
      exact hw
    · exact hd

theorem foldl_feed_dispatched_wellFormed (bytes : List Nat) (c : EnoceanComm)
    (hcur : ∀ p, c.currentIncomingPacket = some p → WellFormed p)
    (hd : ∀ q ∈ c.dispatched, WellFormed q ∧ q.state = PacketState.ps_complete) :
    ∀ q ∈ (bytes.foldl feed c).dispatched, WellFormed q ∧ q.state = PacketState.ps_complete := by
  induction bytes generalizing c with
  | nil => exact hd
  | cons b rest ih =>
    rw [List.foldl_cons]
    exact ih _ (feed_dispatched_wellFormed c b hcur hd).1 (feed_dispatched_wellFormed c b hcur hd).2

/-- No packet that a new handler dispatches carries a header whose sixth byte
differs from the CRC of its bytes 1 to 4. -/
theorem foldl_feed_new_header_crc (bytes : List Nat) (a b c d e : Nat)
    (he : e ≠ crc8 [a, b, c, d] 0) :
    ∀ q ∈ (bytes.foldl feed new).dispatched, q.header ≠ [0x55, a, b, c, d, e] := by
  intro q hq hh
  obtain ⟨hw, hs⟩ := foldl_feed_dispatched_wellFormed bytes new (by simp [new]) (by simp [new]) q hq
  obtain ⟨_, hst⟩ := hw
  rw [hs] at hst
  have h5 := hst.2.1
  rw [hh] at h5
  unfold headerCRC at h5
  rw [hh] at h5
  exact he (by simpa [ESP3_HEADERBYTES] using h5)

/-- Bytes in which no `0x55` starts six bytes that pass the header CRC, followed
by a valid packet: a new handler dispatches exactly the valid packet. -/
theorem acceptBytes_new_resync (L : List Nat) (t : Nat) (D O : List Nat)
    (hns : ∀ j, j < L.length →
      ¬ ((L ++ esp3Frame t D O).getD j 0 = 0x55 ∧
          (L ++ esp3Frame t D O).getD (j + 5) 0 =
            crc8 (((L ++ esp3Frame t D O).drop (j + 1)).take 4) 0)) :
    acceptBytes new (L ++ esp3Frame t D O) =
      some ((L ++ esp3Frame t D O).length,
        { new with dispatched :=
            [completed (esp3Header t D.length O.length) (D ++ O ++ [crc8 (D ++ O) 0])] }) := by
  have hne : L ++ esp3Frame t D O ≠ [] := by simp [esp3Frame, esp3Header]
  have hr := Esp3Packet.run_resync t D O [] L (currentOrNew new)
    (currentOrNew_idle_of_none new rfl) (by simpa using hns)
  rw [List.append_nil] at hr
  have h := afterPacket_run (L ++ esp3Frame t D O) new hne
  rw [hr] at h
  simp only at h
  rw [← List.length_append, List.take_length] at h
  rw [acceptBytes_eq_foldl new new_ready, ← h]
  simp [afterPacket, dispatchPacket, Esp3Packet.isComplete, completed, new, esp3Header,
    Esp3Packet.packetType]

end EnoceanComm

end Resync

/-! ## Resynchronisation past packets that end before the valid packet -/

section ResyncPackets

open Esp3Packet

/-- The condition "no `0x55` among the bytes `L` starts a header that passes
the header CRC and declares a packet reaching beyond the end of `L`" carries
over from `x :: L` to `L`. -/
theorem noOverrun_tail (x : Nat) (L F : List Nat)
    (h : ∀ j, j < (x :: L).length →
      ¬ ((x :: L ++ F).getD j 0 = 0x55 ∧
          (x :: L ++ F).getD (j + 5) 0 = crc8 (((x :: L ++ F).drop (j + 1)).take 4) 0 ∧
          (x :: L).length < j + 6 + (((x :: L ++ F).getD (j + 1) 0 <<< 8) +
            (x :: L ++ F).getD (j + 2) 0 + (x :: L ++ F).getD (j + 3) 0) + 1)) :
    ∀ j, j < L.length →
      ¬ ((L ++ F).getD j 0 = 0x55 ∧
          (L ++ F).getD (j + 5) 0 = crc8 (((L ++ F).drop (j + 1)).take 4) 0 ∧
          L.length < j + 6 + (((L ++ F).getD (j + 1) 0 <<< 8) +
            (L ++ F).getD (j + 2) 0 + (L ++ F).getD (j + 3) 0) + 1) := by
  intro j hj hc
  obtain ⟨h1, h2, h3⟩ := hc
  apply h (j + 1) (by simp only [List.length_cons]; omega)
  have g1 : (x :: L ++ F).getD (j + 1 + 1) 0 = (L ++ F).getD (j + 1) 0 := rfl
  have g2 : (x :: L ++ F).getD (j + 1 + 2) 0 = (L ++ F).getD (j + 2) 0 := rfl
  have g3 : (x :: L ++ F).getD (j + 1 + 3) 0 = (L ++ F).getD (j + 3) 0 := rfl
  have g5 : (x :: L ++ F).getD (j + 1 + 5) 0 = (L ++ F).getD (j + 5) 0 := rfl
  have gd : (x :: L ++ F).drop (j + 1 + 1) = (L ++ F).drop (j + 1) := rfl
  rw [g1, g2, g3, g5, gd]
  refine ⟨h1, h2, ?_⟩
  simp only [List.length_cons]
  omega

theorem noOverrun_drop (pre L F : List Nat)
    (h : ∀ j, j < (pre ++ L).length →
      ¬ ((pre ++ L ++ F).getD j 0 = 0x55 ∧
          (pre ++ L ++ F).getD (j + 5) 0 = crc8 (((pre ++ L ++ F).drop (j + 1)).take 4) 0 ∧
          (pre ++ L).length < j + 6 + (((pre ++ L ++ F).getD (j + 1) 0 <<< 8) +
            (pre ++ L ++ F).getD (j + 2) 0 + (pre ++ L ++ F).getD (j + 3) 0) + 1)) :
    ∀ j, j < L.length →
      ¬ ((L ++ F).getD j 0 = 0x55 ∧
          (L ++ F).getD (j + 5) 0 = crc8 (((L ++ F).drop (j + 1)).take 4) 0 ∧
          L.length < j + 6 + (((L ++ F).getD (j + 1) 0 <<< 8) +
            (L ++ F).getD (j + 2) 0 + (L ++ F).getD (j + 3) 0) + 1) := by
  induction pre with
  | nil => simpa using h
  | cons x pre ih => exact ih (noOverrun_tail x (pre ++ L) F h)

namespace EnoceanComm

theorem currentOrNew_of_some (c : EnoceanComm) (q : Esp3Packet)
    (h : c.currentIncomingPacket = some q) : currentOrNew c = q := by
  unfold currentOrNew
  rw [h]

/-- Six bytes that start with `0x55` and fail the header CRC, arriving while the
packet in progress is idle: the handler goes on as from the rejected header
with the last five of them. -/
theorem foldl_feed_rejected_header (c : EnoceanComm) (hc : Idle (currentOrNew c))
    (a b c1 d e : Nat) (he : e ≠ crc8 [a, b, c1, d] 0) (R : List Nat) :
    (0x55 :: a :: b :: c1 :: d :: e :: R).foldl feed c =
      (a :: b :: c1 :: d :: e :: R).foldl feed
        { c with currentIncomingPacket := some (rejected [0x55, a, b, c1, d, e]) } := by
  have hrep := replayRun_eq_run 5 1 (rejected [0x55, a, b, c1, d, e]) (rejected_quiet _)
    (by simp [rejected]) (le_refl _) (by simp [rejected])
  have hbytes : ((rejected [0x55, a, b, c1, d, e]).header.drop 1).take 5 = [a, b, c1, d, e] := by
    simp [rejected]
  rw [hbytes] at hrep
  have hnc : (replayRun 5 1 (rejected [0x55, a, b, c1, d, e])).state ≠
      PacketState.ps_complete :=
    (replayRun_quiet 5 1 _ (rejected_quiet _)).not_complete
  have h6 := run_rejected_header (currentOrNew c) hc a b c1 d e he []
  rw [hrep] at h6
  have hl : [0x55, a, b, c1, d, e].foldl feed c =
      { c with currentIncomingPacket := some (replayRun 5 1 (rejected [0x55, a, b, c1, d, e])) } :=
    foldl_feed_of_not_complete c _ (by simp) _ _ h6 hnc
  have hr : [a, b, c1, d, e].foldl feed
        { c with currentIncomingPacket := some (rejected [0x55, a, b, c1, d, e]) } =
      { c with currentIncomingPacket := some (replayRun 5 1 (rejected [0x55, a, b, c1, d, e])) } :=
    foldl_feed_of_not_complete
      { c with currentIncomingPacket := some (rejected [0x55, a, b, c1, d, e]) } _ (by simp) _ _
      hrep hnc
  have e1 : (0x55 :: a :: b :: c1 :: d :: e :: R) = [0x55, a, b, c1, d, e] ++ R := rfl
  have e2 : (a :: b :: c1 :: d :: e :: R) = [a, b, c1, d, e] ++ R := rfl
  rw [e1, e2, List.foldl_append, List.foldl_append, hl, hr]

/-- A header that passes the header CRC and the payload of the declared size,
arriving while the packet in progress is idle: the packet is dispatched when
its payload CRC matches and dropped otherwise; then no packet is in progress or
the packet in progress is idle. -/
theorem foldl_feed_packet (c : EnoceanComm) (hc : Idle (currentOrNew c))
    (a b c1 d : Nat) (body : List Nat) (y : Nat) (hlen : (a <<< 8) + b + c1 = body.length) :
    Idle (currentOrNew
      (([0x55, a, b, c1, d, crc8 [a, b, c1, d] 0] ++ (body ++ [y])).foldl feed c)) ∧
    ∃ pre, (([0x55, a, b, c1, d, crc8 [a, b, c1, d] 0] ++ (body ++ [y])).foldl feed c).dispatched =
      c.dispatched ++ pre := by
  have hrun := run_frame (currentOrNew c) hc [] (by simp) a b c1 d body y [] hlen
  rw [List.nil_append] at hrun
  have hne : [0x55, a, b, c1, d, crc8 [a, b, c1, d] 0] ++ (body ++ [y]) ≠ [] := by simp
  by_cases hy : y ≠ crc8 body 0
  · rw [if_pos hy, run_nil] at hrun
    have hf := foldl_feed_of_not_complete c _ hne _ _ hrun (idle_not_complete (dropped_idle _))
    rw [hf]
    exact ⟨by rw [currentOrNew_of_some _ _ rfl]; exact dropped_idle _, [], by simp⟩
  · rw [if_neg hy] at hrun
    have h := afterPacket_run _ c hne
    rw [hrun] at h
    simp only at h
    have hlen2 : ([] : List Nat).length + (6 + (body.length + 1)) =
        ([0x55, a, b, c1, d, crc8 [a, b, c1, d] 0] ++ (body ++ [y])).length := by
      simp
      omega
    rw [hlen2, List.take_length] at h
    rw [← h]
    obtain ⟨hcur, hd⟩ := afterPacket_completed c [0x55, a, b, c1, d, crc8 [a, b, c1, d] 0]
      (body ++ [y])
    exact ⟨currentOrNew_idle_of_none _ hcur, [_], hd⟩

/-- Bytes `L` in which no `0x55` starts a header that passes the header CRC and
declares a packet reaching beyond the end of `L`, followed by a valid packet:
the handler dispatches the valid packet last and keeps no packet in
progress. -/
theorem foldl_feed_resync (t : Nat) (D O : List Nat) (n : Nat) :
    ∀ (L : List Nat) (c : EnoceanComm), L.length ≤ n → Idle (currentOrNew c) →
    (∀ j, j < L.length →
      ¬ ((L ++ esp3Frame t D O).getD j 0 = 0x55 ∧
          (L ++ esp3Frame t D O).getD (j + 5) 0 =
            crc8 (((L ++ esp3Frame t D O).drop (j + 1)).take 4) 0 ∧
          L.length < j + 6 + (((L ++ esp3Frame t D O).getD (j + 1) 0 <<< 8) +
            (L ++ esp3Frame t D O).getD (j + 2) 0 + (L ++ esp3Frame t D O).getD (j + 3) 0) +
              1)) →
    ((L ++ esp3Frame t D O).foldl feed c).currentIncomingPacket = none ∧
    ∃ pre, ((L ++ esp3Frame t D O).foldl feed c).dispatched =
      c.dispatched ++ pre ++
        [completed (esp3Header t D.length O.length) (D ++ O ++ [crc8 (D ++ O) 0])] := by
  induction n with
  | zero =>
    intro L c hL hc _
    have hnil : L = [] := List.length_eq_zero.mp (by omega)
    subst hnil
    have h := foldl_feed_esp3Frame c hc [] (by simp) t D O
    rw [h]
    obtain ⟨hcur, hd⟩ := afterPacket_completed c (esp3Header t D.length O.length)
      (D ++ O ++ [crc8 (D ++ O) 0])
    exact ⟨hcur, [], by simpa using hd⟩
  | succ n ih =>
    intro L c hL hc hns
    rcases L with _ | ⟨x, L⟩
    · exact ih [] c (by simp) hc (by simp)
    simp only [List.length_cons] at hL
    have hns1 := noOverrun_tail x L (esp3Frame t D O) hns
    by_cases hx : x = 0x55
    · subst hx
      have hlen : 5 ≤ (L ++ esp3Frame t D O).length := by
        simp only [List.length_append, esp3Frame_length]
        omega
      obtain ⟨a, b, c1, d, e, R1, hX⟩ := exists_five_cons _ hlen
      by_cases he : e ≠ crc8 [a, b, c1, d] 0
      · rw [List.cons_append, hX, foldl_feed_rejected_header c hc a b c1 d e he R1, ← hX]
        exact ih L _ (by omega) (by rw [currentOrNew_of_some _ _ rfl]; exact rejected_idle _ _ _ _ _ _)
          hns1
      · have he2 : e = crc8 [a, b, c1, d] 0 := by
          by_contra hne
          exact he hne
        have h0 := hns 0 (by simp)
        rw [List.cons_append, hX] at h0
        have hsize : 6 + ((a <<< 8) + b + c1) + 1 ≤ L.length + 1 := by
          by_contra hlt
          apply h0
          refine ⟨rfl, he2, ?_⟩
          simp only [List.length_cons, List.getD_cons_succ, List.getD_cons_zero]
          omega
        obtain ⟨a2, b2, c2, d2, e2, L1, hL1⟩ := exists_five_cons L (by omega)
        subst hL1
        simp only [List.cons_append, List.cons.injEq] at hX
        obtain ⟨rfl, rfl, rfl, rfl, rfl, hR⟩ := hX
        simp only [List.length_cons] at hsize hL
        have hN : (a2 <<< 8) + b2 + c2 < L1.length := by omega
        have hsplit := body_split L1 ((a2 <<< 8) + b2 + c2) hN
        have hbl : (L1.take ((a2 <<< 8) + b2 + c2)).length = (a2 <<< 8) + b2 + c2 := by
          rw [List.length_take]
          omega
        obtain ⟨hidle, pre1, hpre1⟩ := foldl_feed_packet c hc a2 b2 c2 d2
          (L1.take ((a2 <<< 8) + b2 + c2)) (L1.getD ((a2 <<< 8) + b2 + c2) 0) hbl.symm
        have hstream : 0x55 :: a2 :: b2 :: c2 :: d2 :: e2 :: L1 =
            ([0x55, a2, b2, c2, d2, crc8 [a2, b2, c2, d2] 0] ++
              (L1.take ((a2 <<< 8) + b2 + c2) ++ [L1.getD ((a2 <<< 8) + b2 + c2) 0])) ++
              L1.drop ((a2 <<< 8) + b2 + c2 + 1) := by
          rw [← he2]
          conv_lhs => rw [hsplit]
          simp
        have hns2 := noOverrun_drop _ (L1.drop ((a2 <<< 8) + b2 + c2 + 1)) (esp3Frame t D O)
          (by rw [← hstream]; exact hns)
        have hlen2 : (L1.drop ((a2 <<< 8) + b2 + c2 + 1)).length ≤ n := by
          rw [List.length_drop]
          omega
        obtain ⟨hcur, pre2, hpre2⟩ := ih _ _ hlen2 hidle hns2
        rw [hstream, List.append_assoc _ _ (esp3Frame t D O), List.foldl_append]
        refine ⟨hcur, pre1 ++ pre2, ?_⟩
        rw [hpre2, hpre1]
        simp only [List.append_assoc]
    · have hrun : run (currentOrNew c) [x] = ([x].length, currentOrNew c) :=
        run_skip (currentOrNew c) [x] hc.1 (by simpa using hx)
      have hf := foldl_feed_of_not_complete c [x] (by simp) _ _ hrun (idle_not_complete hc)
      rw [List.cons_append, List.foldl_cons]
      have hf2 : feed c x = { c with currentIncomingPacket := some (currentOrNew c) } := by
        simpa using hf
      rw [hf2]
      exact ih L _ (by omega) (by rw [currentOrNew_of_some _ _ rfl]; exact hc) hns1

end EnoceanComm

end ResyncPackets

/-! ## The claims -/

open Esp3Packet

/-- C1: for every byte sequence `xs` and seed byte `s`, the table-driven
`crc8 xs s` equals the bitwise CRC-8 reference (xor the byte into the register,
then eight times shift left modulo 256 and xor 0x07 when the bit shifted out was
set); in particular every table entry `CRC8Table[b]`, `b < 256`, is the
eight-step reduction of `b`. -/
theorem crc8_refines_bitwise (xs : List Nat) (s : Nat)
    (hxs : ∀ x ∈ xs, x < 256) (hs : s < 256) :
    crc8 xs s = crc8Ref xs s ∧
      ∀ b, b < 256 → CRC8Table.getD b 0 = crc8RefByte 0 b := by
  refine ⟨?_, CRC8Table_eq_ref⟩
  induction xs generalizing s with
  | nil => rfl
  | cons x xs ih =>
    have hx : x < 256 := hxs x (List.mem_cons_self _ _)
    have hstep : addToCrc8 s x = crc8RefByte s x := addToCrc8_eq_ref s x hs hx
    have h := ih (addToCrc8 s x) (fun y hy => hxs y (List.mem_cons_of_mem _ hy))
      (addToCrc8_lt s x)
    rw [crc8_cons, h, hstep]
    rfl

/-- Witness for C1 on the header bytes of the reference telegram. -/
theorem crc8_refines_bitwise_witness :
    crc8 [0x00, 0x07, 0x07, 0x01] 0 = crc8Ref [0x00, 0x07, 0x07, 0x01] 0 ∧
      ∀ b, b < 256 → CRC8Table.getD b 0 = crc8RefByte 0 b :=
  crc8_refines_bitwise [0x00, 0x07, 0x07, 0x01] 0 (by decide) (by decide)

/-- C2: for a packet type byte `t`, data `D` and optional data `O` within the
length limits of the header fields and with `|D|+|O|+1 ≤ 300`, and noise `G`
without a `0x55` byte: one `acceptBytes` call on a new packet with
`G ++ [0x55, |D|>>8, |D|&0xFF, |O|, t, crc8 of these four] ++ D ++ O ++
[crc8 (D ++ O)] ++ R` returns `|G|+6+|D|+|O|+1` and leaves the packet complete
with `dataLength() = |D|`, `optDataLength() = |O|`, `packetType() = t` and a
payload that starts with `D ++ O`. -/
theorem acceptBytes_valid_packet (t : Nat) (D O G R : List Nat)
    (_ht : t < 256) (_hD : D.length ≤ 65535) (_hO : O.length ≤ 255)
    (_hsize : D.length + O.length + 1 ≤ 300) (hG : ∀ g ∈ G, g ≠ 0x55) :
    ∃ q, acceptBytes new
        (G ++ [0x55, D.length >>> 8, D.length &&& 0xFF, O.length, t,
                crc8 [D.length >>> 8, D.length &&& 0xFF, O.length, t] 0]
           ++ D ++ O ++ [crc8 (D ++ O) 0] ++ R) =
        some (G.length + 6 + D.length + O.length + 1, q) ∧
      isComplete q = true ∧ dataLength q = D.length ∧ optDataLength q = O.length ∧
      packetType q = t ∧
      ∃ buf, (data q).payloadP = some buf ∧ buf.take (D.length + O.length) = D ++ O := by
  refine ⟨completed (esp3Header t D.length O.length) (D ++ O ++ [crc8 (D ++ O) 0]), ?_, ?_⟩
  · have h := acceptBytes_new_esp3Frame G hG t D O R
    rw [esp3Frame_length] at h
    simp only [esp3Frame, esp3Header, List.append_assoc, List.cons_append, List.nil_append,
      List.singleton_append] at h ⊢
    rw [h]
    simp [Nat.add_assoc]
  · obtain ⟨h1, h2, h3, h4, h5⟩ := completed_fields t D O
    refine ⟨h1, h2, h3, h4, D ++ O ++ [crc8 (D ++ O) 0], ?_, ?_⟩
    · rw [h5]; rfl
    · rw [← List.length_append, List.take_left]

/-- Witness for C2: the reference telegram after two noise bytes and before a
trailing sync byte. -/
theorem acceptBytes_valid_packet_witness :
    ((1 : Nat) < 256 ∧ [0xF6, 0x30, 0x00, 0x86, 0xB8, 0x1A, 0x30].length ≤ 65535 ∧
      [0x03, 0xFF, 0xFF, 0xFF, 0xFF, 0xFF, 0x00].length ≤ 255 ∧
      [0xF6, 0x30, 0x00, 0x86, 0xB8, 0x1A, 0x30].length +
        [0x03, 0xFF, 0xFF, 0xFF, 0xFF, 0xFF, 0x00].length + 1 ≤ 300 ∧
      ∀ g ∈ [0x00, 0x12], g ≠ 0x55) ∧
    ∃ q, acceptBytes new
        ([0x00, 0x12] ++ [0x55, [0xF6, 0x30, 0x00, 0x86, 0xB8, 0x1A, 0x30].length >>> 8,
            [0xF6, 0x30, 0x00, 0x86, 0xB8, 0x1A, 0x30].length &&& 0xFF,
            [0x03, 0xFF, 0xFF, 0xFF, 0xFF, 0xFF, 0x00].length, 1,
            crc8 [[0xF6, 0x30, 0x00, 0x86, 0xB8, 0x1A, 0x30].length >>> 8,
              [0xF6, 0x30, 0x00, 0x86, 0xB8, 0x1A, 0x30].length &&& 0xFF,
              [0x03, 0xFF, 0xFF, 0xFF, 0xFF, 0xFF, 0x00].length, 1] 0]
           ++ [0xF6, 0x30, 0x00, 0x86, 0xB8, 0x1A, 0x30]
           ++ [0x03, 0xFF, 0xFF, 0xFF, 0xFF, 0xFF, 0x00]
           ++ [crc8 ([0xF6, 0x30, 0x00, 0x86, 0xB8, 0x1A, 0x30] ++
                [0x03, 0xFF, 0xFF, 0xFF, 0xFF, 0xFF, 0x00]) 0] ++ [0x55]) =
        some ([0x00, 0x12].length + 6 + [0xF6, 0x30, 0x00, 0x86, 0xB8, 0x1A, 0x30].length +
          [0x03, 0xFF, 0xFF, 0xFF, 0xFF, 0xFF, 0x00].length + 1, q) ∧
      isComplete q = true ∧
      dataLength q = [0xF6, 0x30, 0x00, 0x86, 0xB8, 0x1A, 0x30].length ∧
      optDataLength q = [0x03, 0xFF, 0xFF, 0xFF, 0xFF, 0xFF, 0x00].length ∧
      packetType q = 1 ∧
      ∃ buf, (data q).payloadP = some buf ∧
        buf.take ([0xF6, 0x30, 0x00, 0x86, 0xB8, 0x1A, 0x30].length +
            [0x03, 0xFF, 0xFF, 0xFF, 0xFF, 0xFF, 0x00].length) =
          [0xF6, 0x30, 0x00, 0x86, 0xB8, 0x1A, 0x30] ++
            [0x03, 0xFF, 0xFF, 0xFF, 0xFF, 0xFF, 0x00] :=
  ⟨⟨by decide, by decide, by decide, by decide, by decide⟩,
   acceptBytes_valid_packet 1 [0xF6, 0x30, 0x00, 0x86, 0xB8, 0x1A, 0x30]
     [0x03, 0xFF, 0xFF, 0xFF, 0xFF, 0xFF, 0x00] [0x00, 0x12] [0x55]
     (by decide) (by decide) (by decide) (by decide) (by decide)⟩

/-- C3: whatever chunks of bytes are fed, call after call, to a new packet: if
the packet is then complete, its header starts with `0x55`, header byte 5 is the
CRC8 of header bytes 1..4, the payload buffer holds exactly
`dataLength()+optDataLength()+1` bytes and its last byte is the CRC8 of all the
bytes before it. -/
theorem complete_packet_passed_both_crcs (chunks : List (List Nat)) (q : Esp3Packet)
    (h : Esp3Packet.acceptChunks new chunks = some q) (hc : isComplete q = true) :
    q.header.length = 6 ∧ q.header.getD 0 0 = 0x55 ∧
      q.header.getD 5 0 =
        crc8 [q.header.getD 1 0, q.header.getD 2 0, q.header.getD 3 0, q.header.getD 4 0] 0 ∧
      q.header.getD 5 0 = headerCRC q ∧
      ∃ buf, q.payloadP = some buf ∧ buf.length = dataLength q + optDataLength q + 1 ∧
        buf.getD (buf.length - 1) 0 = crc8 (buf.take (buf.length - 1)) 0 ∧
        buf.getD (buf.length - 1) 0 = payloadCRC q := by
  have hw := acceptChunks_wellFormed chunks new q new_wellFormed h
  have hs : q.state = PacketState.ps_complete := by simpa [isComplete] using hc
  obtain ⟨hl, hst⟩ := hw
  rw [hs] at hst
  obtain ⟨h0, h5, buf, hpp, hbl, hps, hcrc⟩ := hst
  refine ⟨hl, h0, ?_, h5, buf, hpp, by rw [hbl, hps], by rw [hbl]; exact hcrc, ?_⟩
  · rw [h5]
    obtain ⟨state, header, dataIndex, payloadP, payloadSize⟩ := q
    simp only at hl
    match header, hl with
    | [a0, a1, a2, a3, a4, a5], _ => simp [headerCRC, ESP3_HEADERBYTES]
  · rw [hbl, hcrc, payloadCRC, hpp]

/-- Witness for C3: the reference telegram fed in three chunks. -/
theorem complete_packet_passed_both_crcs_witness :
    (Esp3Packet.acceptChunks new refChunks = some refPacket ∧ isComplete refPacket = true) ∧
    (refPacket.header.length = 6 ∧ refPacket.header.getD 0 0 = 0x55 ∧
      refPacket.header.getD 5 0 =
        crc8 [refPacket.header.getD 1 0, refPacket.header.getD 2 0, refPacket.header.getD 3 0,
          refPacket.header.getD 4 0] 0 ∧
      refPacket.header.getD 5 0 = headerCRC refPacket ∧
      ∃ buf, refPacket.payloadP = some buf ∧
        buf.length = dataLength refPacket + optDataLength refPacket + 1 ∧
        buf.getD (buf.length - 1) 0 = crc8 (buf.take (buf.length - 1)) 0 ∧
        buf.getD (buf.length - 1) 0 = payloadCRC refPacket) :=
  ⟨⟨by decide, by decide⟩,
   complete_packet_passed_both_crcs refChunks refPacket (by decide) (by decide)⟩

/-- C4: streaming determinism.  For a communication handler `c` (whose packet in
progress, if any, is not complete) and any splitting of a byte sequence into
consecutive chunks, feeding the chunks through `EnoceanComm::acceptBytes` one
call after the other leaves the same handler (the same packets dispatched in the
same order, the same packet in progress) as one call with the whole sequence,
which consumes all of it; and for any packet `p`, successive
`Esp3Packet::acceptBytes` calls on the chunks leave the same packet as one call
with the whole sequence. -/
theorem streaming_determinism (c : EnoceanComm) (hc : EnoceanComm.Ready c)
    (p : Esp3Packet) (chunks : List (List Nat)) :
    (EnoceanComm.acceptBytes c chunks.flatten).map Prod.fst = some chunks.flatten.length ∧
    EnoceanComm.acceptChunks c chunks =
      (EnoceanComm.acceptBytes c chunks.flatten).map Prod.snd ∧
    Esp3Packet.acceptChunks p chunks =
      (Esp3Packet.acceptBytes p chunks.flatten).map Prod.snd := by
  refine ⟨?_, ?_, ?_⟩
  · rw [EnoceanComm.acceptBytes_eq_foldl c hc]; rfl
  · rw [EnoceanComm.acceptBytes_eq_foldl c hc, EnoceanComm.acceptChunks_eq_foldl chunks c hc]
    rfl
  · rw [acceptBytes_eq_run]
    by_cases hp : p.state = PacketState.ps_complete
    · rw [if_pos hp, acceptChunks_complete chunks p hp]; rfl
    · rw [if_neg hp, acceptChunks_eq_run chunks p hp]; rfl

/-- Witness for C4: the reference telegram in three chunks, from a new handler
and a new packet. -/
theorem streaming_determinism_witness :
    EnoceanComm.Ready EnoceanComm.new ∧
    ((EnoceanComm.acceptBytes EnoceanComm.new refChunks.flatten).map Prod.fst =
        some refChunks.flatten.length ∧
      EnoceanComm.acceptChunks EnoceanComm.new refChunks =
        (EnoceanComm.acceptBytes EnoceanComm.new refChunks.flatten).map Prod.snd ∧
      Esp3Packet.acceptChunks new refChunks =
        (Esp3Packet.acceptBytes new refChunks.flatten).map Prod.snd) :=
  ⟨EnoceanComm.new_ready,
   streaming_determinism EnoceanComm.new EnoceanComm.new_ready new refChunks⟩

/-- C5 (evaluation at the failing input): the header `55 01 2C 00 01 A8` has a
valid CRC and declares `300 + 0 + 1 = 301 > 300` payload bytes; followed by 301
zero bytes (the CRC8 of 300 zero bytes is zero) it is accepted: `acceptBytes`
returns 307 and the packet is complete with a 301 byte payload.  The test in
`data()` reads the stored `payloadSize`, which is still `0`. -/
theorem oversize_header_completes :
    crc8 [0x01, 0x2C, 0x00, 0x01] 0 = 0xA8 ∧
    (acceptBytes new ([0x55, 0x01, 0x2C, 0x00, 0x01, 0xA8] ++ List.replicate 301 0)).map
        (fun r => (r.1, r.2.state, dataLength r.2 + optDataLength r.2 + 1,
          r.2.payloadP.map List.length)) =
      some (307, PacketState.ps_complete, 301, some 301) := by
  constructor
  · decide
  · set_option maxRecDepth 1000000 in decide

/-- C6 (counterexample): `P = 55 00 01 00 01 6C 00 00` is valid; with its header
CRC byte replaced by `0x55` and followed by the valid packet `Q` of type 1 with
77 zero data bytes, the replay syncs on the replaced byte, the header
`55 00 00 55 00 4D` assembled from the rest of `P` and the start of `Q` passes
the header CRC, and `Q` is swallowed as payload: nothing is dispatched. -/
theorem header_resync_counterexample :
    (esp3Frame 1 [0] []).getD 5 0 ≠ 0x55 ∧
    (EnoceanComm.acceptBytes EnoceanComm.new
        ((esp3Frame 1 [0] []).set 5 0x55 ++ esp3Frame 1 (List.replicate 77 0) [])).map
      (fun r => (r.1, r.2.dispatched, r.2.currentIncomingPacket.map (fun p => p.state))) =
      some (92, [], some PacketState.ps_dataread) := by
  constructor
  · decide
  · set_option maxRecDepth 1000000 in decide

/-- C6 (amended): the header CRC byte of a valid packet `P` is replaced by a
different value `e`, giving `P'`, and a valid packet `Q` follows.
`EnoceanComm::acceptBytes` on a new handler consumes all of `P' ++ Q`, and no
packet it dispatches carries the header of `P'`.  If no `0x55` of `P'` after
its sync byte starts six bytes of `P' ++ Q` that pass the header CRC check (the
sixth is the CRC of the second to fifth) and declare a packet (`6 + data length
+ optional length + 1` bytes) reaching beyond the end of `P'`, then `Q` with
its own header and payload is dispatched, as the last packet, and no packet is
left in progress.  If no such `0x55` starts six bytes that pass the header CRC
check at all, `Q` is the only packet dispatched. -/
theorem header_resync (t : Nat) (D O : List Nat) (e : Nat) (t2 : Nat) (D2 O2 : List Nat)
    (he : e ≠ (esp3Frame t D O).getD 5 0) :
    ∃ c1, EnoceanComm.acceptBytes EnoceanComm.new
          ((esp3Frame t D O).set 5 e ++ esp3Frame t2 D2 O2) =
        some (((esp3Frame t D O).set 5 e ++ esp3Frame t2 D2 O2).length, c1) ∧
      (∀ q ∈ c1.dispatched, q.header ≠ ((esp3Frame t D O).set 5 e).take 6) ∧
      ((∀ j, 1 ≤ j → j < ((esp3Frame t D O).set 5 e).length →
          ¬ (((esp3Frame t D O).set 5 e ++ esp3Frame t2 D2 O2).getD j 0 = 0x55 ∧
              ((esp3Frame t D O).set 5 e ++ esp3Frame t2 D2 O2).getD (j + 5) 0 =
                crc8 ((((esp3Frame t D O).set 5 e ++ esp3Frame t2 D2 O2).drop (j + 1)).take 4)
                  0 ∧
              ((esp3Frame t D O).set 5 e).length < j + 6 +
                ((((esp3Frame t D O).set 5 e ++ esp3Frame t2 D2 O2).getD (j + 1) 0 <<< 8) +
                  ((esp3Frame t D O).set 5 e ++ esp3Frame t2 D2 O2).getD (j + 2) 0 +
                  ((esp3Frame t D O).set 5 e ++ esp3Frame t2 D2 O2).getD (j + 3) 0) + 1)) →
        c1.currentIncomingPacket = none ∧
        ∃ pre, c1.dispatched = pre ++
          [completed (esp3Header t2 D2.length O2.length) (D2 ++ O2 ++ [crc8 (D2 ++ O2) 0])]) ∧
      ((∀ j, 1 ≤ j → j < ((esp3Frame t D O).set 5 e).length →
          ¬ (((esp3Frame t D O).set 5 e ++ esp3Frame t2 D2 O2).getD j 0 = 0x55 ∧
              ((esp3Frame t D O).set 5 e ++ esp3Frame t2 D2 O2).getD (j + 5) 0 =
                crc8 ((((esp3Frame t D O).set 5 e ++ esp3Frame t2 D2 O2).drop (j + 1)).take 4)
                  0)) →
        c1 = { EnoceanComm.new with dispatched :=
          [completed (esp3Header t2 D2.length O2.length)
            (D2 ++ O2 ++ [crc8 (D2 ++ O2) 0])] }) := by
  have he2 : e ≠ crc8 [D.length >>> 8, D.length &&& 0xFF, O.length, t] 0 := by
    simpa [esp3Frame, esp3Header] using he
  have hfold := EnoceanComm.acceptBytes_eq_foldl EnoceanComm.new EnoceanComm.new_ready
    ((esp3Frame t D O).set 5 e ++ esp3Frame t2 D2 O2)
  refine ⟨_, hfold, ?_, ?_, ?_⟩
  · have htake : ((esp3Frame t D O).set 5 e).take 6 =
        [0x55, D.length >>> 8, D.length &&& 0xFF, O.length, t, e] := by
      rw [esp3Frame_set_crc]
      rfl
    rw [htake]
    exact EnoceanComm.foldl_feed_new_header_crc _ _ _ _ _ _ he2
  · intro hns
    obtain ⟨hcur, pre, hpre⟩ := EnoceanComm.foldl_feed_resync t2 D2 O2
      ((esp3Frame t D O).set 5 e).length ((esp3Frame t D O).set 5 e) EnoceanComm.new
      (le_refl _) (EnoceanComm.currentOrNew_idle_of_none _ rfl) (by
        intro j hj
        by_cases h0 : j = 0
        · subst h0
          rw [esp3Frame_set_crc]
          rintro ⟨_, hc, _⟩
          exact he2 hc
        · exact hns j (by omega) hj)
    exact ⟨hcur, pre, by simpa [EnoceanComm.new] using hpre⟩
  · intro hns
    have h := EnoceanComm.acceptBytes_new_resync ((esp3Frame t D O).set 5 e) t2 D2 O2 (by
      intro j hj
      by_cases h0 : j = 0
      · subst h0
        rw [esp3Frame_set_crc]
        rintro ⟨_, hc⟩
        exact he2 hc
      · exact hns j (by omega) hj)
    rw [hfold] at h
    simpa using h

/-- Witness for C6 (amended).  First stream: `P` carries the data byte `0x55`;
the scan after the rejected header collects from it a header that includes the
first bytes of `Q`, which fails the header CRC, and the replay finds the sync
byte of `Q`: `Q` is the only packet dispatched.  Second stream: the data of `P`
are the seven bytes of a valid packet without data; it is dispatched first,
then `Q`. -/
theorem header_resync_witness :
    ((0x00 ≠ (esp3Frame 1 [0x55] []).getD 5 0 ∧
        ((esp3Frame 1 [0x55] []).set 5 0x00).getD 6 0 = 0x55 ∧
        ∀ j, 1 ≤ j → j < ((esp3Frame 1 [0x55] []).set 5 0x00).length →
          ¬ (((esp3Frame 1 [0x55] []).set 5 0x00 ++ esp3Frame 1 [0x10] [0x03]).getD j 0 = 0x55 ∧
              ((esp3Frame 1 [0x55] []).set 5 0x00 ++ esp3Frame 1 [0x10] [0x03]).getD (j + 5) 0 =
                crc8 ((((esp3Frame 1 [0x55] []).set 5 0x00 ++
                  esp3Frame 1 [0x10] [0x03]).drop (j + 1)).take 4) 0)) ∧
      ∃ c1, EnoceanComm.acceptBytes EnoceanComm.new
            ((esp3Frame 1 [0x55] []).set 5 0x00 ++ esp3Frame 1 [0x10] [0x03]) =
          some (((esp3Frame 1 [0x55] []).set 5 0x00 ++ esp3Frame 1 [0x10] [0x03]).length, c1) ∧
        c1 = { EnoceanComm.new with dispatched :=
          [completed (esp3Header 1 [0x10].length [0x03].length)
            ([0x10] ++ [0x03] ++ [crc8 ([0x10] ++ [0x03]) 0])] }) ∧
    ((0x00 ≠ (esp3Frame 1 (esp3Frame 5 [] []) []).getD 5 0 ∧
        ∀ j, 1 ≤ j → j < ((esp3Frame 1 (esp3Frame 5 [] []) []).set 5 0x00).length →
          ¬ (((esp3Frame 1 (esp3Frame 5 [] []) []).set 5 0x00 ++
                esp3Frame 1 [0x10] [0x03]).getD j 0 = 0x55 ∧
              ((esp3Frame 1 (esp3Frame 5 [] []) []).set 5 0x00 ++
                esp3Frame 1 [0x10] [0x03]).getD (j + 5) 0 =
                crc8 ((((esp3Frame 1 (esp3Frame 5 [] []) []).set 5 0x00 ++
                  esp3Frame 1 [0x10] [0x03]).drop (j + 1)).take 4) 0 ∧
              ((esp3Frame 1 (esp3Frame 5 [] []) []).set 5 0x00).length < j + 6 +
                ((((esp3Frame 1 (esp3Frame 5 [] []) []).set 5 0x00 ++
                    esp3Frame 1 [0x10] [0x03]).getD (j + 1) 0 <<< 8) +
                  ((esp3Frame 1 (esp3Frame 5 [] []) []).set 5 0x00 ++
                    esp3Frame 1 [0x10] [0x03]).getD (j + 2) 0 +
                  ((esp3Frame 1 (esp3Frame 5 [] []) []).set 5 0x00 ++
                    esp3Frame 1 [0x10] [0x03]).getD (j + 3) 0) + 1)) ∧
      (EnoceanComm.acceptBytes EnoceanComm.new
          ((esp3Frame 1 (esp3Frame 5 [] []) []).set 5 0x00 ++ esp3Frame 1 [0x10] [0x03])).map
        (fun r => r.2.dispatched) =
          some [completed (esp3Header 5 0 0) [0x00],
            completed (esp3Header 1 1 1) [0x10, 0x03, crc8 [0x10, 0x03] 0]] ∧
      ∃ c1, EnoceanComm.acceptBytes EnoceanComm.new
            ((esp3Frame 1 (esp3Frame 5 [] []) []).set 5 0x00 ++ esp3Frame 1 [0x10] [0x03]) =
          some (((esp3Frame 1 (esp3Frame 5 [] []) []).set 5 0x00 ++
            esp3Frame 1 [0x10] [0x03]).length, c1) ∧
        c1.currentIncomingPacket = none ∧
        ∃ pre, c1.dispatched = pre ++
          [completed (esp3Header 1 [0x10].length [0x03].length)
            ([0x10] ++ [0x03] ++ [crc8 ([0x10] ++ [0x03]) 0])]) :=
  ⟨⟨⟨by decide, by decide, by decide⟩,
     (header_resync 1 [0x55] [] 0x00 1 [0x10] [0x03] (by decide)).imp
       (fun _ h => ⟨h.1, h.2.2.2 (by decide)⟩)⟩,
   ⟨⟨by decide, by decide⟩, by decide,
     (header_resync 1 (esp3Frame 5 [] []) [] 0x00 1 [0x10] [0x03] (by decide)).imp
       (fun _ h => ⟨h.1, h.2.2.1 (by decide)⟩)⟩⟩

/-- C7: payload corruption.  For a valid packet `P` (type `t`, data `D`, optional
data `O`, all bytes), a payload position `i < |D|+|O|` (so not the trailing CRC)
and a bit `k < 8`: with bit `k` of payload byte `i` flipped, `acceptBytes` on a
new packet consumes all of it and ends in `ps_syncwait` with zeroed header and
no payload; and `EnoceanComm::acceptBytes` given that followed by a valid packet
`Q` dispatches exactly `Q`, with its own header and payload. -/
theorem payload_corruption (t : Nat) (D O : List Nat) (i k : Nat) (t2 : Nat) (D2 O2 : List Nat)
    (hbytes : ∀ x ∈ D ++ O, x < 256) (hi : i < D.length + O.length) (hk : k < 8) :
    Esp3Packet.acceptBytes new
        ((esp3Frame t D O).set (6 + i) ((esp3Frame t D O).getD (6 + i) 0 ^^^ 2 ^ k)) =
      some ((esp3Frame t D O).length, dropped (D.length + O.length + 1)) ∧
    (dropped (D.length + O.length + 1)).state = PacketState.ps_syncwait ∧
    (dropped (D.length + O.length + 1)).header = [0, 0, 0, 0, 0, 0] ∧
    (dropped (D.length + O.length + 1)).payloadP = none ∧
    (dropped (D.length + O.length + 1)).payloadSize = 0 ∧
    EnoceanComm.acceptBytes EnoceanComm.new
        ((esp3Frame t D O).set (6 + i) ((esp3Frame t D O).getD (6 + i) 0 ^^^ 2 ^ k) ++
          esp3Frame t2 D2 O2) =
      some ((esp3Frame t D O).length + (esp3Frame t2 D2 O2).length,
        { EnoceanComm.new with dispatched :=
            [completed (esp3Header t2 D2.length O2.length)
              (D2 ++ O2 ++ [crc8 (D2 ++ O2) 0])] }) := by
  have hi2 : i < (D ++ O).length := by simpa using hi
  have hv : (D ++ O).getD i 0 < 256 := by
    rw [List.getD_eq_getElem _ _ hi2]
    exact hbytes _ (List.getElem_mem hi2)
  rw [esp3Frame_getD_payload t D O i hi]
  have hrun := run_new_corrupted t D O i ((D ++ O).getD i 0 ^^^ 2 ^ k) hi hbytes
    (xor_bit_lt _ _ hv hk) (xor_bit_ne _ _)
  refine ⟨?_, rfl, rfl, rfl, rfl, ?_⟩
  · rw [acceptBytes_eq_run, if_neg (by simp [new, clear, clearData]), hrun]
  · have hne : (esp3Frame t D O).set (6 + i) ((D ++ O).getD i 0 ^^^ 2 ^ k) ≠ [] := by
      intro h
      have := congrArg List.length h
      simp [esp3Frame_length] at this
    have h := EnoceanComm.acceptBytes_new_junk_frame _ hne _ _ hrun (dropped_idle _) t2 D2 O2
    rw [h]
    simp

/-- Witness for C7. -/
theorem payload_corruption_witness :
    ((∀ x ∈ [0xF6, 0x30] ++ [0x03], x < 256) ∧ 1 < [0xF6, 0x30].length + [0x03].length ∧
      (3 : Nat) < 8) ∧
    (Esp3Packet.acceptBytes new
        ((esp3Frame 1 [0xF6, 0x30] [0x03]).set (6 + 1)
          ((esp3Frame 1 [0xF6, 0x30] [0x03]).getD (6 + 1) 0 ^^^ 2 ^ 3)) =
      some ((esp3Frame 1 [0xF6, 0x30] [0x03]).length,
        dropped ([0xF6, 0x30].length + [0x03].length + 1)) ∧
    (dropped ([0xF6, 0x30].length + [0x03].length + 1)).state = PacketState.ps_syncwait ∧
    (dropped ([0xF6, 0x30].length + [0x03].length + 1)).header = [0, 0, 0, 0, 0, 0] ∧
    (dropped ([0xF6, 0x30].length + [0x03].length + 1)).payloadP = none ∧
    (dropped ([0xF6, 0x30].length + [0x03].length + 1)).payloadSize = 0 ∧
    EnoceanComm.acceptBytes EnoceanComm.new
        ((esp3Frame 1 [0xF6, 0x30] [0x03]).set (6 + 1)
          ((esp3Frame 1 [0xF6, 0x30] [0x03]).getD (6 + 1) 0 ^^^ 2 ^ 3) ++
          esp3Frame 1 [0x10] []) =
      some ((esp3Frame 1 [0xF6, 0x30] [0x03]).length + (esp3Frame 1 [0x10] []).length,
        { EnoceanComm.new with dispatched :=
            [completed (esp3Header 1 [0x10].length ([] : List Nat).length)
              ([0x10] ++ [] ++ [crc8 ([0x10] ++ []) 0])] })) :=
  ⟨⟨by decide, by decide, by decide⟩,
   payload_corruption 1 [0xF6, 0x30] [0x03] 1 3 1 [0x10] [] (by decide) (by decide) (by decide)⟩

/-- C8: back-to-back packets.  For valid packets `P` and `Q`,
`Esp3Packet::acceptBytes` on a new packet given `P ++ Q` returns `|P|` and
completes with the header and payload of `P`, exactly as when given `P` alone;
`EnoceanComm::acceptBytes` on a new handler given `P ++ Q` consumes everything
and dispatches `P` and then `Q`, each with its own header and payload. -/
theorem back_to_back_packets (t : Nat) (D O : List Nat) (t2 : Nat) (D2 O2 : List Nat) :
    Esp3Packet.acceptBytes new (esp3Frame t D O ++ esp3Frame t2 D2 O2) =
      some ((esp3Frame t D O).length,
        completed (esp3Header t D.length O.length) (D ++ O ++ [crc8 (D ++ O) 0])) ∧
    Esp3Packet.acceptBytes new (esp3Frame t D O ++ esp3Frame t2 D2 O2) =
      Esp3Packet.acceptBytes new (esp3Frame t D O) ∧
    EnoceanComm.acceptBytes EnoceanComm.new (esp3Frame t D O ++ esp3Frame t2 D2 O2) =
      some ((esp3Frame t D O).length + (esp3Frame t2 D2 O2).length,
        { EnoceanComm.new with dispatched :=
            [completed (esp3Header t D.length O.length) (D ++ O ++ [crc8 (D ++ O) 0]),
             completed (esp3Header t2 D2.length O2.length)
               (D2 ++ O2 ++ [crc8 (D2 ++ O2) 0])] }) := by
  have h1 := acceptBytes_new_esp3Frame [] (by simp) t D O (esp3Frame t2 D2 O2)
  have h2 := acceptBytes_new_esp3Frame [] (by simp) t D O []
  simp only [List.nil_append, List.length_nil, Nat.zero_add, List.append_nil] at h1 h2
  refine ⟨h1, by rw [h1, h2], ?_⟩
  rw [EnoceanComm.acceptBytes_new_two_frames]
  simp

/-- C9: the reference telegram `55 00 07 07 01 7A F6 30 00 86 B8 1A 30 03 FF FF FF
FF FF 00 C0` fed to a new packet is consumed whole (21 bytes) and completes;
the packet has type radio, RORG `0xF6`, sender `0x0086B81A`, status `0x30`,
3 subtelegrams, destination `0xFFFFFFFF` and security level 0. -/
theorem reference_vector :
    Esp3Packet.acceptBytes new refTelegram = some (21, refPacket) ∧
    isComplete refPacket = true ∧ packetType refPacket = pt_radio ∧
    radio_rorg refPacket = 0xF6 ∧ radio_sender refPacket = 0x0086B81A ∧
    radio_status refPacket = 0x30 ∧ radio_subtelegrams refPacket = 3 ∧
    radio_destination refPacket = 0xFFFFFFFF ∧ radio_security_level refPacket = 0 := by
  refine ⟨?_, ?_, ?_, ?_, ?_, ?_, ?_, ?_, ?_⟩ <;> decide

/-- C10 (counterexample): for the packet completed from the reference telegram
`radio_dBm()` is not 0. -/
theorem reference_vector_dBm_nonzero :
    (Esp3Packet.acceptBytes new refTelegram).map (fun r => radio_dBm r.2) ≠ some 0 := by
  decide

/-- C10 (amended): for the packet completed from the reference telegram
`radio_dBm()` returns -255, minus the signal strength byte `0xFF`. -/
theorem reference_vector_dBm :
    (Esp3Packet.acceptBytes new refTelegram).map (fun r => radio_dBm r.2) = some (-255) := by
  decide

open EnoceanRpsButtonHandler

/-- C11 (counterexample): the packet completed from the reference telegram has
status `0x30`, in which the NU bit `0x10` is not clear; `rps_action(0)` is
`rpsa_offOrUp | rpsa_pressed`, whereas the U-message branch yields `rpsa_none`
for this telegram. -/
theorem reference_vector_NU_not_clear :
    Esp3Packet.acceptBytes Esp3Packet.new refTelegram = some (21, refPacket) ∧
    radio_status refPacket = 0x30 ∧
    ¬ (radio_status refPacket &&& STATUS_NU = 0) ∧
    rps_action refPacket 0 = rpsa_offOrUp ||| rpsa_pressed ∧
    rpsUMessageAction refPacket 0x30 0x30 0 = rpsa_none := by
  refine ⟨?_, ?_, ?_, ?_, ?_⟩ <;> decide

/-- C11 (amended): for the packet completed from the reference telegram (status
byte `0x30`), `rps_numRockers() = 2` because T21 (`0x20`) is set, and the NU bit
(`0x10`) is set, so that `rps_action` and the rocker handler (any handler `h`)
decode the telegram on the N-message branch. -/
theorem reference_vector_is_N_message (h : EnoceanRpsButtonHandler) :
    Esp3Packet.acceptBytes Esp3Packet.new refTelegram = some (21, refPacket) ∧
    radio_status refPacket = 0x30 ∧
    radio_status refPacket &&& STATUS_T21 = 0x20 ∧ rps_numRockers refPacket = 2 ∧
    radio_status refPacket &&& STATUS_NU = 0x10 ∧
    rps_action refPacket 0 = rpsNMessageAction 0x30 0 ||| rpsa_pressed ∧
    rps_action refPacket 0 = rpsa_offOrUp ||| rpsa_pressed ∧
    rps_action refPacket 1 = rpsa_none ∧
    handleRadioPacket h refPacket = some (handleNMessage h 0x30) := by
  refine ⟨by decide, by decide, by decide, by decide, by decide, by decide, by decide,
    by decide, ?_⟩
  have hd : radio_userData refPacket = some [0x30, 0x00, 0x86, 0xB8, 0x1A, 0x30, 0x03, 0xFF,
      0xFF, 0xFF, 0xFF, 0xFF, 0x00, 0xC0] := by decide
  have hs : radio_status refPacket = 0x30 := by decide
  unfold handleRadioPacket handleTelegram
  rw [hd, hs]
  simp only [List.getD_cons_zero]
  rw [if_pos (by decide)]

/-- C12: a complete packet `p1` given any buffer: `acceptBytes` returns 0 and
leaves the packet (state, header, payload) as it is; a packet `p2` that is not
complete given a non-empty buffer: `acceptBytes` returns at least 1. -/
theorem acceptBytes_complete_refuses (p1 p2 : Esp3Packet) (bytes1 bytes2 : List Nat)
    (h1 : isComplete p1 = true) (h2 : isComplete p2 = false) (hne : bytes2 ≠ []) :
    Esp3Packet.acceptBytes p1 bytes1 = some (0, p1) ∧
    ∃ n q, Esp3Packet.acceptBytes p2 bytes2 = some (n, q) ∧ 1 ≤ n := by
  have hs1 : p1.state = PacketState.ps_complete := by simpa [isComplete] using h1
  have hs2 : p2.state ≠ PacketState.ps_complete := by simpa [isComplete] using h2
  refine ⟨by rw [acceptBytes_eq_run, if_pos hs1], ?_⟩
  rw [acceptBytes_eq_run, if_neg hs2]
  cases bytes2 with
  | nil => exact absurd rfl hne
  | cons b rest => exact ⟨_, _, rfl, run_fst_pos p2 b rest⟩

/-- Witness for C12: the reference packet, and a new packet. -/
theorem acceptBytes_complete_refuses_witness :
    (isComplete refPacket = true ∧ isComplete Esp3Packet.new = false ∧ [0x55, 0x00] ≠ []) ∧
    (Esp3Packet.acceptBytes refPacket [0x55, 0x01] = some (0, refPacket) ∧
      ∃ n q, Esp3Packet.acceptBytes Esp3Packet.new [0x55, 0x00] = some (n, q) ∧ 1 ≤ n) :=
  ⟨⟨by decide, by decide, by decide⟩,
   acceptBytes_complete_refuses refPacket Esp3Packet.new [0x55, 0x01] [0x55, 0x00]
     (by decide) (by decide) (by decide)⟩

/-- C13 (counterexample): the radio telegram `F6 00 86 B8 1A 30` (six data bytes,
no user data) completes; `radio_userDataLength()` is 0, the four payload bytes
at offsets 1..4 are `00 86 B8 1A`, yet `radio_sender()` returns 0. -/
theorem radio_sender_no_user_data_counterexample :
    Esp3Packet.acceptBytes Esp3Packet.new (esp3Frame 1 [0xF6, 0x00, 0x86, 0xB8, 0x1A, 0x30] []) =
      some (13, noUserDataPacket) ∧
    isComplete noUserDataPacket = true ∧ packetType noUserDataPacket = pt_radio ∧
    dataLength noUserDataPacket = 6 ∧ radio_userDataLength noUserDataPacket = 0 ∧
    noUserDataPacket.payloadP = some [0xF6, 0x00, 0x86, 0xB8, 0x1A, 0x30, 0x72] ∧
    0x00 * 2 ^ 24 + 0x86 * 2 ^ 16 + 0xB8 * 2 ^ 8 + 0x1A = 0x0086B81A ∧
    radio_sender noUserDataPacket = 0 := by
  refine ⟨?_, ?_, ?_, ?_, ?_, ?_, ?_, ?_⟩ <;> decide

/-- C13 (amended): for a completed packet of type radio with
`dataLength >= 7` (`>= 8` when RORG is VLD), `radio_sender()` is the big-endian
value of the four payload bytes at offsets `1+L .. 4+L`, where
`L = radio_userDataLength() >= 1`; and whenever `L = 0`, `radio_sender()`
returns 0. -/
theorem radio_sender_after_user_data (q : Esp3Packet) (hq : Completed q)
    (ht : packetType q = pt_radio) (hlen : 7 ≤ dataLength q)
    (hvld : radio_rorg q = rorg_VLD → 8 ≤ dataLength q) :
    (∃ buf, q.payloadP = some buf ∧ 1 ≤ radio_userDataLength q ∧
      radio_sender q =
        buf.getD (1 + radio_userDataLength q) 0 * 2 ^ 24 +
        buf.getD (2 + radio_userDataLength q) 0 * 2 ^ 16 +
        buf.getD (3 + radio_userDataLength q) 0 * 2 ^ 8 +
        buf.getD (4 + radio_userDataLength q) 0) ∧
    ∀ p : Esp3Packet, radio_userDataLength p = 0 → radio_sender p = 0 := by
  constructor
  · obtain ⟨buf, hpp, _, _, _, _, _, hsender⟩ := hq.accessors
    have hL : 1 ≤ radio_userDataLength q := by
      rw [radio_userDataLength_eq, if_neg (by simp [ht])]
      split_ifs with hv
      · have := hvld hv; omega
      · omega
    refine ⟨buf, hpp, hL, ?_⟩
    rw [hsender, if_pos (by omega)]
  · intro p hp
    simp [radio_sender, hp]

/-- Witness for C13 (amended): the reference packet. -/
theorem radio_sender_after_user_data_witness :
    (Completed refPacket ∧ packetType refPacket = pt_radio ∧ 7 ≤ dataLength refPacket ∧
      (radio_rorg refPacket = rorg_VLD → 8 ≤ dataLength refPacket)) ∧
    ((∃ buf, refPacket.payloadP = some buf ∧ 1 ≤ radio_userDataLength refPacket ∧
      radio_sender refPacket =
        buf.getD (1 + radio_userDataLength refPacket) 0 * 2 ^ 24 +
        buf.getD (2 + radio_userDataLength refPacket) 0 * 2 ^ 16 +
        buf.getD (3 + radio_userDataLength refPacket) 0 * 2 ^ 8 +
        buf.getD (4 + radio_userDataLength refPacket) 0) ∧
    ∀ p : Esp3Packet, radio_userDataLength p = 0 → radio_sender p = 0) :=
  ⟨⟨refPacket_completed, by decide, by decide, by decide⟩,
   radio_sender_after_user_data refPacket refPacket_completed (by decide) (by decide)
     (by decide)⟩

/-- C14 (counterexample): the radio telegram `00 07` completes with
`dataLength = 2` and a RORG byte other than VLD; the payload byte at offset
`dataLength-1` is `0x07`, yet `radio_status()` returns 0.  The radio telegram
`D2` completes with `dataLength = 1` and RORG VLD; `dataLength-2` is negative
and `radio_status()` returns 0. -/
theorem radio_status_offset_counterexample :
    (Esp3Packet.acceptBytes Esp3Packet.new (esp3Frame 1 [0x00, 0x07] []) =
        some (9, zeroRorgPacket) ∧
      isComplete zeroRorgPacket = true ∧ packetType zeroRorgPacket = pt_radio ∧
      dataLength zeroRorgPacket = 2 ∧
      zeroRorgPacket.payloadP = some [0x00, 0x07, 0x15] ∧
      ([0x00, 0x07, 0x15] : List Nat).getD 0 0 ≠ rorg_VLD ∧
      ([0x00, 0x07, 0x15] : List Nat).getD (dataLength zeroRorgPacket - 1) 0 = 0x07 ∧
      radio_status zeroRorgPacket = 0) ∧
    (Esp3Packet.acceptBytes Esp3Packet.new (esp3Frame 1 [0xD2] []) = some (8, vldOnlyPacket) ∧
      isComplete vldOnlyPacket = true ∧ packetType vldOnlyPacket = pt_radio ∧
      dataLength vldOnlyPacket = 1 ∧
      vldOnlyPacket.payloadP = some [0xD2, 0x30] ∧
      ([0xD2, 0x30] : List Nat).getD 0 0 = rorg_VLD ∧
      ((dataLength vldOnlyPacket : Nat) : Int) - 2 < 0 ∧
      radio_status vldOnlyPacket = 0) := by
  refine ⟨⟨?_, ?_, ?_, ?_, ?_, ?_, ?_, ?_⟩, ⟨?_, ?_, ?_, ?_, ?_, ?_, ?_, ?_⟩⟩ <;> decide

/-- C14 (amended): for a completed packet of type radio with `dataLength >= 1`:
when payload byte 0 (RORG) is neither 0 nor VLD, `radio_status()` is the payload
byte at offset `dataLength-1`; when it is VLD, `radio_status()` is the payload
byte at offset `dataLength-2` if `dataLength >= 2` and 0 if `dataLength = 1`;
when it is 0 (the pseudo-RORG `rorg_invalid`), `radio_status()` is 0. -/
theorem radio_status_offset (q : Esp3Packet) (hq : Completed q)
    (ht : packetType q = pt_radio) (hlen : 1 ≤ dataLength q) :
    ∃ buf, q.payloadP = some buf ∧
      (buf.getD 0 0 ≠ 0 → buf.getD 0 0 ≠ rorg_VLD →
        radio_status q = buf.getD (dataLength q - 1) 0) ∧
      (buf.getD 0 0 = rorg_VLD → 2 ≤ dataLength q →
        radio_status q = buf.getD (dataLength q - 2) 0) ∧
      (buf.getD 0 0 = rorg_VLD → dataLength q = 1 → radio_status q = 0) ∧
      (buf.getD 0 0 = 0 → radio_status q = 0) := by
  obtain ⟨buf, hpp, _, _, _, hrorg, _, _⟩ := hq.accessors
  obtain ⟨_, _, _, hdata, _, _, _⟩ := hq.facts
  rw [if_neg (by simp [ht]), if_neg (by omega)] at hrorg
  have hst : radio_status q =
      (let statusoffset : Int :=
        if buf.getD 0 0 ≠ rorg_invalid then
          if buf.getD 0 0 = rorg_VLD then (dataLength q : Int) - 1 - 1 else (dataLength q : Int) - 1
        else 0
      if statusoffset < 0 then 0 else buf.getD statusoffset.toNat 0) := by
    simp only [radio_status, hrorg, hdata, hpp, Option.getD_some]
  refine ⟨buf, hpp, ?_, ?_, ?_, ?_⟩
  · intro h0 hv
    rw [hst]
    simp only [rorg_invalid, ne_eq, h0, not_false_eq_true, if_true, hv, if_false]
    rw [if_neg (by omega)]
    congr 1
    omega
  · intro hv h2
    rw [hst]
    have h0 : buf.getD 0 0 ≠ rorg_invalid := by rw [hv]; decide
    simp only [h0, ne_eq, not_false_eq_true, if_true, hv]
    rw [if_neg (by omega)]
    congr 1
    omega
  · intro hv h1
    rw [hst]
    have h0 : buf.getD 0 0 ≠ rorg_invalid := by rw [hv]; decide
    simp only [h0, ne_eq, not_false_eq_true, if_true, hv, h1]
    rfl
  · intro h0
    rw [hst]
    have h1 : ¬ (buf.getD 0 0 ≠ rorg_invalid) := by rw [h0]; decide
    simp only [h1, if_false]
    exact h0

/-- Witness for C14 (amended): the reference packet. -/
theorem radio_status_offset_witness :
    (Completed refPacket ∧ packetType refPacket = pt_radio ∧ 1 ≤ dataLength refPacket) ∧
    ∃ buf, refPacket.payloadP = some buf ∧
      (buf.getD 0 0 ≠ 0 → buf.getD 0 0 ≠ rorg_VLD →
        radio_status refPacket = buf.getD (dataLength refPacket - 1) 0) ∧
      (buf.getD 0 0 = rorg_VLD → 2 ≤ dataLength refPacket →
        radio_status refPacket = buf.getD (dataLength refPacket - 2) 0) ∧
      (buf.getD 0 0 = rorg_VLD → dataLength refPacket = 1 → radio_status refPacket = 0) ∧
      (buf.getD 0 0 = 0 → radio_status refPacket = 0) :=
  ⟨⟨refPacket_completed, by decide, by decide⟩,
   radio_status_offset refPacket refPacket_completed (by decide) (by decide)⟩

/-- C15: for a completed packet, `radio_userDataLength()` is
`max(0, dataLength - 6 - (1 if RORG is VLD else 0))` when the packet type is
radio (RORG being payload byte 0 as soon as there is a data byte), and 0 when it
is not radio; it is never negative and never exceeds `dataLength`. -/
theorem radio_userDataLength_formula (q : Esp3Packet) (hq : Completed q) :
    (packetType q = pt_radio →
      ((radio_userDataLength q : Nat) : Int) =
        max 0 ((dataLength q : Int) - 6 - (if radio_rorg q = rorg_VLD then 1 else 0))) ∧
    (packetType q = pt_radio → 1 ≤ dataLength q →
      ∃ buf, q.payloadP = some buf ∧ radio_rorg q = buf.getD 0 0) ∧
    (packetType q ≠ pt_radio → radio_userDataLength q = 0) ∧
    (0 : Int) ≤ ((radio_userDataLength q : Nat) : Int) ∧
    radio_userDataLength q ≤ dataLength q := by
  refine ⟨?_, ?_, ?_, Int.natCast_nonneg _, ?_⟩
  · intro ht
    rw [radio_userDataLength_eq, if_neg (by simp [ht])]
    split_ifs <;> omega
  · intro ht hlen
    obtain ⟨buf, hpp, _, _, _, hrorg, _, _⟩ := hq.accessors
    rw [if_neg (by simp [ht]), if_neg (by omega)] at hrorg
    exact ⟨buf, hpp, hrorg⟩
  · intro ht
    rw [radio_userDataLength_eq, if_pos ht]
  · rw [radio_userDataLength_eq]
    split_ifs <;> omega

/-- Witness for C15: the reference packet. -/
theorem radio_userDataLength_formula_witness :
    Completed refPacket ∧
    ((packetType refPacket = pt_radio →
      ((radio_userDataLength refPacket : Nat) : Int) =
        max 0 ((dataLength refPacket : Int) - 6 -
          (if radio_rorg refPacket = rorg_VLD then 1 else 0))) ∧
    (packetType refPacket = pt_radio → 1 ≤ dataLength refPacket →
      ∃ buf, refPacket.payloadP = some buf ∧ radio_rorg refPacket = buf.getD 0 0) ∧
    (packetType refPacket ≠ pt_radio → radio_userDataLength refPacket = 0) ∧
    (0 : Int) ≤ ((radio_userDataLength refPacket : Nat) : Int) ∧
    radio_userDataLength refPacket ≤ dataLength refPacket) :=
  ⟨refPacket_completed, radio_userDataLength_formula refPacket refPacket_completed⟩

/-- C16: for a completed packet, with `o` the payload from offset `dataLength`
on: when `optDataLength >= 7`, `radio_subtelegrams() = o[0]`,
`radio_destination() = o[1]*2^24 + o[2]*2^16 + o[3]*2^8 + o[4]` (below `2^32`)
and `radio_security_level() = o[6]`; when `optDataLength < 7`,
`radio_subtelegrams`, `radio_destination`, `radio_dBm` and
`radio_security_level` all return 0. -/
theorem radio_optional_fields (q : Esp3Packet) (hq : Completed q) :
    (7 ≤ optDataLength q →
      ∃ buf, q.payloadP = some buf ∧
        radio_subtelegrams q = (buf.drop (dataLength q)).getD 0 0 ∧
        radio_destination q =
          (buf.drop (dataLength q)).getD 1 0 * 2 ^ 24 +
          (buf.drop (dataLength q)).getD 2 0 * 2 ^ 16 +
          (buf.drop (dataLength q)).getD 3 0 * 2 ^ 8 +
          (buf.drop (dataLength q)).getD 4 0 ∧
        radio_destination q < 2 ^ 32 ∧
        radio_security_level q = (buf.drop (dataLength q)).getD 6 0) ∧
    (optDataLength q < 7 →
      radio_subtelegrams q = 0 ∧ radio_destination q = 0 ∧ radio_dBm q = 0 ∧
        radio_security_level q = 0) := by
  obtain ⟨buf, hpp, _, hget, hopt, _, _, _⟩ := hq.accessors
  constructor
  · intro h7
    have hn : ¬ optDataLength q < 7 := by omega
    have hb := be32_lt _ _ _ _ (hget (dataLength q + 1)) (hget (dataLength q + 2))
      (hget (dataLength q + 3)) (hget (dataLength q + 4))
    refine ⟨buf, hpp, ?_, ?_, ?_, ?_⟩
    · simp only [radio_subtelegrams, hopt, hn, if_false]
    · simp only [radio_destination, hopt, hn, if_false, getD_drop]
      exact hb.1
    · simp only [radio_destination, hopt, hn, if_false, getD_drop]
      rw [hb.1]
      exact hb.2
    · simp only [radio_security_level, hopt, hn, if_false]
  · intro h7
    simp only [radio_subtelegrams, radio_destination, radio_dBm, radio_security_level, hopt, h7,
      if_true, and_self]

/-- Witness for C16: the reference packet. -/
theorem radio_optional_fields_witness :
    Completed refPacket ∧
    ((7 ≤ optDataLength refPacket →
      ∃ buf, refPacket.payloadP = some buf ∧
        radio_subtelegrams refPacket = (buf.drop (dataLength refPacket)).getD 0 0 ∧
        radio_destination refPacket =
          (buf.drop (dataLength refPacket)).getD 1 0 * 2 ^ 24 +
          (buf.drop (dataLength refPacket)).getD 2 0 * 2 ^ 16 +
          (buf.drop (dataLength refPacket)).getD 3 0 * 2 ^ 8 +
          (buf.drop (dataLength refPacket)).getD 4 0 ∧
        radio_destination refPacket < 2 ^ 32 ∧
        radio_security_level refPacket = (buf.drop (dataLength refPacket)).getD 6 0) ∧
    (optDataLength refPacket < 7 →
      radio_subtelegrams refPacket = 0 ∧ radio_destination refPacket = 0 ∧
        radio_dBm refPacket = 0 ∧ radio_security_level refPacket = 0)) :=
  ⟨refPacket_completed, radio_optional_fields refPacket refPacket_completed⟩

/-- C17: for a completed packet, `radio_dBm()` is minus optional-data byte 5 when
`optDataLength >= 7` and 0 otherwise; it always lies in `-255 .. 0`. -/
theorem radio_dBm_range (q : Esp3Packet) (hq : Completed q) :
    (7 ≤ optDataLength q →
      ∃ buf, q.payloadP = some buf ∧
        radio_dBm q = -(((buf.drop (dataLength q)).getD 5 0 : Nat) : Int)) ∧
    (optDataLength q < 7 → radio_dBm q = 0) ∧
    -255 ≤ radio_dBm q ∧ radio_dBm q ≤ 0 := by
  obtain ⟨buf, hpp, _, hget, hopt, _, _, _⟩ := hq.accessors
  have hval : radio_dBm q =
      if optDataLength q < 7 then 0 else -(((buf.drop (dataLength q)).getD 5 0 : Nat) : Int) := by
    simp only [radio_dBm, hopt]
  have hb : (buf.drop (dataLength q)).getD 5 0 < 256 := by
    rw [getD_drop]; exact hget _
  refine ⟨?_, ?_, ?_, ?_⟩
  · intro h7
    exact ⟨buf, hpp, by rw [hval, if_neg (by omega)]⟩
  · intro h7
    rw [hval, if_pos h7]
  · rw [hval]; split_ifs <;> omega
  · rw [hval]; split_ifs <;> omega

/-- Witness for C17: the reference packet. -/
theorem radio_dBm_range_witness :
    Completed refPacket ∧
    ((7 ≤ optDataLength refPacket →
      ∃ buf, refPacket.payloadP = some buf ∧
        radio_dBm refPacket = -(((buf.drop (dataLength refPacket)).getD 5 0 : Nat) : Int)) ∧
    (optDataLength refPacket < 7 → radio_dBm refPacket = 0) ∧
    -255 ≤ radio_dBm refPacket ∧ radio_dBm refPacket ≤ 0) :=
  ⟨refPacket_completed, radio_dBm_range refPacket refPacket_completed⟩

/-- C18: rocker N-message decoding.  For a rocker button handler `h` bound to a
button behaviour, a status with the NU bit `0x10` set and a user-data byte `d`,
with `a1 = (d>>5)&7` and, present only if `d&1 = 1`, `a2 = (d>>1)&7`: if a
present action addresses the handler's channel (`(a>>1)&3 = switchIndex` and
`((a&1) != 0) = isRockerUp`), the state becomes `(d & 0x10) != 0` and
`buttonAction` with that value is forwarded exactly when it differs from the
cached state; otherwise the handler is unchanged and nothing is forwarded. -/
theorem rocker_N_message (h : EnoceanRpsButtonHandler) (d status : Nat)
    (hNU : status &&& 0x10 ≠ 0) (hb : h.behaviour = true) :
    ((Addresses h ((d >>> 5) &&& 7) ∨ (d &&& 1 = 1 ∧ Addresses h ((d >>> 1) &&& 7))) →
      handleTelegram h d status =
        { h with pressed := decide (d &&& 0x10 ≠ 0),
                 buttonActions := h.buttonActions ++
                   (if decide (d &&& 0x10 ≠ 0) ≠ h.pressed then [decide (d &&& 0x10 ≠ 0)]
                    else []) }) ∧
    (¬ (Addresses h ((d >>> 5) &&& 7) ∨ (d &&& 1 = 1 ∧ Addresses h ((d >>> 1) &&& 7))) →
      handleTelegram h d status = h) := by
  have hval : handleTelegram h d status = handleNMessage h d := by
    unfold handleTelegram
    rw [if_pos (by simpa [status_NU] using hNU)]
  rw [hval, handleNMessage_eq h hb d]
  constructor
  · intro hc
    rw [if_pos hc]
    rfl
  · intro hc
    rw [if_neg hc]

/-- Witness for C18: the up-key handler of rocker 0, released, receives data
`0x30` with status `0x30`. -/
theorem rocker_N_message_witness :
    ((0x30 : Nat) &&& 0x10 ≠ 0 ∧
      (⟨0, true, false, true, []⟩ : EnoceanRpsButtonHandler).behaviour = true ∧
      Addresses ⟨0, true, false, true, []⟩ ((0x30 >>> 5) &&& 7)) ∧
    handleTelegram ⟨0, true, false, true, []⟩ 0x30 0x30 = ⟨0, true, true, true, [true]⟩ :=
  ⟨⟨by decide, rfl, by decide⟩,
   ((rocker_N_message ⟨0, true, false, true, []⟩ 0x30 0x30 (by decide) rfl).1
      (Or.inl (by decide))).trans (by decide)⟩

/-- C19: rocker U-message decoding.  For a rocker button handler `h` bound to a
button behaviour, a status with the NU bit `0x10` clear and a user-data byte
`d`: if `(d>>5)&7 = 0` and `d & 0x10 = 0` the state becomes released and
`buttonAction(false)` is forwarded if it was pressed; in every other case the
handler is unchanged and nothing is forwarded.  So a U-message never turns the
state to pressed and forwards at most one `buttonAction(false)`. -/
theorem rocker_U_message (h : EnoceanRpsButtonHandler) (d status : Nat)
    (hNU : status &&& 0x10 = 0) (hb : h.behaviour = true) :
    (((d >>> 5) &&& 7 = 0 ∧ d &&& 0x10 = 0) →
      handleTelegram h d status =
        { h with pressed := false,
                 buttonActions := h.buttonActions ++ (if h.pressed then [false] else []) }) ∧
    (¬ ((d >>> 5) &&& 7 = 0 ∧ d &&& 0x10 = 0) → handleTelegram h d status = h) ∧
    ((handleTelegram h d status).pressed = true → h.pressed = true) ∧
    ((handleTelegram h d status).buttonActions = h.buttonActions ∨
      (handleTelegram h d status).buttonActions = h.buttonActions ++ [false]) := by
  have hval : handleTelegram h d status = handleUMessage h d := by
    unfold handleTelegram
    rw [if_neg (by simpa [status_NU] using hNU)]
  rw [hval, handleUMessage_eq h hb d]
  obtain ⟨si, up, pr, bh, log⟩ := h
  refine ⟨?_, ?_, ?_, ?_⟩
  · intro hc
    rw [if_pos hc]
    cases pr <;> simp [withState]
  · intro hc
    rw [if_neg hc]
  · split_ifs
    · simp [withState]
    · exact id
  · split_ifs
    · cases pr <;> simp [withState]
    · exact Or.inl rfl

/-- Witness for C19: the down-key handler of rocker 1, pressed, receives data
`0x00` with status `0x20`. -/
theorem rocker_U_message_witness :
    ((0x20 : Nat) &&& 0x10 = 0 ∧
      (⟨1, false, true, true, [true]⟩ : EnoceanRpsButtonHandler).behaviour = true) ∧
    ((((0x00 >>> 5) &&& 7 = 0 ∧ 0x00 &&& 0x10 = 0) →
      handleTelegram ⟨1, false, true, true, [true]⟩ 0x00 0x20 =
        { (⟨1, false, true, true, [true]⟩ : EnoceanRpsButtonHandler) with
          pressed := false,
          buttonActions := (⟨1, false, true, true, [true]⟩ : EnoceanRpsButtonHandler).buttonActions ++
            (if (⟨1, false, true, true, [true]⟩ : EnoceanRpsButtonHandler).pressed then [false]
             else []) }) ∧
    (¬ ((0x00 >>> 5) &&& 7 = 0 ∧ 0x00 &&& 0x10 = 0) →
      handleTelegram ⟨1, false, true, true, [true]⟩ 0x00 0x20 = ⟨1, false, true, true, [true]⟩) ∧
    ((handleTelegram ⟨1, false, true, true, [true]⟩ 0x00 0x20).pressed = true →
      (⟨1, false, true, true, [true]⟩ : EnoceanRpsButtonHandler).pressed = true) ∧
    ((handleTelegram ⟨1, false, true, true, [true]⟩ 0x00 0x20).buttonActions =
        (⟨1, false, true, true, [true]⟩ : EnoceanRpsButtonHandler).buttonActions ∨
      (handleTelegram ⟨1, false, true, true, [true]⟩ 0x00 0x20).buttonActions =
        (⟨1, false, true, true, [true]⟩ : EnoceanRpsButtonHandler).buttonActions ++ [false])) :=
  ⟨⟨by decide, rfl⟩, rocker_U_message ⟨1, false, true, true, [true]⟩ 0x00 0x20 (by decide) rfl⟩

/-- C20: U-message rocker-count table.  For a completed RPS radio packet with the
NU bit clear and a user-data byte `d` (payload byte 1), and a button index
`i < rps_numRockers()`: `rps_action(i)` has the bit `rpsa_multiple` (0x04) iff
`i` is below the number of affected rockers of the table (T21 set: 2 if
`b = 0` or `b = 3`, else 0; T21 clear: 4 if `b = 0`, else `(b+1)>>1`, with
`b = (d>>5)&7`); a non-zero result carries `rpsa_pressed` (0x10) and not
`rpsa_released` when `d & 0x10` is set, and `rpsa_released` (0x20) and not
`rpsa_pressed` otherwise. -/
theorem rps_action_U_message_table (q : Esp3Packet) (hq : Completed q) (i : Nat)
    (hrorg : radio_rorg q = rorg_RPS) (hNU : radio_status q &&& STATUS_NU = 0)
    (hi : i < rps_numRockers q) (hud : 1 ≤ radio_userDataLength q) :
    ∃ buf, q.payloadP = some buf ∧
      (rps_action q i &&& rpsa_multiple ≠ 0 ↔
        i < uMessageAffected (radio_status q) (buf.getD 1 0)) ∧
      (rps_action q i ≠ 0 → buf.getD 1 0 &&& 0x10 ≠ 0 →
        rps_action q i &&& rpsa_pressed ≠ 0 ∧ rps_action q i &&& rpsa_released = 0) ∧
      (rps_action q i ≠ 0 → buf.getD 1 0 &&& 0x10 = 0 →
        rps_action q i &&& rpsa_released ≠ 0 ∧ rps_action q i &&& rpsa_pressed = 0) ∧
      rps_action q i =
        (if i < uMessageAffected (radio_status q) (buf.getD 1 0) then
          rpsa_multiple ||| (if buf.getD 1 0 &&& 0x10 ≠ 0 then rpsa_pressed else rpsa_released)
        else rpsa_none) := by
  obtain ⟨buf, hpp, hval⟩ := rps_action_U_value q hq i hrorg hNU hi hud
  have hval2 : rps_action q i =
      (if i < uMessageAffected (radio_status q) (buf.getD 1 0) then
          rpsa_multiple ||| (if buf.getD 1 0 &&& 0x10 ≠ 0 then rpsa_pressed else rpsa_released)
        else rpsa_none) := hval
  refine ⟨buf, hpp, ?_, ?_, ?_, hval2⟩
  · rw [hval2]
    by_cases ha : i < uMessageAffected (radio_status q) (buf.getD 1 0)
    · simp only [ha, if_true, iff_true]
      split_ifs <;> decide
    · simp only [ha, if_false, iff_false]
      decide
  · intro hz hp
    rw [hval2] at hz ⊢
    by_cases ha : i < uMessageAffected (radio_status q) (buf.getD 1 0)
    · simp only [ha, if_true, hp, ne_eq, not_false_eq_true]
      decide
    · simp only [ha, if_false] at hz
      exact absurd rfl hz
  · intro hz hp
    rw [hval2] at hz ⊢
    by_cases ha : i < uMessageAffected (radio_status q) (buf.getD 1 0)
    · simp only [ha, if_true, hp, ne_eq, not_true_eq_false, if_false]
      decide
    · simp only [ha, if_false] at hz
      exact absurd rfl hz

/-- Witness for C20: the RPS telegram with data `0x10` and status `0x20`, button
index 1. -/
theorem rps_action_U_message_table_witness :
    (Completed uMessagePacket ∧ radio_rorg uMessagePacket = rorg_RPS ∧
      radio_status uMessagePacket &&& STATUS_NU = 0 ∧ 1 < rps_numRockers uMessagePacket ∧
      1 ≤ radio_userDataLength uMessagePacket) ∧
    ∃ buf, uMessagePacket.payloadP = some buf ∧
      (rps_action uMessagePacket 1 &&& rpsa_multiple ≠ 0 ↔
        1 < uMessageAffected (radio_status uMessagePacket) (buf.getD 1 0)) ∧
      (rps_action uMessagePacket 1 ≠ 0 → buf.getD 1 0 &&& 0x10 ≠ 0 →
        rps_action uMessagePacket 1 &&& rpsa_pressed ≠ 0 ∧
          rps_action uMessagePacket 1 &&& rpsa_released = 0) ∧
      (rps_action uMessagePacket 1 ≠ 0 → buf.getD 1 0 &&& 0x10 = 0 →
        rps_action uMessagePacket 1 &&& rpsa_released ≠ 0 ∧
          rps_action uMessagePacket 1 &&& rpsa_pressed = 0) ∧
      rps_action uMessagePacket 1 =
        (if 1 < uMessageAffected (radio_status uMessagePacket) (buf.getD 1 0) then
          rpsa_multiple ||| (if buf.getD 1 0 &&& 0x10 ≠ 0 then rpsa_pressed else rpsa_released)
        else rpsa_none) :=
  ⟨⟨uMessagePacket_completed, by decide, by decide, by decide, by decide⟩,
   rps_action_U_message_table uMessagePacket uMessagePacket_completed 1 (by decide) (by decide)
     (by decide) (by decide)⟩

/-- C21: rocker count and out-of-range action.  For every packet (completed or
not), `rps_numRockers()` is 0 when `radio_rorg()` is not RPS (`0xF6`); for an
RPS telegram it is 2 if `radio_status() & 0x20` is non-zero and 4 if it is zero;
and `rps_action(i)` is `rpsa_none` (0) for every `i >= rps_numRockers()`. -/
theorem rps_numRockers_and_range (q : Esp3Packet) :
    (radio_rorg q ≠ 0xF6 → rps_numRockers q = 0) ∧
    (radio_rorg q = 0xF6 → radio_status q &&& 0x20 ≠ 0 → rps_numRockers q = 2) ∧
    (radio_rorg q = 0xF6 → radio_status q &&& 0x20 = 0 → rps_numRockers q = 4) ∧
    (∀ i, rps_numRockers q ≤ i → rps_action q i = rpsa_none) ∧
    rpsa_none = 0 := by
  refine ⟨?_, ?_, ?_, ?_, rfl⟩
  · intro h
    unfold rps_numRockers
    rw [if_pos (by simpa [rorg_RPS] using h)]
  · intro h hs
    rw [rps_numRockers_of_RPS q (by simpa [rorg_RPS] using h),
      if_pos (by simpa [STATUS_T21] using hs)]
  · intro h hs
    rw [rps_numRockers_of_RPS q (by simpa [rorg_RPS] using h),
      if_neg (by simpa [STATUS_T21] using hs)]
  · intro i hi
    unfold rps_action
    rw [if_neg (by omega)]

/-- Witness for C21: the reference packet is an RPS telegram with status `0x30`,
so it has 2 rockers and no action for button index 2; a telegram that is the
RORG byte VLD alone has no rockers. -/
theorem rps_numRockers_and_range_witness :
    (radio_rorg refPacket = 0xF6 ∧ radio_status refPacket &&& 0x20 ≠ 0 ∧
      rps_numRockers refPacket ≤ 2 ∧ radio_rorg vldOnlyPacket ≠ 0xF6) ∧
    rps_numRockers refPacket = 2 ∧ rps_action refPacket 2 = rpsa_none ∧
    rps_numRockers vldOnlyPacket = 0 :=
  ⟨⟨by decide, by decide, by decide, by decide⟩,
   (rps_numRockers_and_range refPacket).2.1 (by decide) (by decide),
   (rps_numRockers_and_range refPacket).2.2.2.1 2 (by decide),
   (rps_numRockers_and_range vldOnlyPacket).1 (by decide)⟩

/-- C22: window handle decoding.  For a window-handle handler `h` bound to a
binary input behaviour, a status `s` and a user-data byte `d`: if
`(s & 0x10) = 0` and `(s & 0x20) != 0`, exactly one value is forwarded, which on
the open/closed channel (`isTiltedStatus = false`) is true iff
`(d & 0xF0) != 0xF0` and on the tilted channel (`isTiltedStatus = true`) is true
iff `(d & 0xF0) = 0xD0`; otherwise nothing is forwarded and the handler is
unchanged.  On a completed packet with at least one user-data byte,
`handleRadioPacket` applies this to that byte (payload byte 1) and the status of
the packet. -/
theorem window_handle_decoding (h : EnoceanRpsWindowHandleHandler) (hb : h.behaviour = true)
    (d s : Nat) :
    ((s &&& 0x10 = 0 ∧ s &&& 0x20 ≠ 0) →
      EnoceanRpsWindowHandleHandler.handleTelegram h d s =
        { h with inputStates := (h.inputStates ++
            [if h.isTiltedStatus then decide (d &&& 0xF0 = 0xD0)
             else decide (d &&& 0xF0 ≠ 0xF0)]) }) ∧
    (¬ (s &&& 0x10 = 0 ∧ s &&& 0x20 ≠ 0) →
      EnoceanRpsWindowHandleHandler.handleTelegram h d s = h) ∧
    (forwardedEvents h.inputStates
        (EnoceanRpsWindowHandleHandler.handleTelegram h d s).inputStates ≠ [] ↔
      (s &&& 0x10 = 0 ∧ s &&& 0x20 ≠ 0)) ∧
    (∀ q : Esp3Packet, Completed q → 1 ≤ radio_userDataLength q →
      ∃ buf, q.payloadP = some buf ∧
        EnoceanRpsWindowHandleHandler.handleRadioPacket h q =
          some (EnoceanRpsWindowHandleHandler.handleTelegram h (buf.getD 1 0)
            (radio_status q))) := by
  obtain ⟨t, b, log⟩ := h
  simp only at hb
  subst hb
  have hyes : (s &&& 0x10 = 0 ∧ s &&& 0x20 ≠ 0) →
      EnoceanRpsWindowHandleHandler.handleTelegram ⟨t, true, log⟩ d s =
        ⟨t, true, log ++ [if t then decide (d &&& 0xF0 = 0xD0)
             else decide (d &&& 0xF0 ≠ 0xF0)]⟩ := by
    intro hc
    unfold EnoceanRpsWindowHandleHandler.handleTelegram
    rw [if_pos (by simpa [status_NU, status_T21] using hc)]
    cases t <;> simp
  have hno : ¬ (s &&& 0x10 = 0 ∧ s &&& 0x20 ≠ 0) →
      EnoceanRpsWindowHandleHandler.handleTelegram ⟨t, true, log⟩ d s = ⟨t, true, log⟩ := by
    intro hc
    unfold EnoceanRpsWindowHandleHandler.handleTelegram
    rw [if_neg (by simpa [status_NU, status_T21] using hc)]
  refine ⟨hyes, hno, ?_, fun q hq hud =>
    windowHandle_handleRadioPacket_completed _ hq hud⟩
  by_cases hc : s &&& 0x10 = 0 ∧ s &&& 0x20 ≠ 0
  · rw [hyes hc]
    simp [forwardedEvents, hc]
  · rw [hno hc]
    simp [forwardedEvents, hc]

/-- Witness for C22: status `0x20` with data `0xD0` (handle turned up) on the
tilted channel. -/
theorem window_handle_decoding_witness :
    ((⟨true, true, []⟩ : EnoceanRpsWindowHandleHandler).behaviour = true ∧
      ((0x20 : Nat) &&& 0x10 = 0 ∧ (0x20 : Nat) &&& 0x20 ≠ 0)) ∧
    EnoceanRpsWindowHandleHandler.handleTelegram ⟨true, true, []⟩ 0xD0 0x20 =
      ⟨true, true, [true]⟩ :=
  ⟨⟨rfl, by decide⟩,
   ((window_handle_decoding ⟨true, true, []⟩ rfl 0xD0 0x20).1 (by decide)).trans (by decide)⟩

/-- C23: card-key decoding.  For a card-key handler `h` bound to a binary input
behaviour, a status `s` and a user-data byte `d`, exactly one value is
forwarded per telegram: `(d & 0x04) != 0` when the device profile is exactly
`0xF60402`, and `(s & 0x10) != 0 and d = 0x70` for every other profile.
On a completed packet with at least one user-data byte, `handleRadioPacket`
applies this to that byte (payload byte 1) and the status of the packet. -/
theorem card_key_decoding (h : EnoceanRpsCardKeyHandler) (hb : h.behaviour = true)
    (d s : Nat) :
    (h.eeProfile = 0xF60402 →
      EnoceanRpsCardKeyHandler.handleTelegram h d s =
        { h with inputStates := (h.inputStates ++ [decide (d &&& 0x04 ≠ 0)]) }) ∧
    (h.eeProfile ≠ 0xF60402 →
      EnoceanRpsCardKeyHandler.handleTelegram h d s =
        { h with inputStates := (h.inputStates ++ [decide (s &&& 0x10 ≠ 0 ∧ d = 0x70)]) }) ∧
    (forwardedEvents h.inputStates
        (EnoceanRpsCardKeyHandler.handleTelegram h d s).inputStates).length = 1 ∧
    (∀ q : Esp3Packet, Completed q → 1 ≤ radio_userDataLength q →
      ∃ buf, q.payloadP = some buf ∧
        EnoceanRpsCardKeyHandler.handleRadioPacket h q =
          some (EnoceanRpsCardKeyHandler.handleTelegram h (buf.getD 1 0)
            (radio_status q))) := by
  obtain ⟨p, b, log⟩ := h
  simp only at hb
  subst hb
  refine ⟨?_, ?_, ?_, fun q hq hud =>
    cardKey_handleRadioPacket_completed _ hq hud⟩
  · intro hp
    simp only at hp
    simp [EnoceanRpsCardKeyHandler.handleTelegram, hp]
  · intro hp
    simp only at hp
    simp [EnoceanRpsCardKeyHandler.handleTelegram, hp, status_NU]
  · simp [EnoceanRpsCardKeyHandler.handleTelegram, forwardedEvents]

/-- Witness for C23: an ERP1 key card switch (profile `0xF60401`) receives data
`0x70` with status `0x30`. -/
theorem card_key_decoding_witness :
    ((⟨0xF60401, true, []⟩ : EnoceanRpsCardKeyHandler).behaviour = true ∧
      (⟨0xF60401, true, []⟩ : EnoceanRpsCardKeyHandler).eeProfile ≠ 0xF60402) ∧
    EnoceanRpsCardKeyHandler.handleTelegram ⟨0xF60401, true, []⟩ 0x70 0x30 =
      ⟨0xF60401, true, [true]⟩ :=
  ⟨⟨rfl, by decide⟩,
   ((card_key_decoding ⟨0xF60401, true, []⟩ rfl 0x70 0x30).2.1 (by decide)).trans (by decide)⟩

/-- C24: smoke detector decoding.  For a smoke detector handler `h` bound to a
binary input behaviour and a user-data byte `d`, exactly one value is
forwarded: on the alarm channel (`isBatteryStatus = false`) it is true iff
`(d & 0x30) = 0x10`, on the battery channel (`isBatteryStatus = true`) it is
true iff `(d & 0x30) = 0x30`.  On a completed packet with at least one
user-data byte, `handleRadioPacket` applies this to that byte (payload byte 1);
the status byte is not read: two such packets with the same user-data byte are
handled alike.  No data byte makes both channels report true. -/
theorem smoke_detector_decoding (h : EnoceanRpsSmokeDetectorHandler) (hb : h.behaviour = true)
    (d : Nat) :
    (h.isBatteryStatus = false →
      EnoceanRpsSmokeDetectorHandler.handleTelegram h d =
        some { h with inputStates := (h.inputStates ++ [decide (d &&& 0x30 = 0x10)]) }) ∧
    (h.isBatteryStatus = true →
      EnoceanRpsSmokeDetectorHandler.handleTelegram h d =
        some { h with inputStates := (h.inputStates ++ [decide (d &&& 0x30 = 0x30)]) }) ∧
    (∀ q : Esp3Packet, Completed q → 1 ≤ radio_userDataLength q →
      ∃ buf, q.payloadP = some buf ∧
        EnoceanRpsSmokeDetectorHandler.handleRadioPacket h q =
          EnoceanRpsSmokeDetectorHandler.handleTelegram h (buf.getD 1 0)) ∧
    (∀ (q1 q2 : Esp3Packet) (buf1 buf2 : List Nat), Completed q1 → Completed q2 →
      1 ≤ radio_userDataLength q1 → 1 ≤ radio_userDataLength q2 →
      q1.payloadP = some buf1 → q2.payloadP = some buf2 → buf1.getD 1 0 = buf2.getD 1 0 →
      EnoceanRpsSmokeDetectorHandler.handleRadioPacket h q1 =
        EnoceanRpsSmokeDetectorHandler.handleRadioPacket h q2) ∧
    ¬ (decide (d &&& 0x30 = 0x10) = true ∧ decide (d &&& 0x30 = 0x30) = true) := by
  refine ⟨?_, ?_, fun q hq hud =>
    smokeDetector_handleRadioPacket_completed h hq hud, ?_, ?_⟩
  · intro ht
    obtain ⟨t, b, log⟩ := h
    simp only at hb ht
    subst hb ht
    simp [EnoceanRpsSmokeDetectorHandler.handleTelegram,
      EnoceanRpsSmokeDetectorHandler.updateInputState]
  · intro ht
    obtain ⟨t, b, log⟩ := h
    simp only at hb ht
    subst hb ht
    simp [EnoceanRpsSmokeDetectorHandler.handleTelegram,
      EnoceanRpsSmokeDetectorHandler.updateInputState]
  · intro q1 q2 buf1 buf2 hq1 hq2 hu1 hu2 hp1 hp2 hd
    obtain ⟨b1, hb1, e1⟩ := smokeDetector_handleRadioPacket_completed h hq1 hu1
    obtain ⟨b2, hb2, e2⟩ := smokeDetector_handleRadioPacket_completed h hq2 hu2
    rw [hp1] at hb1
    rw [hp2] at hb2
    cases hb1
    cases hb2
    rw [e1, e2, hd]
  · rintro ⟨h1, h2⟩
    simp only [decide_eq_true_eq] at h1 h2
    omega

/-- Witness for C24: the alarm channel receives data `0x10` (alarm on); the
reference packet (data `0x30`) and the U-message packet (data `0x10`) have user
data. -/
theorem smoke_detector_decoding_witness :
    ((⟨false, true, []⟩ : EnoceanRpsSmokeDetectorHandler).behaviour = true ∧
      (⟨false, true, []⟩ : EnoceanRpsSmokeDetectorHandler).isBatteryStatus = false ∧
      Completed uMessagePacket ∧ 1 ≤ radio_userDataLength uMessagePacket) ∧
    EnoceanRpsSmokeDetectorHandler.handleTelegram ⟨false, true, []⟩ 0x10 =
      some ⟨false, true, [true]⟩ ∧
    (∃ buf, uMessagePacket.payloadP = some buf ∧
      EnoceanRpsSmokeDetectorHandler.handleRadioPacket ⟨false, true, []⟩ uMessagePacket =
        EnoceanRpsSmokeDetectorHandler.handleTelegram ⟨false, true, []⟩ (buf.getD 1 0)) :=
  ⟨⟨rfl, rfl, uMessagePacket_completed, by decide⟩,
   ((smoke_detector_decoding ⟨false, true, []⟩ rfl 0x10).1 rfl).trans (by decide),
   (smoke_detector_decoding ⟨false, true, []⟩ rfl 0x10).2.2.1 uMessagePacket
     uMessagePacket_completed (by decide)⟩

/-- C25 (counterexample): the up-key handler of rocker 0, released and bound to
a button behaviour, handles the completed reference packet (data `0x30`,
status `0x30`) twice: the first handling forwards `buttonAction(true)`, the
second forwards nothing. -/
theorem rocker_repeat_counterexample :
    Esp3Packet.Completed refPacket ∧
    EnoceanRpsButtonHandler.handleRadioPacket ⟨0, true, false, true, []⟩ refPacket =
      some ⟨0, true, true, true, [true]⟩ ∧
    forwardedEvents (⟨0, true, false, true, []⟩ : EnoceanRpsButtonHandler).buttonActions
      (⟨0, true, true, true, [true]⟩ : EnoceanRpsButtonHandler).buttonActions = [true] ∧
    EnoceanRpsButtonHandler.handleRadioPacket ⟨0, true, true, true, [true]⟩ refPacket =
      some ⟨0, true, true, true, [true]⟩ ∧
    forwardedEvents (⟨0, true, true, true, [true]⟩ : EnoceanRpsButtonHandler).buttonActions
      (⟨0, true, true, true, [true]⟩ : EnoceanRpsButtonHandler).buttonActions = [] :=
  ⟨refPacket_completed, by decide, by decide, by decide, by decide⟩

/-- C25 (amended): for every completed packet with at least one user-data byte
and every handler state, handling the same packet twice in succession forwards
identical events both times for the window handle, the card key and (bound to a
binary input behaviour) the smoke detector decoder.  The rocker button decoder
forwards only changes of its cached button state: its second handling forwards
nothing and leaves the handler as the first handling left it. -/
theorem decoder_repeat (q : Esp3Packet) (hq : Completed q)
    (hud : 1 ≤ radio_userDataLength q) :
    (∀ h : EnoceanRpsWindowHandleHandler, ∃ h1 h2,
      EnoceanRpsWindowHandleHandler.handleRadioPacket h q = some h1 ∧
      EnoceanRpsWindowHandleHandler.handleRadioPacket h1 q = some h2 ∧
      forwardedEvents h1.inputStates h2.inputStates =
        forwardedEvents h.inputStates h1.inputStates) ∧
    (∀ h : EnoceanRpsCardKeyHandler, ∃ h1 h2,
      EnoceanRpsCardKeyHandler.handleRadioPacket h q = some h1 ∧
      EnoceanRpsCardKeyHandler.handleRadioPacket h1 q = some h2 ∧
      forwardedEvents h1.inputStates h2.inputStates =
        forwardedEvents h.inputStates h1.inputStates) ∧
    (∀ h : EnoceanRpsSmokeDetectorHandler, h.behaviour = true → ∃ h1 h2,
      EnoceanRpsSmokeDetectorHandler.handleRadioPacket h q = some h1 ∧
      EnoceanRpsSmokeDetectorHandler.handleRadioPacket h1 q = some h2 ∧
      forwardedEvents h1.inputStates h2.inputStates =
        forwardedEvents h.inputStates h1.inputStates) ∧
    (∀ h : EnoceanRpsButtonHandler, ∃ h1,
      EnoceanRpsButtonHandler.handleRadioPacket h q = some h1 ∧
      EnoceanRpsButtonHandler.handleRadioPacket h1 q = some h1 ∧
      forwardedEvents h1.buttonActions h1.buttonActions = []) := by
  obtain ⟨buf, hpp, _, _⟩ := completed_userData hq hud
  refine ⟨?_, ?_, ?_, ?_⟩
  · intro h
    obtain ⟨e, he⟩ := windowHandle_cases h (buf.getD 1 0) (radio_status q)
    have e1 := he h.inputStates
    have e2 := he (h.inputStates ++ e)
    obtain ⟨b1, hb1, r1⟩ := windowHandle_handleRadioPacket_completed h hq hud
    obtain ⟨b2, hb2, r2⟩ := windowHandle_handleRadioPacket_completed
      { h with inputStates := h.inputStates ++ e } hq hud
    rw [hpp] at hb1 hb2
    cases hb1
    cases hb2
    simp only at e1 e2
    rw [e1] at r1
    rw [e2] at r2
    exact ⟨_, _, r1, r2, by simp only [forwardedEvents_append]⟩
  · intro h
    obtain ⟨e, he⟩ := cardKey_cases h (buf.getD 1 0) (radio_status q)
    have e1 := he h.inputStates
    have e2 := he (h.inputStates ++ e)
    obtain ⟨b1, hb1, r1⟩ := cardKey_handleRadioPacket_completed h hq hud
    obtain ⟨b2, hb2, r2⟩ := cardKey_handleRadioPacket_completed
      { h with inputStates := h.inputStates ++ e } hq hud
    rw [hpp] at hb1 hb2
    cases hb1
    cases hb2
    simp only at e1 e2
    rw [e1] at r1
    rw [e2] at r2
    exact ⟨_, _, r1, r2, by simp only [forwardedEvents_append]⟩
  · intro h hb
    obtain ⟨e, he⟩ := smokeDetector_cases h hb (buf.getD 1 0)
    have e1 := he h.inputStates
    have e2 := he (h.inputStates ++ e)
    obtain ⟨b1, hb1, r1⟩ := smokeDetector_handleRadioPacket_completed h hq hud
    obtain ⟨b2, hb2, r2⟩ := smokeDetector_handleRadioPacket_completed
      { h with inputStates := h.inputStates ++ e } hq hud
    rw [hpp] at hb1 hb2
    cases hb1
    cases hb2
    simp only at e1 e2
    rw [e1] at r1
    rw [e2] at r2
    exact ⟨_, _, r1, r2, by simp only [forwardedEvents_append]⟩
  · intro h
    obtain ⟨b1, hb1, r1⟩ := rockerButton_handleRadioPacket_completed h hq hud
    obtain ⟨b2, hb2, r2⟩ := rockerButton_handleRadioPacket_completed
      (EnoceanRpsButtonHandler.handleTelegram h (buf.getD 1 0) (radio_status q)) hq hud
    rw [hpp] at hb1 hb2
    cases hb1
    cases hb2
    rw [EnoceanRpsButtonHandler.handleTelegram_idem] at r2
    exact ⟨_, r1, r2, forwardedEvents_self _⟩

/-- Witness for C25 (amended): the reference packet (data `0x30`); the alarm
channel of a smoke detector forwards `false` both times. -/
theorem decoder_repeat_witness :
    (Completed refPacket ∧ 1 ≤ radio_userDataLength refPacket ∧
      (⟨false, true, []⟩ : EnoceanRpsSmokeDetectorHandler).behaviour = true) ∧
    EnoceanRpsSmokeDetectorHandler.handleRadioPacket ⟨false, true, []⟩ refPacket =
      some ⟨false, true, [false]⟩ ∧
    EnoceanRpsSmokeDetectorHandler.handleRadioPacket ⟨false, true, [false]⟩ refPacket =
      some ⟨false, true, [false, false]⟩ ∧
    ∃ h1 h2,
      EnoceanRpsSmokeDetectorHandler.handleRadioPacket ⟨false, true, []⟩ refPacket = some h1 ∧
      EnoceanRpsSmokeDetectorHandler.handleRadioPacket h1 refPacket = some h2 ∧
      forwardedEvents h1.inputStates h2.inputStates =
        forwardedEvents ([] : List Bool) h1.inputStates :=
  ⟨⟨refPacket_completed, by decide, rfl⟩, by decide, by decide,
   (decoder_repeat refPacket refPacket_completed (by decide)).2.2.1 ⟨false, true, []⟩ rfl⟩

/-- C26: dispatch with learn mode disabled.  For every registry and every
error-free telegram `t`, `EnoceanDeviceContainer::handleRadioPacket` calls
`handleRadioPacket(t)` on the devices registered under the sender address of
`t`, once per registry entry and in registry order, and on no other device
(nothing at all, leaving the container as it is, when the sender is
unregistered); learn mode stays disabled, the registry is unchanged, and no
learn event, vanish request or removal happens. -/
theorem dispatch_learn_disabled (c : EnoceanDeviceContainer) (t : RadioTelegram)
    (hl : c.learningMode = false) :
    EnoceanDeviceContainer.handleRadioPacket c t false =
      { c with handledPackets := (c.handledPackets ++
          List.map (fun d => (d, t))
            (c.enoceanDevices.filter (fun d => decide (d.address = t.radioSender)))) } ∧
    (∀ d, d ∈ (c.enoceanDevices.filter (fun d => decide (d.address = t.radioSender))) ↔
      (d ∈ c.enoceanDevices ∧ d.address = t.radioSender)) ∧
    (∀ d, (c.enoceanDevices.filter (fun d => decide (d.address = t.radioSender))).count d =
      if d.address = t.radioSender then c.enoceanDevices.count d else 0) ∧
    ((∀ d ∈ c.enoceanDevices, d.address ≠ t.radioSender) →
      EnoceanDeviceContainer.handleRadioPacket c t false = c) ∧
    (EnoceanDeviceContainer.handleRadioPacket c t false).learningMode = false ∧
    (EnoceanDeviceContainer.handleRadioPacket c t false).enoceanDevices = c.enoceanDevices ∧
    (EnoceanDeviceContainer.handleRadioPacket c t false).learnEvents = c.learnEvents ∧
    (EnoceanDeviceContainer.handleRadioPacket c t false).vanishRequests = c.vanishRequests ∧
    (EnoceanDeviceContainer.handleRadioPacket c t false).removedDevices = c.removedDevices := by
  have h := EnoceanDeviceContainer.handleRadioPacket_dispatch c t hl
  unfold EnoceanDeviceContainer.devicesAt at h
  refine ⟨h, ?_, ?_, ?_, ?_, ?_, ?_, ?_, ?_⟩
  · intro d
    simp [List.mem_filter]
  · intro d
    by_cases hd : d.address = t.radioSender
    · rw [if_pos hd, List.count_filter (by simpa using hd)]
    · rw [if_neg hd, List.count_eq_zero]
      intro hmem
      exact hd (by simpa using (List.mem_filter.1 hmem).2)
  · intro hnone
    rw [h]
    have : c.enoceanDevices.filter (fun d => decide (d.address = t.radioSender)) = [] := by
      rw [List.filter_eq_nil_iff]
      intro a ha
      simpa using hnone a ha
    rw [this]
    simp
  · rw [h]; exact hl
  · rw [h]
  · rw [h]
  · rw [h]
  · rw [h]

/-- Witness for C26: the reference telegram (sender `0x0086B81A`) reaches the two
devices paired under its sender, in registry order, and the devices under the
other addresses are not called. -/
theorem dispatch_learn_disabled_witness :
    pairedContainer.learningMode = false ∧
    (EnoceanDeviceContainer.handleRadioPacket pairedContainer ⟨refPacket, false, 0⟩
        false).handledPackets =
      [(⟨0x0086B81A, 0⟩, ⟨refPacket, false, 0⟩), (⟨0x0086B81A, 1⟩, ⟨refPacket, false, 0⟩)] :=
  ⟨rfl,
   (congrArg EnoceanDeviceContainer.handledPackets
      (dispatch_learn_disabled pairedContainer ⟨refPacket, false, 0⟩ rfl).1).trans (by decide)⟩

/-- C27 (counterexample): learn mode is enabled and the registry is empty; the
error-free reference telegram (sender `0x0086B81A`) carries teach-in
information, but its profile yields no device.  Handling it registers nothing
for the sender and reports no learn event, yet learn mode is disabled. -/
theorem learn_without_device_counterexample :
    learningContainer.learningMode = true ∧ learningContainer.enoceanDevices = [] ∧
    (⟨refPacket, true, 0⟩ : RadioTelegram).eepHasTeachInfo = true ∧
    (⟨refPacket, true, 0⟩ : RadioTelegram).radioSender = 0x0086B81A ∧
    (EnoceanDeviceContainer.handleRadioPacket learningContainer ⟨refPacket, true, 0⟩
        false).enoceanDevices = [] ∧
    (EnoceanDeviceContainer.handleRadioPacket learningContainer ⟨refPacket, true, 0⟩
        false).learnEvents = [] ∧
    (EnoceanDeviceContainer.handleRadioPacket learningContainer ⟨refPacket, true, 0⟩
        false).learningMode = false :=
  ⟨rfl, rfl, rfl, by decide, by decide, by decide, by decide⟩

/-- C27 (amended): learn single-shot.  Start with learn mode enabled and an
empty registry.  Handling an error-free telegram `t1` with teach-in information
from address `A` disables learn mode and registers exactly the devices
`(A, 0), (A, 1), ...` of its profile, all under `A`.  When the profile yields at
least one device, a device is registered under `A` and one learn-in event is
reported; when it yields none, nothing is registered and no learn event is
reported.  Handling any second error-free telegram `t2` afterwards (from `A` or
from any other address) performs no learn action: the registry is unchanged by
it, no learn event is reported, no device vanishes or is removed, and learn mode
remains disabled. -/
theorem learn_single_shot (c : EnoceanDeviceContainer) (t1 t2 : RadioTelegram)
    (hl : c.learningMode = true) (hreg : c.enoceanDevices = [])
    (h1 : t1.eepHasTeachInfo = true) :
    ((EnoceanDeviceContainer.handleRadioPacket c t1 false).learningMode = false ∧
      (EnoceanDeviceContainer.handleRadioPacket c t1 false).enoceanDevices =
        (List.range t1.eepNumDevices).map (fun i => (⟨t1.radioSender, i⟩ : EnoceanDevice)) ∧
      (∀ d ∈ (EnoceanDeviceContainer.handleRadioPacket c t1 false).enoceanDevices,
        d.address = t1.radioSender) ∧
      (0 < t1.eepNumDevices →
        (∃ d ∈ (EnoceanDeviceContainer.handleRadioPacket c t1 false).enoceanDevices,
          d.address = t1.radioSender) ∧
        (EnoceanDeviceContainer.handleRadioPacket c t1 false).learnEvents =
          c.learnEvents ++ [true]) ∧
      (t1.eepNumDevices = 0 →
        (EnoceanDeviceContainer.handleRadioPacket c t1 false).enoceanDevices = [] ∧
        (EnoceanDeviceContainer.handleRadioPacket c t1 false).learnEvents = c.learnEvents)) ∧
    ((EnoceanDeviceContainer.handleRadioPacket
          (EnoceanDeviceContainer.handleRadioPacket c t1 false) t2 false).enoceanDevices =
        (EnoceanDeviceContainer.handleRadioPacket c t1 false).enoceanDevices ∧
      (EnoceanDeviceContainer.handleRadioPacket
          (EnoceanDeviceContainer.handleRadioPacket c t1 false) t2 false).learnEvents =
        (EnoceanDeviceContainer.handleRadioPacket c t1 false).learnEvents ∧
      (EnoceanDeviceContainer.handleRadioPacket
          (EnoceanDeviceContainer.handleRadioPacket c t1 false) t2 false).vanishRequests =
        (EnoceanDeviceContainer.handleRadioPacket c t1 false).vanishRequests ∧
      (EnoceanDeviceContainer.handleRadioPacket
          (EnoceanDeviceContainer.handleRadioPacket c t1 false) t2 false).removedDevices =
        (EnoceanDeviceContainer.handleRadioPacket c t1 false).removedDevices ∧
      (EnoceanDeviceContainer.handleRadioPacket
          (EnoceanDeviceContainer.handleRadioPacket c t1 false) t2 false).learningMode =
        false) := by
  have e1 := EnoceanDeviceContainer.handleRadioPacket_learnIn_any c t1 hl hreg h1
  have hoff : (EnoceanDeviceContainer.handleRadioPacket c t1 false).learningMode = false := by
    rw [e1]
  have e2 := EnoceanDeviceContainer.handleRadioPacket_dispatch
    (EnoceanDeviceContainer.handleRadioPacket c t1 false) t2 hoff
  refine ⟨⟨hoff, by rw [e1], ?_, ?_, ?_⟩, ?_⟩
  · rw [e1]
    intro d hd
    simp only [List.mem_map] at hd
    obtain ⟨i, _, rfl⟩ := hd
    rfl
  · intro hn
    rw [e1]
    refine ⟨⟨⟨t1.radioSender, 0⟩, ?_, rfl⟩, ?_⟩
    · simp only [List.mem_map, List.mem_range]
      exact ⟨0, hn, rfl⟩
    · simp only [if_pos hn]
  · intro h0
    rw [e1]
    simp [h0]
  · rw [e2]
    exact ⟨rfl, rfl, rfl, rfl, hoff⟩

/-- Witness for C27 (amended): the reference telegram (sender `0x0086B81A`) as
teach-in telegram of a two-rocker profile, then a second teach-in telegram from
another packet. -/
theorem learn_single_shot_witness :
    (learningContainer.learningMode = true ∧ learningContainer.enoceanDevices = [] ∧
      (⟨refPacket, true, 2⟩ : RadioTelegram).eepHasTeachInfo = true) ∧
    (EnoceanDeviceContainer.handleRadioPacket learningContainer ⟨refPacket, true, 2⟩
        false).enoceanDevices = [⟨0x0086B81A, 0⟩, ⟨0x0086B81A, 1⟩] ∧
    (EnoceanDeviceContainer.handleRadioPacket learningContainer ⟨refPacket, true, 2⟩
        false).learnEvents = [true] ∧
    (EnoceanDeviceContainer.handleRadioPacket
        (EnoceanDeviceContainer.handleRadioPacket learningContainer ⟨refPacket, true, 2⟩ false)
        ⟨uMessagePacket, true, 1⟩ false).enoceanDevices =
      (EnoceanDeviceContainer.handleRadioPacket learningContainer ⟨refPacket, true, 2⟩
        false).enoceanDevices :=
  ⟨⟨rfl, rfl, rfl⟩,
   (learn_single_shot learningContainer ⟨refPacket, true, 2⟩ ⟨uMessagePacket, true, 1⟩ rfl rfl
      rfl).1.2.1.trans (by decide),
   ((learn_single_shot learningContainer ⟨refPacket, true, 2⟩ ⟨uMessagePacket, true, 1⟩ rfl rfl
      rfl).1.2.2.2.1 (by decide)).2,
   (learn_single_shot learningContainer ⟨refPacket, true, 2⟩ ⟨uMessagePacket, true, 1⟩ rfl rfl
      rfl).2.1⟩

/-- C28: learn-out.  With learn mode enabled, for every error-free telegram `t`
with teach-in information whose sender address `A` has at least one registered
device, `handleRadioPacket` calls `hasVanished(false)` on every device
registered under `A`, in registry order, each of which removes that device with
`aForget = false`; afterwards the registry holds the entries of the other
addresses, unchanged and in their order, and no entry for `A`; one learn event
with `learnIn = false` is reported, learn mode is disabled, and no device
handler is called. -/
theorem learn_out (c : EnoceanDeviceContainer) (t : RadioTelegram)
    (hl : c.learningMode = true) (ht : t.eepHasTeachInfo = true)
    (hreg : ∃ d ∈ c.enoceanDevices, d.address = t.radioSender) :
    EnoceanDeviceContainer.handleRadioPacket c t false =
      { c with
        learningMode := false,
        enoceanDevices := c.enoceanDevices.filter (fun d => decide (d.address ≠ t.radioSender)),
        vanishRequests := (c.vanishRequests ++
          List.map (fun dev => (dev, false))
            (c.enoceanDevices.filter (fun d => decide (d.address = t.radioSender)))),
        removedDevices := (c.removedDevices ++
          List.map (fun dev => (dev, false))
            (c.enoceanDevices.filter (fun d => decide (d.address = t.radioSender)))),
        learnEvents := c.learnEvents ++ [false] } ∧
    (∀ d ∈ (EnoceanDeviceContainer.handleRadioPacket c t false).enoceanDevices,
      d.address ≠ t.radioSender) ∧
    (∀ B, B ≠ t.radioSender →
      EnoceanDeviceContainer.devicesAt (EnoceanDeviceContainer.handleRadioPacket c t false) B =
        EnoceanDeviceContainer.devicesAt c B) ∧
    (EnoceanDeviceContainer.handleRadioPacket c t false).learnEvents =
      c.learnEvents ++ [false] ∧
    (EnoceanDeviceContainer.handleRadioPacket c t false).learningMode = false ∧
    (EnoceanDeviceContainer.handleRadioPacket c t false).handledPackets = c.handledPackets := by
  have h := EnoceanDeviceContainer.handleRadioPacket_learnOut c t hl ht hreg
  unfold EnoceanDeviceContainer.devicesAt at h
  refine ⟨h, ?_, ?_, ?_, ?_, ?_⟩
  · rw [h]
    intro d hd
    simpa using (List.mem_filter.1 hd).2
  · intro B hB
    rw [h]
    unfold EnoceanDeviceContainer.devicesAt
    simp only [List.filter_filter]
    apply List.filter_congr
    intro x _
    by_cases hx : x.address = B
    · simp [hx, hB]
    · simp [hx]
  · rw [h]
  · rw [h]
  · rw [h]

/-- Witness for C28: in learn mode, the reference telegram as teach-in telegram
of the paired sender `0x0086B81A` removes the two devices under that address and
keeps those under the other addresses. -/
theorem learn_out_witness :
    ((EnoceanDeviceContainer.setLearnMode pairedContainer true).learningMode = true ∧
      (⟨refPacket, true, 2⟩ : RadioTelegram).eepHasTeachInfo = true ∧
      ∃ d ∈ (EnoceanDeviceContainer.setLearnMode pairedContainer true).enoceanDevices,
        d.address = (⟨refPacket, true, 2⟩ : RadioTelegram).radioSender) ∧
    EnoceanDeviceContainer.handleRadioPacket
        (EnoceanDeviceContainer.setLearnMode pairedContainer true) ⟨refPacket, true, 2⟩ false =
      ⟨false, [⟨3, 0⟩, ⟨0x0086B81B, 0⟩], [], [false],
        [(⟨0x0086B81A, 0⟩, false), (⟨0x0086B81A, 1⟩, false)],
        [(⟨0x0086B81A, 0⟩, false), (⟨0x0086B81A, 1⟩, false)]⟩ :=
  ⟨⟨rfl, rfl, ⟨⟨0x0086B81A, 0⟩, by decide, by decide⟩⟩,
   (learn_out (EnoceanDeviceContainer.setLearnMode pairedContainer true) ⟨refPacket, true, 2⟩
      rfl rfl ⟨⟨0x0086B81A, 0⟩, by decide, by decide⟩).1.trans (by decide)⟩

/-- C29: transport error.  For every container state and every packet, when
`handleRadioPacket` is called with an error it returns with the container as it
was: no device handler is called, nothing is learned in or out, and learn mode
and the registry are unchanged. -/
theorem transport_error_ignored (c : EnoceanDeviceContainer) (t : RadioTelegram) :
    EnoceanDeviceContainer.handleRadioPacket c t true = c ∧
    (EnoceanDeviceContainer.handleRadioPacket c t true).handledPackets = c.handledPackets ∧
    (EnoceanDeviceContainer.handleRadioPacket c t true).learnEvents = c.learnEvents ∧
    (EnoceanDeviceContainer.handleRadioPacket c t true).vanishRequests = c.vanishRequests ∧
    (EnoceanDeviceContainer.handleRadioPacket c t true).learningMode = c.learningMode ∧
    (EnoceanDeviceContainer.handleRadioPacket c t true).enoceanDevices = c.enoceanDevices := by
  have h : EnoceanDeviceContainer.handleRadioPacket c t true = c := by
    unfold EnoceanDeviceContainer.handleRadioPacket
    rw [if_pos rfl]
  rw [h]
  exact ⟨rfl, rfl, rfl, rfl, rfl, rfl⟩

/-- C30: CRC chaining.  For all byte sequences `xs`, `ys` and every seed `s`,
`crc8(xs ++ ys, s) = crc8(ys, crc8(xs, s))`; `crc8` of the empty sequence is
the seed; and `addToCrc8(b, c) = crc8([b], c)` for all `b`, `c`. -/
theorem crc8_chaining (xs ys : List Nat) (s b c : Nat) :
    crc8 (xs ++ ys) s = crc8 ys (crc8 xs s) ∧ crc8 [] s = s ∧ addToCrc8 b c = crc8 [b] c := by
  refine ⟨crc8_append xs ys s, crc8_nil s, ?_⟩
  rw [crc8_cons, crc8_nil]
  unfold addToCrc8
  rw [Nat.xor_comm]

/-- C31: header replay is a faithful rescan.  For every stream, given to a new
packet in one `acceptBytes` call or chunk by chunk, the framer ends where the
reference scanner `refScan` ends.  If the scanner finds a packet at position
`pos`, the calls accept `pos + 6 + size` bytes in total and leave the complete
packet with the scanner's header and payload.  If the scan is pending at `pos`,
all bytes are accepted and the packet is incomplete, well formed, and holds
exactly the stream bytes from `pos` on.  The replay in place of the header bytes
1..5 of a rejected header does what feeding these five bytes as new input does:
no stored byte is overwritten before it is re-read. -/
theorem header_replay_faithful_rescan (chunks : List (List Nat)) :
    (∀ pos hdr pl, refScan chunks.flatten = ScanResult.complete pos hdr pl →
      acceptBytes new chunks.flatten = some (pos + 6 + pl.length, completed hdr pl) ∧
      acceptChunksCount new chunks = some (pos + 6 + pl.length, completed hdr pl)) ∧
    (∀ pos, refScan chunks.flatten = ScanResult.pending pos →
      ∃ q, acceptBytes new chunks.flatten = some (chunks.flatten.length, q) ∧
        acceptChunksCount new chunks = some (chunks.flatten.length, q) ∧
        q.state ≠ PacketState.ps_complete ∧ WellFormed q ∧
        collected q = chunks.flatten.drop pos) ∧
    (∀ a b c d e : Nat,
      run (rejected [0x55, a, b, c, d, e]) [a, b, c, d, e] =
        (5, replayRun 5 1 (rejected [0x55, a, b, c, d, e]))) := by
  have hacc : acceptBytes new chunks.flatten = some (run new chunks.flatten) := by
    rw [acceptBytes_eq_run, if_neg new_not_complete]
  have hcnt := acceptChunksCount_eq_run chunks new new_not_complete
  obtain ⟨hc, hp⟩ := run_new_refScan chunks.flatten
  refine ⟨?_, ?_, ?_⟩
  · intro pos hdr pl h
    rw [hacc, hcnt, (hc pos hdr pl h).1]
    exact ⟨rfl, rfl⟩
  · intro pos h
    obtain ⟨_, h1, h2, h3⟩ := hp pos h
    refine ⟨(run new chunks.flatten).2, ?_, ?_, h2, run_wellFormed _ new new_wellFormed, h3⟩
    · rw [hacc, ← h1]
    · rw [hcnt, ← h1]
  · intro a b c d e
    have hrep := replayRun_eq_run 5 1 (rejected [0x55, a, b, c, d, e]) (rejected_quiet _)
      (by simp [rejected]) (le_refl _) (by simp [rejected])
    have hbytes : ((rejected [0x55, a, b, c, d, e]).header.drop 1).take 5 = [a, b, c, d, e] := by
      simp [rejected]
    rw [hbytes] at hrep
    exact hrep

/-- Witness for C31: a stray sync byte before the reference telegram makes the
first header fail its CRC; scanner and framer find the telegram at position 1.
The stream `55 55 00` leaves both pending at position 0. -/
theorem header_replay_faithful_rescan_witness :
    (refScan straySyncChunks.flatten =
      ScanResult.complete 1 [0x55, 0x00, 0x07, 0x07, 0x01, 0x7A]
        [0xF6, 0x30, 0x00, 0x86, 0xB8, 0x1A, 0x30, 0x03, 0xFF, 0xFF, 0xFF, 0xFF, 0xFF, 0x00,
          0xC0] ∧
      refScan [0x55, 0x55, 0x00] = ScanResult.pending 0) ∧
    acceptChunksCount new straySyncChunks = some (22, refPacket) ∧
    (∃ q, acceptBytes new [[0x55, 0x55, 0x00]].flatten = some (3, q) ∧
      collected q = [0x55, 0x55, 0x00]) :=
  ⟨⟨by decide, by decide⟩,
   ((header_replay_faithful_rescan straySyncChunks).1 1 [0x55, 0x00, 0x07, 0x07, 0x01, 0x7A]
      [0xF6, 0x30, 0x00, 0x86, 0xB8, 0x1A, 0x30, 0x03, 0xFF, 0xFF, 0xFF, 0xFF, 0xFF, 0x00, 0xC0]
      (by decide)).2,
   (((header_replay_faithful_rescan [[0x55, 0x55, 0x00]]).2.1 0 (by decide)).imp
      (fun _ hq => ⟨hq.1, hq.2.2.2.2⟩))⟩

/-- C32: `EnoceanComm::acceptBytes` terminates and consumes everything.  For
every state of the handler and every input of `n` bytes the loop ends and the
function returns exactly `n`; after a non-empty input no completed packet is
kept in place.  When no completed packet is in place at the start, the result
is that of handling the bytes one by one.  Every call that hands a packet that
is not complete a non-empty remainder consumes at least one byte of it, and
after every iteration the packet in place is not complete. -/
theorem comm_acceptBytes_consumes_all (c : EnoceanComm) (bytes : List Nat) :
    (∃ c1, EnoceanComm.acceptBytes c bytes = some (bytes.length, c1) ∧
      (bytes ≠ [] → EnoceanComm.Ready c1)) ∧
    (EnoceanComm.Ready c →
      EnoceanComm.acceptBytes c bytes = some (bytes.length, bytes.foldl EnoceanComm.feed c)) ∧
    (∀ (p : Esp3Packet) (b : Nat) (rest : List Nat), p.state ≠ PacketState.ps_complete →
      ∃ k p1, Esp3Packet.acceptBytes p (b :: rest) = some (k, p1) ∧ 1 ≤ k ∧
        k ≤ (b :: rest).length) ∧
    (∀ pkt1 : Esp3Packet, EnoceanComm.Ready (EnoceanComm.afterPacket c pkt1)) := by
  refine ⟨?_, ?_, ?_, ?_⟩
  · obtain ⟨c1, h1, h2⟩ := EnoceanComm.acceptLoop_total c bytes (bytes.length + 2) (le_refl _)
    refine ⟨c1, ?_, h2⟩
    unfold EnoceanComm.acceptBytes
    rw [h1]
    simp
  · intro hc
    exact EnoceanComm.acceptBytes_eq_foldl c hc bytes
  · intro p b rest hp
    refine ⟨(run p (b :: rest)).1, (run p (b :: rest)).2, ?_, run_fst_pos p b rest,
      run_fst_le p (b :: rest)⟩
    rw [acceptBytes_eq_run, if_neg hp]
  · intro pkt1
    exact EnoceanComm.afterPacket_ready c pkt1

/-- Witness for C32: a new packet accepts at least one of three bytes, and a new
handler consumes the reference telegram whole. -/
theorem comm_acceptBytes_consumes_all_witness :
    (Esp3Packet.new.state ≠ PacketState.ps_complete ∧
      EnoceanComm.Ready EnoceanComm.new) ∧
    (∃ k p1, Esp3Packet.acceptBytes Esp3Packet.new (0x55 :: [0x00, 0x07]) = some (k, p1) ∧
      1 ≤ k ∧ k ≤ (0x55 :: [0x00, 0x07]).length) ∧
    EnoceanComm.acceptBytes EnoceanComm.new refTelegram =
      some (refTelegram.length, refTelegram.foldl EnoceanComm.feed EnoceanComm.new) :=
  ⟨⟨by decide, EnoceanComm.new_ready⟩,
   (comm_acceptBytes_consumes_all EnoceanComm.new refTelegram).2.2.1 Esp3Packet.new 0x55
     [0x00, 0x07] (by decide),
   (comm_acceptBytes_consumes_all EnoceanComm.new refTelegram).2.1 EnoceanComm.new_ready⟩

/-- C33: rocker device creation.  With `eep_ignore_type_mask = 0xFFFF00`, for
every address, manufacturer and profile `p`: if `p & 0xFFFF00 = 0xF60200`,
`newDevice` returns a device iff the subdevice index is below 2; if
`p & 0xFFFF00 = 0xF60300`, iff it is below 4.  Every such device carries
exactly two channel handlers, first the down-key handler (`isRockerUp = false`)
and then the up-key handler (`isRockerUp = true`), both with `switchIndex`
equal to the subdevice index, and has the address, subdevice index, profile and
manufacturer given.  For a profile that matches none of F602xx, F603xx, F610xx,
F604xx and is not `0xF605C0`, no device is returned. -/
theorem newDevice_rocker (aAddress s p m : Nat) (r : Bool) :
    (p &&& 0xFFFF00 = 0xF60200 →
      ((EnoceanRpsHandler.newDevice aAddress s p m r).isSome = true ↔ s < 2)) ∧
    (p &&& 0xFFFF00 = 0xF60300 →
      ((EnoceanRpsHandler.newDevice aAddress s p m r).isSome = true ↔ s < 4)) ∧
    ((p &&& 0xFFFF00 = 0xF60200 ∨ p &&& 0xFFFF00 = 0xF60300) →
      ∀ dev, EnoceanRpsHandler.newDevice aAddress s p m r = some dev →
        dev.channels =
          [EnoceanChannelHandler.button ⟨s, false, false, true, []⟩,
           EnoceanChannelHandler.button ⟨s, true, false, true, []⟩] ∧
        dev.address = aAddress ∧ dev.subDevice = s ∧ dev.eeProfile = p ∧
        dev.eeManufacturer = m) ∧
    ((p &&& 0xFFFF00 ≠ 0xF60200 ∧ p &&& 0xFFFF00 ≠ 0xF60300 ∧ p &&& 0xFFFF00 ≠ 0xF61000 ∧
        p &&& 0xFFFF00 ≠ 0xF60400 ∧ p ≠ 0xF605C0) →
      EnoceanRpsHandler.newDevice aAddress s p m r = none) ∧
    eep_ignore_type_mask = 0xFFFF00 := by
  refine ⟨?_, ?_, ?_, ?_, rfl⟩
  · intro hp
    unfold EnoceanRpsHandler.newDevice
    simp only [eep_ignore_type_mask, hp]
    by_cases hs : s < 2 <;> simp [hs]
  · intro hp
    unfold EnoceanRpsHandler.newDevice
    simp only [eep_ignore_type_mask, hp]
    by_cases hs : s < 4 <;> simp [hs]
  · intro hp dev hdev
    unfold EnoceanRpsHandler.newDevice at hdev
    simp only [eep_ignore_type_mask] at hdev
    rw [if_pos hp] at hdev
    split_ifs at hdev
    all_goals
      simp only [Option.some.injEq] at hdev
      subst hdev
      simp [EnoceanRpsHandler.createDevice, EnoceanRPSDevice.addChannelHandler]
  · rintro ⟨h1, h2, h3, h4, h5⟩
    unfold EnoceanRpsHandler.newDevice
    simp only [eep_ignore_type_mask]
    rw [if_neg (by simp [h1, h2]), if_neg h3, if_neg h4, if_neg h5]

/-- Witness for C33: the two-rocker profile `0xF60201` yields a device for
subdevice 1 and none for subdevice 2; the profile `0xF60501` yields none. -/
theorem newDevice_rocker_witness :
    ((0xF60201 : Nat) &&& 0xFFFF00 = 0xF60200 ∧ (1 : Nat) < 2 ∧ ¬ (2 : Nat) < 2) ∧
    (EnoceanRpsHandler.newDevice 5 1 0xF60201 7 false).isSome = true ∧
    ¬ (EnoceanRpsHandler.newDevice 5 2 0xF60201 7 false).isSome = true ∧
    EnoceanRpsHandler.newDevice 5 0 0xF60501 7 false = none :=
  ⟨⟨by decide, by decide, by decide⟩,
   ((newDevice_rocker 5 1 0xF60201 7 false).1 (by decide)).2 (by decide),
   fun h => absurd (((newDevice_rocker 5 2 0xF60201 7 false).1 (by decide)).1 h) (by decide),
   (newDevice_rocker 5 0 0xF60501 7 false).2.2.2.1 (by decide)⟩

/-- C34: `EnoceanDeviceContainer::removeDevice` and the registry.  A device
that is not an `EnoceanDevice` leaves the container unchanged.  For an
`EnoceanDevice` `ed`, either no entry has the address and the subdevice index
of `ed` and the registry is unchanged, or the registry is `l1 ++ a :: l2` with
`a` the first entry that has both, and becomes `l1 ++ l2`.  So at most one
entry is removed, and the entries with a different address or a different
subdevice index remain, in the same order. -/
theorem removeDevice_frame (c : EnoceanDeviceContainer) (ed : EnoceanDevice) (aForget : Bool) :
    EnoceanDeviceContainer.removeDevice c DevicePtr.other aForget = c ∧
    (((∀ d ∈ c.enoceanDevices, ¬ (d.address = ed.address ∧ d.subDevice = ed.subDevice)) ∧
        (EnoceanDeviceContainer.removeDevice c (DevicePtr.enocean ed) aForget).enoceanDevices =
          c.enoceanDevices) ∨
      (∃ l1 a l2, c.enoceanDevices = l1 ++ a :: l2 ∧
        (∀ d ∈ l1, ¬ (d.address = ed.address ∧ d.subDevice = ed.subDevice)) ∧
        (a.address = ed.address ∧ a.subDevice = ed.subDevice) ∧
        (EnoceanDeviceContainer.removeDevice c (DevicePtr.enocean ed) aForget).enoceanDevices =
          l1 ++ l2)) ∧
    (EnoceanDeviceContainer.removeDevice c (DevicePtr.enocean ed) aForget).enoceanDevices.filter
        (fun d => decide (¬ (d.address = ed.address ∧ d.subDevice = ed.subDevice))) =
      c.enoceanDevices.filter
        (fun d => decide (¬ (d.address = ed.address ∧ d.subDevice = ed.subDevice))) ∧
    c.enoceanDevices.length ≤
      (EnoceanDeviceContainer.removeDevice c (DevicePtr.enocean ed) aForget).enoceanDevices.length
        + 1 := by
  have hreg : (EnoceanDeviceContainer.removeDevice c (DevicePtr.enocean ed) aForget).enoceanDevices =
      c.enoceanDevices.eraseP
        (fun d => decide (d.address = ed.address) && decide (d.subDevice = ed.subDevice)) := rfl
  rw [hreg]
  have hcases : (∀ d ∈ c.enoceanDevices, ¬ (d.address = ed.address ∧ d.subDevice = ed.subDevice)) ∨
      ∃ e ∈ c.enoceanDevices, (e.address = ed.address ∧ e.subDevice = ed.subDevice) := by
    by_cases h : ∃ e ∈ c.enoceanDevices, (e.address = ed.address ∧ e.subDevice = ed.subDevice)
    · exact Or.inr h
    · left
      intro d hd hm
      exact h ⟨d, hd, hm⟩
  rcases hcases with hnone | ⟨e, he, hm⟩
  · have herase : c.enoceanDevices.eraseP
        (fun d => decide (d.address = ed.address) && decide (d.subDevice = ed.subDevice)) =
        c.enoceanDevices := by
      apply List.eraseP_of_forall_not
      intro a ha
      simpa using hnone a ha
    rw [herase]
    exact ⟨rfl, Or.inl ⟨hnone, rfl⟩, rfl, Nat.le_succ _⟩
  · obtain ⟨a, l1, l2, hl1, hpa, hsplit, herase⟩ :=
      @List.exists_of_eraseP _ (fun d : EnoceanDevice =>
        decide (d.address = ed.address) && decide (d.subDevice = ed.subDevice))
        c.enoceanDevices e he (by simpa using hm)
    have hma : a.address = ed.address ∧ a.subDevice = ed.subDevice := by simpa using hpa
    rw [herase]
    refine ⟨rfl, Or.inr ⟨l1, a, l2, hsplit, ?_, hma, rfl⟩, ?_, ?_⟩
    · intro d hd
      simpa using hl1 d hd
    · rw [hsplit]
      simp [List.filter_append, List.filter_cons, hma]
    · rw [hsplit]
      simp only [List.length_append, List.length_cons]
      omega

/-- Witness for C34: removing subdevice 1 of address `0x0086B81A` from the
paired container erases that entry and keeps the other three in order. -/
theorem removeDevice_frame_witness :
    (EnoceanDeviceContainer.removeDevice pairedContainer (DevicePtr.enocean ⟨0x0086B81A, 1⟩)
        true).enoceanDevices = [⟨3, 0⟩, ⟨0x0086B81A, 0⟩, ⟨0x0086B81B, 0⟩] ∧
    (EnoceanDeviceContainer.removeDevice pairedContainer (DevicePtr.enocean ⟨0x0086B81A, 1⟩)
        true).enoceanDevices.filter
        (fun d => decide (¬ (d.address = 0x0086B81A ∧ d.subDevice = 1))) =
      pairedContainer.enoceanDevices.filter
        (fun d => decide (¬ (d.address = 0x0086B81A ∧ d.subDevice = 1))) :=
  ⟨by decide, (removeDevice_frame pairedContainer ⟨0x0086B81A, 1⟩ true).2.2.1⟩

/-- C35: CRC8 detects every single-bit error.  For every non-empty sequence
`xs` of bytes, every seed byte `s`, every position `i` in `xs` and every bit
`k < 8`, flipping bit `k` of the byte at `i` changes `crc8(xs, s)`. -/
theorem crc8_single_bit_error (xs : List Nat) (s i k : Nat) (hxs : ∀ x ∈ xs, x < 256)
    (hs : s < 256) (hi : i < xs.length) (hk : k < 8) :
    crc8 (xs.set i (xs.getD i 0 ^^^ 2 ^ k)) s ≠ crc8 xs s := by
  have hv : xs.getD i 0 < 256 := getD_lt xs i hxs
  have hsplit := body_split xs i hi
  have hset : xs.set i (xs.getD i 0 ^^^ 2 ^ k) =
      xs.take i ++ (xs.getD i 0 ^^^ 2 ^ k) :: xs.drop (i + 1) := by
    have hlen : (xs.take i).length = i := by simp; omega
    have := set_append_cons (xs.take i) (xs.getD i 0) (xs.getD i 0 ^^^ 2 ^ k) (xs.drop (i + 1))
    rw [hlen, ← hsplit] at this
    exact this
  rw [hset]
  conv_rhs => rw [hsplit]
  exact crc8_single_byte_change _ _ _ _ s hs (xor_bit_lt _ _ hv hk) hv
    (fun y hy => hxs y (List.mem_of_mem_drop hy)) (xor_bit_ne _ _)

/-- Witness for C35: bit 3 of the third of the header bytes `00 07 07 01`. -/
theorem crc8_single_bit_error_witness :
    ((∀ x ∈ [0x00, 0x07, 0x07, 0x01], x < 256) ∧ (0 : Nat) < 256 ∧
      2 < [0x00, 0x07, 0x07, 0x01].length ∧ 3 < 8) ∧
    crc8 ([0x00, 0x07, 0x07, 0x01].set 2 (([0x00, 0x07, 0x07, 0x01] : List Nat).getD 2 0 ^^^ 2 ^ 3)) 0 ≠
      crc8 [0x00, 0x07, 0x07, 0x01] 0 :=
  ⟨⟨by decide, by decide, by decide, by decide⟩,
   crc8_single_bit_error [0x00, 0x07, 0x07, 0x01] 0 2 3 (by decide) (by decide) (by decide)
     (by decide)⟩

/-- C36: a completed packet is a contiguous slice of the input.  For every
stream fed chunk by chunk to a new packet: if the calls accept `n` bytes in
total and leave the packet complete, then its six header bytes followed by its
`payloadSize` payload bytes are the stream bytes at the positions
`n-(6+payloadSize) .. n-1`, whether or not headers were rejected and replayed
on the way. -/
theorem completed_packet_is_slice (chunks : List (List Nat)) (n : Nat) (q : Esp3Packet)
    (h : acceptChunksCount new chunks = some (n, q))
    (hq : q.state = PacketState.ps_complete) :
    ∃ buf, q.payloadP = some buf ∧ buf.length = q.payloadSize ∧ q.header.length = 6 ∧
      6 + q.payloadSize ≤ n ∧ n ≤ chunks.flatten.length ∧
      q.header ++ buf =
        (chunks.flatten.drop (n - (6 + q.payloadSize))).take (6 + q.payloadSize) := by
  rw [acceptChunksCount_eq_run chunks new new_not_complete] at h
  obtain ⟨hc, hp⟩ := run_new_refScan chunks.flatten
  cases hscan : refScan chunks.flatten with
  | pending pos =>
    obtain ⟨_, _, h2, _⟩ := hp pos hscan
    have : (run new chunks.flatten).2 = q := by
      have := congrArg (fun r => Option.map Prod.snd r) h
      simpa using this
    rw [this] at h2
    exact absurd hq h2
  | complete pos hdr pl =>
    obtain ⟨h1, h2, h3, h4⟩ := hc pos hdr pl hscan
    rw [h1] at h
    simp only [Option.some.injEq, Prod.mk.injEq] at h
    obtain ⟨hn, hqq⟩ := h
    subst hqq
    subst hn
    refine ⟨pl, rfl, rfl, h3, ?_, h4, ?_⟩
    · simp only [completed]; omega
    · simp only [completed]
      rw [show pos + 6 + pl.length - (6 + pl.length) = pos by omega, h2]

/-- Witness for C36: after a stray sync byte the first header is rejected and
replayed; the reference packet completes after 22 bytes and is the slice of the
stream at the positions 1..21. -/
theorem completed_packet_is_slice_witness :
    (acceptChunksCount new straySyncChunks = some (22, refPacket) ∧
      refPacket.state = PacketState.ps_complete) ∧
    ∃ buf, refPacket.payloadP = some buf ∧ buf.length = refPacket.payloadSize ∧
      refPacket.header.length = 6 ∧ 6 + refPacket.payloadSize ≤ 22 ∧
      22 ≤ straySyncChunks.flatten.length ∧
      refPacket.header ++ buf =
        (straySyncChunks.flatten.drop (22 - (6 + refPacket.payloadSize))).take
          (6 + refPacket.payloadSize) :=
  ⟨⟨by decide, rfl⟩,
   completed_packet_is_slice straySyncChunks 22 refPacket (by decide) rfl⟩

/-- C37: learn mode gates dispatch.  With learn mode enabled, for every registry
and every error-free telegram, `handleRadioPacket` calls no device handler,
whether the sender is registered or not; and a telegram without teach-in
information leaves the container as it is: registry unchanged, no learn event,
no vanish request and learn mode still enabled. -/
theorem learn_mode_gates_dispatch (c : EnoceanDeviceContainer) (t : RadioTelegram)
    (hl : c.learningMode = true) :
    (EnoceanDeviceContainer.handleRadioPacket c t false).handledPackets = c.handledPackets ∧
    (t.eepHasTeachInfo = false →
      EnoceanDeviceContainer.handleRadioPacket c t false = c ∧
      (EnoceanDeviceContainer.handleRadioPacket c t false).enoceanDevices = c.enoceanDevices ∧
      (EnoceanDeviceContainer.handleRadioPacket c t false).learnEvents = c.learnEvents ∧
      (EnoceanDeviceContainer.handleRadioPacket c t false).vanishRequests = c.vanishRequests ∧
      (EnoceanDeviceContainer.handleRadioPacket c t false).learningMode = true) := by
  refine ⟨EnoceanDeviceContainer.handleRadioPacket_learning_handledPackets c t hl, ?_⟩
  intro ht
  have h := EnoceanDeviceContainer.handleRadioPacket_noTeachInfo c t hl ht
  rw [h]
  exact ⟨rfl, rfl, rfl, rfl, hl⟩

/-- Witness for C37: in learn mode the reference telegram without teach-in
information, from a paired sender, reaches no device and changes nothing. -/
theorem learn_mode_gates_dispatch_witness :
    ((EnoceanDeviceContainer.setLearnMode pairedContainer true).learningMode = true ∧
      (⟨refPacket, false, 0⟩ : RadioTelegram).eepHasTeachInfo = false) ∧
    EnoceanDeviceContainer.handleRadioPacket
        (EnoceanDeviceContainer.setLearnMode pairedContainer true) ⟨refPacket, false, 0⟩ false =
      EnoceanDeviceContainer.setLearnMode pairedContainer true :=
  ⟨⟨rfl, rfl⟩,
   ((learn_mode_gates_dispatch (EnoceanDeviceContainer.setLearnMode pairedContainer true)
      ⟨refPacket, false, 0⟩ rfl).2 rfl).1⟩

/-- C38 (failing input): the frame `55 00 06 00 01 crc F6 00 86 B8 1A 30 72` (an
RPS telegram of six data bytes, without user data) completes.  For the completed
packet `radio_rorg()` is RPS and `rps_numRockers()` is 2, so `rps_action(0)` and
`rps_action(1)` read the user-data byte, yet `radio_userDataLength()` is 0 and
`radio_userData()` is the null pointer. -/
theorem rps_action_reads_null_user_data :
    Esp3Packet.acceptBytes Esp3Packet.new (esp3Frame 1 [0xF6, 0x00, 0x86, 0xB8, 0x1A, 0x30] []) =
      some (13, noUserDataPacket) ∧
    Completed noUserDataPacket ∧
    radio_rorg noUserDataPacket = rorg_RPS ∧ rps_numRockers noUserDataPacket = 2 ∧
    (radio_rorg noUserDataPacket = rorg_RPS ∧ 0 < rps_numRockers noUserDataPacket) ∧
    radio_userDataLength noUserDataPacket = 0 ∧
    radio_userData noUserDataPacket = none :=
  ⟨by decide, noUserDataPacket_completed, by decide, by decide, by decide, by decide, by decide⟩

/-- C39: accessor reads stay inside the payload.  For every completed packet,
`payloadSize = dataLength+optDataLength+1`, a checked read succeeds exactly for
the indices `0 <= i < payloadSize`, and `radio_rorg`, `radio_status`,
`radio_sender`, `radio_subtelegrams`, `radio_destination`, `radio_dBm` and
`radio_security_level` with every payload read checked return what the
accessors return: none of their reads has an index outside the payload. -/
theorem accessor_reads_in_bounds (q : Esp3Packet) (hq : Completed q) :
    q.payloadSize = dataLength q + optDataLength q + 1 ∧
    (∀ i : Int, (payloadRead q i).isSome = true ↔ (0 ≤ i ∧ i < (q.payloadSize : Int))) ∧
    radio_rorg_checked q = some (radio_rorg q) ∧
    radio_status_checked q = some (radio_status q) ∧
    radio_sender_checked q = some (radio_sender q) ∧
    radio_subtelegrams_checked q = some (radio_subtelegrams q) ∧
    radio_destination_checked q = some (radio_destination q) ∧
    radio_dBm_checked q = some (radio_dBm q) ∧
    radio_security_level_checked q = some (radio_security_level q) := by
  obtain ⟨buf, hpp, hbl, hdata, hps⟩ := hq.payload
  obtain ⟨h1, h2, h3, h4⟩ := optData_checked_eq hq
  refine ⟨by rw [hps, hbl], ?_, radio_rorg_checked_eq hq, radio_status_checked_eq hq,
    radio_sender_checked_eq hq, h1, h2, h3, h4⟩
  intro i
  unfold payloadRead
  rw [hdata, hpp]
  simp only [hps]
  constructor
  · intro h
    split_ifs at h with hc
    · exact ⟨hc.1, hc.2.1⟩
    · simp at h
  · rintro ⟨h0, h1⟩
    rw [if_pos ⟨h0, h1, by omega⟩]
    rfl

/-- Witness for C39: the reference packet. -/
theorem accessor_reads_in_bounds_witness :
    Completed refPacket ∧
    radio_status_checked refPacket = some 0x30 ∧
    radio_sender_checked refPacket = some 0x0086B81A ∧
    radio_dBm_checked refPacket = some (-255) :=
  ⟨refPacket_completed,
   (accessor_reads_in_bounds refPacket refPacket_completed).2.2.2.1.trans (by decide),
   (accessor_reads_in_bounds refPacket refPacket_completed).2.2.2.2.1.trans (by decide),
   (accessor_reads_in_bounds refPacket refPacket_completed).2.2.2.2.2.2.2.1.trans (by decide)⟩

/-- C40: framer index invariant.  For every packet `q` that `acceptBytes` calls
on a new packet leave: the state is one of the four states; in `ps_headerread`,
`header[0] = 0x55` and `1 <= dataIndex <= 5`; in `ps_dataread` the payload
buffer is allocated with `payloadSize = dataLength()+optDataLength()+1 >= 1`
bytes and `dataIndex < payloadSize`; the header has its six bytes.  Hence
`acceptBytes` with every write `header[dataIndex]` and `payloadP[dataIndex]`
checked, and failing in the `default` branch, does on `q` what `acceptBytes`
does, for every further input, replayed bytes included: no write of a call is
out of bounds and the `default` branch is not taken. -/
theorem framer_index_invariant (chunks : List (List Nat)) (q : Esp3Packet)
    (hq : acceptChunks new chunks = some q) :
    (q.state = PacketState.ps_syncwait ∨ q.state = PacketState.ps_headerread ∨
      q.state = PacketState.ps_dataread ∨ q.state = PacketState.ps_complete) ∧
    (q.state = PacketState.ps_headerread →
      q.header.getD 0 0 = 0x55 ∧ 1 ≤ q.dataIndex ∧ q.dataIndex ≤ 5) ∧
    (q.state = PacketState.ps_dataread →
      ∃ buf, q.payloadP = some buf ∧ buf.length = q.payloadSize ∧
        q.payloadSize = dataLength q + optDataLength q + 1 ∧ 1 ≤ q.payloadSize ∧
        q.dataIndex < q.payloadSize) ∧
    q.header.length = ESP3_HEADERBYTES ∧
    (∀ bytes : List Nat,
      acceptBytesChecked q bytes = acceptBytes q bytes ∧
      ∃ n q1, acceptBytes q bytes = some (n, q1)) ∧
    (∀ b : Nat, q.state ≠ PacketState.ps_complete →
      processByteChecked q b = some (processByte q b)) := by
  have hwf : WellFormed q := acceptChunks_wellFormed chunks new q new_wellFormed hq
  refine ⟨?_, ?_, ?_, hwf.1, ?_, ?_⟩
  · cases q.state
    · exact Or.inl rfl
    · exact Or.inr (Or.inl rfl)
    · exact Or.inr (Or.inr (Or.inl rfl))
    · exact Or.inr (Or.inr (Or.inr rfl))
  · intro hs
    have h := hwf.2
    simp only [hs] at h
    exact ⟨h.2.2.1, h.2.2.2.1, h.2.2.2.2⟩
  · intro hs
    have h := hwf.2
    simp only [hs] at h
    obtain ⟨_, _, buf, h1, h2, h3, h4⟩ := h
    exact ⟨buf, h1, h2, h3, by omega, h4⟩
  · intro bytes
    refine ⟨acceptBytesChecked_eq q bytes hwf, ?_⟩
    rw [acceptBytes_eq_run]
    split_ifs
    · exact ⟨_, _, rfl⟩
    · exact ⟨_, _, rfl⟩
  · intro b hs
    exact processByteChecked_eq q b hwf hs

/-- Witness for C40: the first ten bytes of the reference telegram leave a packet
that reads its payload; two more bytes are stored by in-bounds writes. -/
theorem framer_index_invariant_witness :
    acceptChunks new [[0x55, 0x00, 0x07], [0x07, 0x01, 0x7A, 0xF6, 0x30]] =
      some (reading [0x55, 0x00, 0x07, 0x07, 0x01, 0x7A] [0xF6, 0x30]
        (List.replicate 13 0)) ∧
    acceptBytesChecked
        (reading [0x55, 0x00, 0x07, 0x07, 0x01, 0x7A] [0xF6, 0x30] (List.replicate 13 0))
        [0x00, 0x86] =
      acceptBytes
        (reading [0x55, 0x00, 0x07, 0x07, 0x01, 0x7A] [0xF6, 0x30] (List.replicate 13 0))
        [0x00, 0x86] :=
  ⟨by decide,
   ((framer_index_invariant [[0x55, 0x00, 0x07], [0x07, 0x01, 0x7A, 0xF6, 0x30]] _
      (by decide)).2.2.2.2.1 [0x00, 0x86]).1⟩

end p44
